import Mathlib

/-!
# journald-to-cwl: batching and delivery

A shallow embedding of the Batcher (`batch/batch.go`), the Sink Writer
(`cwl/writer.go`), the Source Reader (`journal/reader.go`), the cursor store
(`cursor.go`) and the Converter (`batch/convert.go`), with the properties of
the design document stated over it.

Modelling conventions.

* A Go `string` used as a message is a sequence of bytes (`len` and slicing are
  byte-wise), so a message is a `List UInt8`.  Cursors and names are only ever
  compared and copied, so they are Lean strings.
* A `*string` that may be nil is an `Option`.
* A `select` loop is a function of the list of the cases it takes, in the order
  in which it takes them.  A channel send is assumed to be received; the batches
  sent are the output of the loop.
* Go `int` is `Int`.  Lengths are bounded by the address space, so the sums of
  lengths formed by the code stay far below `2^63`.
* A panic of a library call is a `none`.  The platform is 64-bit Linux, the one
  `sdjournal` runs on; an allocation whose size the runtime accepts returns
  (memory is not exhausted).
* Attribute values and names are valid UTF-8, so they are Lean strings; the
  library functions the code calls (`strconv.Atoi`, `encoding/json`, `fmt`,
  `os.File`) are modelled as far as the code uses them.
-/

namespace JournaldToCwl

/-! ## Data model -/

/-- The CloudWatch Logs `types.InputLogEvent`: a message and a timestamp, both pointers. -/
structure InputLogEvent where
  Message : Option (List UInt8)
  Timestamp : Option Int
deriving DecidableEq, Repr

/-- The journal entry of `sdjournal.JournalEntry`. -/
structure JournalEntry where
  Fields : List (String × String)
  Cursor : String
  RealtimeTimestamp : Nat
  MonotonicTimestamp : Nat
deriving DecidableEq, Repr

/-- The type `EntryToEventConverter` of `batch/convert.go`. -/
abbrev EntryToEventConverter := JournalEntry → InputLogEvent

/-- Constant `maxCWLBatchSize` of `batch/batch.go`. -/
def maxCWLBatchSize : Nat := 1024 * 1024 * 9 / 10

/-- Constant `bytesToKeepForLogEvent` of `batch/batch.go`. -/
def bytesToKeepForLogEvent : Nat := 500

/-- Constant `maxBatchEvents` of `batch/batch.go`. -/
def maxBatchEvents : Int := 1000

/-- Constant `maxBatchWait` of `batch/batch.go`, two seconds in nanoseconds. -/
def maxBatchWait : Int := 2 * 1000000000

/-- The struct `Batch`: log events and the cursor of the last journal entry. -/
structure Batch where
  Events : List InputLogEvent
  Cursor : String
deriving DecidableEq, Repr

/-- The configuration fields of the struct `Batcher` (its channels are the
input and the output of `Batcher.Batch`). -/
structure Batcher where
  converter : EntryToEventConverter
  maxPayload : Int
  maxEvents : Int
  MaxWait : Int

/-- An `Option` of `batch/batch.go` is a function on the batcher. -/
abbrev BatcherOption := Batcher → Batcher

/-- The option `WithMaxPayload`. -/
def WithMaxPayload (maxPayload : Int) : BatcherOption :=
  fun b => { b with maxPayload := maxPayload }

/-- The option `WithMaxEvents`. -/
def WithMaxEvents (maxEvents : Int) : BatcherOption :=
  fun b => { b with maxEvents := maxEvents }

/-- The option `WithMaxWait`. -/
def WithMaxWait (maxWait : Int) : BatcherOption :=
  fun b => { b with MaxWait := maxWait }

/-- The constructor `NewBatcher`: the defaults, then the options in order. -/
def NewBatcher (converter : EntryToEventConverter) (opts : List BatcherOption) : Batcher :=
  opts.foldl (fun b opt => opt b)
    { converter := converter
      maxPayload := (maxCWLBatchSize : Int)
      maxEvents := maxBatchEvents
      MaxWait := maxBatchWait }

/-! ## The Batcher loop -/

/-- The case taken by one iteration of the `select` of `Batcher.Batch`. -/
inductive BatchSelect where
  | Done
  | Tick
  | Entry (entry : JournalEntry)
deriving DecidableEq, Repr

/-- The local variables `batch` and `bytesCount` of `Batcher.Batch`. -/
structure BatchLoop where
  batch : Batch
  bytesCount : Int
deriving DecidableEq, Repr

/-- The closure `saveOldBatch`: the batches it sends (none for an empty batch). -/
def saveOldBatch (batch : Batch) : List Batch :=
  if batch.Events.length = 0 then [] else [batch]

/-- The closure `startNewBatch`, once its `make` and its `ticker.Reset` have
returned: a fresh batch and a byte counter of zero. -/
def startNewBatch : BatchLoop :=
  { batch := { Events := [], Cursor := "" }, bytesCount := 0 }

/-- Lines 117-122 of `Batcher.Batch`: a message longer than `maxCWLBatchSize`
keeps its first `bytesToKeepForLogEvent` bytes. -/
def truncateMessage (message : List UInt8) : List UInt8 :=
  if message.length > maxCWLBatchSize then message.take bytesToKeepForLogEvent else message

/-- The event as it is appended: the converted event with its message truncated. -/
def truncateEvent (event : InputLogEvent) : InputLogEvent :=
  match event.Message with
  | none => event
  | some message => { event with Message := some (truncateMessage message) }

/-- The `case entry := <-b.entries` of `Batcher.Batch`: the batches sent and the
new values of the local variables. -/
def Batcher.onEntry (b : Batcher) (st : BatchLoop) (entry : JournalEntry) :
    List Batch × BatchLoop :=
  let event := b.converter entry
  match event.Message with
  | none => ([], st)
  | some message =>
    let message := truncateMessage message
    let event := { event with Message := some message }
    let msgSize : Int := message.length
    let flush : Bool :=
      decide (msgSize + st.bytesCount > b.maxPayload) ||
        decide ((st.batch.Events.length : Int) = b.maxEvents)
    let sent := if flush then saveOldBatch st.batch else []
    let st := if flush then startNewBatch else st
    (sent, { batch := { Events := st.batch.Events ++ [event], Cursor := entry.Cursor }
             bytesCount := st.bytesCount + msgSize })

/-- The `for`/`select` loop of `Batcher.Batch` from given local variables: the
batches it sends.  On `Done` it flushes and returns; when no case is left it
waits in `select` and sends nothing more.  The loop is entered only after the
first `startNewBatch()` has returned (`Batcher.start`); `b.maxEvents` and
`b.MaxWait` are never written, so the `make` and the `ticker.Reset` of the later
calls of `startNewBatch()` return as those of the first call did. -/
def Batcher.loop (b : Batcher) (st : BatchLoop) : List BatchSelect → List Batch
  | [] => []
  | BatchSelect.Done :: _ => saveOldBatch st.batch
  | BatchSelect.Tick :: rest => saveOldBatch st.batch ++ Batcher.loop b startNewBatch rest
  | BatchSelect.Entry entry :: rest =>
    (b.onEntry st entry).1 ++ Batcher.loop b (b.onEntry st entry).2 rest

/-- The size in bytes of a `types.InputLogEvent` on a 64-bit platform: two
pointers and an embedded zero-size struct, after which the compiler pads. -/
def sizeofInputLogEvent : Int := 24

/-- The constant `maxAlloc` of the Go runtime on 64-bit Linux, `1 << 48` bytes. -/
def maxAlloc : Int := 281474976710656

/-- The call `make([]types.InputLogEvent, 0, n)`: the check of the runtime
(`makeslice`) panics when `n` is negative or `n` elements take more than
`maxAlloc` bytes; otherwise the slice is empty.  A panic is `none`. -/
def makeEvents (n : Int) : Option (List InputLogEvent) :=
  if n < 0 ∨ sizeofInputLogEvent * n > maxAlloc then none else some []

/-- The call `time.NewTicker(d)`: it panics for a duration that is not positive. -/
def NewTicker (d : Int) : Option Unit :=
  if d ≤ 0 then none else some ()

/-- The call `ticker.Reset(d)`: it panics for a duration that is not positive. -/
def Ticker.Reset (d : Int) : Option Unit :=
  if d ≤ 0 then none else some ()

/-- Lines 80-100 of `Batcher.Batch`, all that comes before the loop:
`time.NewTicker(b.MaxWait)` and the first call of `startNewBatch()`, with its
`make(..., 0, b.maxEvents)` and its `ticker.Reset(b.MaxWait)`.  The result is
the local variables the loop starts from, or `none` when one of the calls
panics. -/
def Batcher.start (b : Batcher) : Option BatchLoop :=
  match NewTicker b.MaxWait, makeEvents b.maxEvents, Ticker.Reset b.MaxWait with
  | some (), some events, some () =>
    some { batch := { Events := events, Cursor := "" }, bytesCount := 0 }
  | _, _, _ => none

/-- The method `Batcher.Batch`: the batches sent on `b.batches`.  When the
start panics (a `MaxWait` that is not positive, a `maxEvents` that is negative
or too large for `make`) the loop is never entered and no batch is sent. -/
def Batcher.Batch (b : Batcher) (cases : List BatchSelect) : List Batch :=
  match b.start with
  | none => []
  | some st => b.loop st cases

/-- The sum of the message byte lengths of a list of events. -/
def payloadBytes : List InputLogEvent → Nat
  | [] => 0
  | event :: rest => (event.Message.elim 0 List.length) + payloadBytes rest

/-- The entries the loop takes before it takes `Done`, in order. -/
def entriesTaken : List BatchSelect → List JournalEntry
  | [] => []
  | BatchSelect.Done :: _ => []
  | BatchSelect.Tick :: rest => entriesTaken rest
  | BatchSelect.Entry entry :: rest => entry :: entriesTaken rest

/-- The entries the loop appends to a batch: those taken before `Done` whose
converted message is not nil. -/
def entriesAppended (b : Batcher) : List BatchSelect → List JournalEntry
  | [] => []
  | BatchSelect.Done :: _ => []
  | BatchSelect.Tick :: rest => entriesAppended b rest
  | BatchSelect.Entry entry :: rest =>
    if (b.converter entry).Message = none then entriesAppended b rest
    else entry :: entriesAppended b rest

/-- The batch that holds the events of a run of entries, with the cursor of the
last entry of the run. -/
def batchOf (b : Batcher) (group : List JournalEntry) : Batch :=
  { Events := group.map (fun entry => truncateEvent (b.converter entry))
    Cursor := (group.getLast?.map JournalEntry.Cursor).getD "" }

/-! ## The Sink Writer -/

/-- An error returned by the remote client.  `errors.As(err, &apiErr)` succeeds
exactly on `api`, and `code` is then `apiErr.ErrorCode()`. -/
inductive RemoteError where
  | api (code : String) (message : String)
  | other (message : String)
deriving DecidableEq, Repr

/-- The value of `((*types.ThrottlingException)(nil)).ErrorCode()` in the AWS SDK. -/
def throttlingExceptionCode : String := "ThrottlingException"

/-- The value of `((*types.ResourceNotFoundException)(nil)).ErrorCode()` in the AWS SDK. -/
def resourceNotFoundExceptionCode : String := "ResourceNotFoundException"

/-- Whether the error is an API error with the code of a `ThrottlingException`. -/
def RemoteError.isThrottling : RemoteError → Bool
  | RemoteError.api code _ => decide (code = throttlingExceptionCode)
  | RemoteError.other _ => false

/-- Whether the error is an API error with the code of a `ResourceNotFoundException`. -/
def RemoteError.isResourceNotFound : RemoteError → Bool
  | RemoteError.api code _ => decide (code = resourceNotFoundExceptionCode)
  | RemoteError.other _ => false

/-- An error value returned by `Writer.writeBatch`: the package variable
`errThrottled`, or an error of the remote client passed through.  `errThrottled`
is unexported, so the remote client never returns it. -/
inductive WriteError where
  | errThrottled
  | remote (err : RemoteError)
deriving DecidableEq, Repr

/-- Constant `timeToWaitOnThrottle` of `cwl/writer.go`, ten seconds in nanoseconds. -/
def timeToWaitOnThrottle : Int := 10 * 1000000000

/-- The request `cloudwatchlogs.PutLogEventsInput`, with the fields the writer sets. -/
structure PutLogEventsInput where
  LogEvents : List InputLogEvent
  LogGroupName : String
  LogStreamName : String
deriving DecidableEq, Repr

/-- The request `cloudwatchlogs.CreateLogStreamInput`, with the fields the writer sets. -/
structure CreateLogStreamInput where
  LogGroupName : String
  LogStreamName : String
deriving DecidableEq, Repr

/-- The interface `CloudwatchLogsAPI`: an implementation answers a call from its
state `σ` and moves to a new state.  `none` is a nil error. -/
structure CloudwatchLogsAPI (σ : Type) where
  PutLogEvents : PutLogEventsInput → σ → Option RemoteError × σ
  CreateLogStream : CreateLogStreamInput → σ → Option RemoteError × σ

/-- The type `SaveCursor`: the closure shares the state `σ`; `none` is a nil error. -/
abbrev SaveCursor (σ : Type) := String → σ → Option String × σ

/-- The struct `Writer` (its channel is the input of `Writer.Write`). -/
structure Writer (σ : Type) where
  cwlClient : CloudwatchLogsAPI σ
  logGroup : String
  logStream : String
  saveCursor : SaveCursor σ

/-- A call the writer makes to its collaborators, with the error it got back. -/
inductive Call where
  | PutLogEvents (params : PutLogEventsInput) (err : Option RemoteError)
  | CreateLogStream (params : CreateLogStreamInput) (err : Option RemoteError)
  | Sleep (d : Int)
  | saveCursor (cursor : String) (err : Option String)
deriving DecidableEq, Repr

/-- Whether the call is a `saveCursor`. -/
def Call.isSaveCursor : Call → Bool
  | Call.saveCursor _ _ => true
  | _ => false

/-- The state of the collaborators and the calls made so far, oldest first. -/
structure World (σ : Type) where
  state : σ
  calls : List Call
deriving DecidableEq, Repr

/-- The request built by the closure `putEvents` of `Writer.writeBatch`. -/
def Writer.putRequest {σ : Type} (w : Writer σ) (events : List InputLogEvent) :
    PutLogEventsInput :=
  { LogEvents := events, LogGroupName := w.logGroup, LogStreamName := w.logStream }

/-- The request built by the closure `createStream` of `Writer.writeBatch`. -/
def Writer.createRequest {σ : Type} (w : Writer σ) : CreateLogStreamInput :=
  { LogGroupName := w.logGroup, LogStreamName := w.logStream }

/-- The closure `putEvents` of `Writer.writeBatch`. -/
def Writer.putEvents {σ : Type} (w : Writer σ) (events : List InputLogEvent) (s : World σ) :
    Option RemoteError × World σ :=
  let r := w.cwlClient.PutLogEvents (w.putRequest events) s.state
  (r.1, { state := r.2, calls := s.calls ++ [Call.PutLogEvents (w.putRequest events) r.1] })

/-- The closure `createStream` of `Writer.writeBatch`. -/
def Writer.createStream {σ : Type} (w : Writer σ) (s : World σ) :
    Option RemoteError × World σ :=
  let r := w.cwlClient.CreateLogStream w.createRequest s.state
  (r.1, { state := r.2, calls := s.calls ++ [Call.CreateLogStream w.createRequest r.1] })

/-- The call `w.saveCursor(cursor)`. -/
def Writer.callSaveCursor {σ : Type} (w : Writer σ) (cursor : String) (s : World σ) :
    Option String × World σ :=
  let r := w.saveCursor cursor s.state
  (r.1, { state := r.2, calls := s.calls ++ [Call.saveCursor cursor r.1] })

/-- The call `time.Sleep(d)`. -/
def World.sleep {σ : Type} (s : World σ) (d : Int) : World σ :=
  { s with calls := s.calls ++ [Call.Sleep d] }

/-- The method `Writer.writeBatch`. -/
def Writer.writeBatch {σ : Type} (w : Writer σ) (events : List InputLogEvent) (s : World σ) :
    Option WriteError × World σ :=
  match w.putEvents events s with
  | (none, s) => (none, s)
  | (some err, s) =>
    match err with
    | RemoteError.other _ => (some (WriteError.remote err), s)
    | RemoteError.api code _ =>
      if code = throttlingExceptionCode then (some WriteError.errThrottled, s)
      else if code = resourceNotFoundExceptionCode then
        match w.createStream s with
        | (some err, s) => (some (WriteError.remote err), s)
        | (none, s) =>
          match w.putEvents events s with
          | (none, s) => (none, s)
          | (some err, s) => (some (WriteError.remote err), s)
      else (some (WriteError.remote err), s)

/-- How one iteration of the loop of `Writer.Write` ends: with `continue` or by
falling out of the body, or with the panic of `zap.S().Panicf`. -/
inductive Flow where
  | Continue
  | Panic
deriving DecidableEq, Repr

/-- The `case batch := <-w.batches` of `Writer.Write`.  `Panicf` panics, so the
statements that follow it in the source are never executed. -/
def Writer.onBatch {σ : Type} (w : Writer σ) (batch : Batch) (s : World σ) :
    Flow × World σ :=
  match w.writeBatch batch.Events s with
  | (none, s) =>
    match w.callSaveCursor batch.Cursor s with
    | (some _, s) => (Flow.Panic, s)
    | (none, s) => (Flow.Continue, s)
  | (some err, s) =>
    let s := if err = WriteError.errThrottled then s.sleep timeToWaitOnThrottle else s
    match w.writeBatch batch.Events s with
    | (some _, s) => (Flow.Panic, s)
    | (none, s) => (Flow.Continue, s)

/-- The case taken by one iteration of the `select` of `Writer.Write`. -/
inductive WriteSelect where
  | Done
  | Batch (batch : Batch)
deriving DecidableEq, Repr

/-- How `Writer.Write` ends: it returns on `Done`, it panics, or it waits in
`select` when no case is left to take. -/
inductive Exit where
  | Returned
  | Panicked
  | Waiting
deriving DecidableEq, Repr

/-- The method `Writer.Write`. -/
def Writer.Write {σ : Type} (w : Writer σ) : List WriteSelect → World σ → Exit × World σ
  | [], s => (Exit.Waiting, s)
  | WriteSelect.Done :: _, s => (Exit.Returned, s)
  | WriteSelect.Batch batch :: rest, s =>
    match w.onBatch batch s with
    | (Flow.Panic, s) => (Exit.Panicked, s)
    | (Flow.Continue, s) => Writer.Write w rest s

/-! ## Inputs for the examples -/

/-- A converter for examples: the message of an entry is `RealtimeTimestamp` zero bytes. -/
def sizedConverter : EntryToEventConverter :=
  fun entry => { Message := some (List.replicate entry.RealtimeTimestamp 0), Timestamp := some 0 }

/-- An entry for examples, with a cursor and a size for `sizedConverter`. -/
def sizedEntry (cursor : String) (size : Nat) : JournalEntry :=
  { Fields := [], Cursor := cursor, RealtimeTimestamp := size, MonotonicTimestamp := 0 }

/-- The state of a scripted stub: the errors its next calls return, in order.
A call whose script is used up succeeds. -/
structure Script where
  puts : List (Option RemoteError)
  creates : List (Option RemoteError)
  saves : List (Option String)
deriving DecidableEq, Repr

/-- A writer over the scripted stub. -/
def scriptedWriter : Writer Script :=
  { cwlClient :=
      { PutLogEvents := fun _ s => (s.puts.head?.getD none, { s with puts := s.puts.tail })
        CreateLogStream := fun _ s =>
          (s.creates.head?.getD none, { s with creates := s.creates.tail }) }
    logGroup := "journal-logs"
    logStream := "i-11111111111111111"
    saveCursor := fun _ s => (s.saves.head?.getD none, { s with saves := s.saves.tail }) }

/-- A world for the scripted stub in which no call has been made. -/
def scripted (puts creates : List (Option RemoteError)) (saves : List (Option String)) :
    World Script :=
  { state := { puts := puts, creates := creates, saves := saves }, calls := [] }

/-- The batch of the tests of the writer: one event, cursor `cursor-0`. -/
def testBatch : Batch :=
  { Events := [{ Message := none, Timestamp := none }], Cursor := "cursor-0" }

/-- The chunks of a list for a chunk size `k`, as the count-driven chunking is
worded: `ceil(n/k)` chunks, the `i`-th holding the elements
`i*k .. min((i+1)*k, n)-1` of the list. -/
def chunksOf {α : Type} (k : Nat) (l : List α) : List (List α) :=
  (List.range ((l.length + k - 1) / k)).map (fun i => (l.drop (i * k)).take k)

/-- Ten entries with the cursors `c0` to `c9`, as in the end-to-end ordering scenario. -/
def tenEntries : List JournalEntry :=
  [sizedEntry "c0" 3, sizedEntry "c1" 3, sizedEntry "c2" 3, sizedEntry "c3" 3,
    sizedEntry "c4" 3, sizedEntry "c5" 3, sizedEntry "c6" 3, sizedEntry "c7" 3,
    sizedEntry "c8" 3, sizedEntry "c9" 3]

/-! ## The Source Reader -/

/-- What `GetEntry` returns: an entry with a nil error, or an error. -/
inductive GetEntryResult where
  | entry (entry : JournalEntry)
  | error (err : String)
deriving DecidableEq, Repr

/-- The interface `ReaderAPI`: an implementation answers a call from its state
`σ` and moves to a new state.  `Next` returns `(advanced, err)`, where `none`
is a nil error; `Wait` takes the timeout in nanoseconds. -/
structure ReaderAPI (σ : Type) where
  Next : σ → (Nat × Option String) × σ
  GetEntry : σ → GetEntryResult × σ
  Wait : Int → σ → Int × σ

/-- The struct `Reader` (its channel is the output of `Reader.Read`). -/
structure Reader (σ : Type) where
  reader : ReaderAPI σ
  waitForDataTimeout : Int

/-- An `Option` of `journal/reader.go` is a function on the reader. -/
abbrev ReaderOption (σ : Type) := Reader σ → Reader σ

/-- The option `WithWaitForDataTimeout`. -/
def WithWaitForDataTimeout {σ : Type} (d : Int) : ReaderOption σ :=
  fun r => { r with waitForDataTimeout := d }

/-- The constructor `NewReader`: a timeout of one second, then the options in order. -/
def NewReader {σ : Type} (reader : ReaderAPI σ) (opts : List (ReaderOption σ)) : Reader σ :=
  opts.foldl (fun r opt => opt r) { reader := reader, waitForDataTimeout := 1000000000 }

/-- What `Reader.Read` does, in order: a call to the log source with what it
returned, the send of an entry on the channel `r.entries`, or the `panic(err)`
that ends it. -/
inductive ReadCall where
  | Next (advanced : Nat) (err : Option String)
  | GetEntry (result : GetEntryResult)
  | Wait (timeout : Int) (result : Int)
  | Send (entry : JournalEntry)
  | Panic (err : String)
deriving DecidableEq, Repr

/-- The state of the log source and what the reader has done so far, oldest first. -/
structure ReadWorld (σ : Type) where
  state : σ
  calls : List ReadCall
deriving DecidableEq, Repr

/-- The entries sent on the channel, in order. -/
def sentEntries : List ReadCall → List JournalEntry
  | [] => []
  | ReadCall.Send entry :: rest => entry :: sentEntries rest
  | _ :: rest => sentEntries rest

/-- An error value returned by the closure `next` of `Reader.Read`: the local
variable `errNoNewData`, or an error of the log source. -/
inductive NextError where
  | errNoNewData
  | source (err : String)
deriving DecidableEq, Repr

/-- The closure `next` of `Reader.Read`. -/
def Reader.next {σ : Type} (r : Reader σ) (s : ReadWorld σ) :
    Except NextError JournalEntry × ReadWorld σ :=
  let n := r.reader.Next s.state
  let s : ReadWorld σ := { state := n.2, calls := s.calls ++ [ReadCall.Next n.1.1 n.1.2] }
  match n.1.2 with
  | some err => (Except.error (NextError.source err), s)
  | none =>
    if n.1.1 = 0 then (Except.error NextError.errNoNewData, s)
    else
      let g := r.reader.GetEntry s.state
      let s : ReadWorld σ := { state := g.2, calls := s.calls ++ [ReadCall.GetEntry g.1] }
      match g.1 with
      | GetEntryResult.entry entry => (Except.ok entry, s)
      | GetEntryResult.error err => (Except.error (NextError.source err), s)

/-- The method `Reader.Read`, for the number of times its `select` takes the
`default` case before it takes `ctx.Done()`.  A send on the channel is assumed
to be received. -/
def Reader.Read {σ : Type} (r : Reader σ) : Nat → ReadWorld σ → Exit × ReadWorld σ
  | 0, s => (Exit.Returned, s)
  | iterations + 1, s =>
    match r.next s with
    | (Except.ok entry, s) =>
      Reader.Read r iterations { s with calls := s.calls ++ [ReadCall.Send entry] }
    | (Except.error NextError.errNoNewData, s) =>
      let w := r.reader.Wait r.waitForDataTimeout s.state
      Reader.Read r iterations
        { state := w.2, calls := s.calls ++ [ReadCall.Wait r.waitForDataTimeout w.1] }
    | (Except.error (NextError.source err), s) =>
      (Exit.Panicked, { s with calls := s.calls ++ [ReadCall.Panic err] })

/-- One answer of the log source to an iteration of the reader: no new data
(`Next` returns 0, and the `Wait` that follows returns `waited`), or an entry
(`Next` returns `advanced`, not 0, and `GetEntry` returns the entry). -/
inductive SourceStep where
  | noData (waited : Int)
  | entry (advanced : Nat) (entry : JournalEntry)
deriving DecidableEq, Repr

/-- The entry of a step of the log source, if it has one. -/
def SourceStep.entry? : SourceStep → Option JournalEntry
  | SourceStep.noData _ => none
  | SourceStep.entry _ e => some e

/-- What the reader does on a step of the log source. -/
def SourceStep.calls (timeout : Int) : SourceStep → List ReadCall
  | SourceStep.noData waited => [ReadCall.Next 0 none, ReadCall.Wait timeout waited]
  | SourceStep.entry advanced e =>
    [ReadCall.Next advanced none, ReadCall.GetEntry (GetEntryResult.entry e), ReadCall.Send e]

/-- The log source, from the state `s`, yields the given steps through successive
`Next`, `GetEntry` and `Wait(timeout)` calls, and is then in the state `t`. -/
inductive Yields {σ : Type} (api : ReaderAPI σ) (timeout : Int) :
    σ → List SourceStep → σ → Prop where
  | nil (s : σ) : Yields api timeout s [] s
  | noData (s s1 s2 t : σ) (waited : Int) (rest : List SourceStep) :
      api.Next s = ((0, none), s1) → api.Wait timeout s1 = (waited, s2) →
      Yields api timeout s2 rest t → Yields api timeout s (SourceStep.noData waited :: rest) t
  | entry (s s1 s2 t : σ) (advanced : Nat) (entry : JournalEntry) (rest : List SourceStep) :
      advanced ≠ 0 → api.Next s = ((advanced, none), s1) →
      api.GetEntry s1 = (GetEntryResult.entry entry, s2) →
      Yields api timeout s2 rest t →
      Yields api timeout s (SourceStep.entry advanced entry :: rest) t

/-- The stub `journalStub` of `journal/reader_test.go`: it returns the given
entries one by one. -/
structure journalStub where
  entries : List JournalEntry
  index : Int
  shouldNextError : Bool
  shouldGetEntryError : Bool
deriving DecidableEq, Repr

/-- The constructor `newJournalStub`. -/
def newJournalStub (entries : List JournalEntry) : journalStub :=
  { entries := entries, index := -1, shouldNextError := false, shouldGetEntryError := false }

/-- The methods `Next`, `GetEntry` and `Wait` of `journalStub`.  `GetEntry`
indexes the entries; an index out of range, a panic in Go, is an error here. -/
def journalStubAPI : ReaderAPI journalStub :=
  { Next := fun j =>
      if j.shouldNextError then ((0, some "cannot advance cursor"), j)
      else if j.index + 1 ≥ (j.entries.length : Int) then
        ((0, none), { j with index := j.index + 1 })
      else ((1, none), { j with index := j.index + 1 })
    GetEntry := fun j =>
      if j.shouldGetEntryError then (GetEntryResult.error "cannot read entry", j)
      else
        match j.entries[j.index.toNat]? with
        | some entry => (GetEntryResult.entry entry, j)
        | none => (GetEntryResult.error "index out of range", j)
    Wait := fun _ j => (0, j) }

/-! ## The cursor store -/

/-- The UTF-8 bytes of a string: the Go string with this text. -/
def utf8 (s : String) : List UInt8 :=
  s.data.flatMap String.utf8EncodeChar

/-- An open `os.File` on a regular file: its content and the offset of the next
read or write.  Seeking, reading and writing an open regular file do not fail. -/
structure File where
  data : List UInt8
  offset : Nat
deriving DecidableEq, Repr

/-- The call `file.Seek(offset, 0)`. -/
def File.Seek (f : File) (offset : Nat) : File :=
  { f with offset := offset }

/-- A write of `p` at the offset of the file: it overwrites what is there,
extends the file when it reaches past the end, and never shortens it. -/
def File.Write (f : File) (p : List UInt8) : File :=
  { data := f.data.take f.offset ++ List.replicate (f.offset - f.data.length) 0 ++ p ++
      f.data.drop (f.offset + p.length)
    offset := f.offset + p.length }

/-- The constant `utf8.RuneError`, U+FFFD. -/
def RuneError : Nat := 0xFFFD

/-- The function `utf8.DecodeRune`: the first rune of `p` and its width in
bytes.  An encoding that is invalid or cut short gives `(RuneError, 1)`, and no
byte at all gives `(RuneError, 0)`. -/
def DecodeRune (p : List UInt8) : Nat × Nat :=
  match p with
  | [] => (RuneError, 0)
  | p0 :: rest =>
    if p0 < 0x80 then (p0.toNat, 1)
    else if p0 < 0xC2 ∨ 0xF4 < p0 then (RuneError, 1)
    else
      let sz : Nat := if p0 < 0xE0 then 2 else if p0 < 0xF0 then 3 else 4
      let lo : UInt8 := if p0 = 0xE0 then 0xA0 else if p0 = 0xF0 then 0x90 else 0x80
      let hi : UInt8 := if p0 = 0xED then 0x9F else if p0 = 0xF4 then 0x8F else 0xBF
      let b1 := rest.getD 0 0
      let b2 := rest.getD 1 0
      let b3 := rest.getD 2 0
      if rest.length + 1 < sz then (RuneError, 1)
      else if b1 < lo ∨ hi < b1 then (RuneError, 1)
      else if sz ≤ 2 then (p0.toNat % 32 * 64 + b1.toNat % 64, 2)
      else if b2 < 0x80 ∨ 0xBF < b2 then (RuneError, 1)
      else if sz ≤ 3 then (p0.toNat % 16 * 4096 + b1.toNat % 64 * 64 + b2.toNat % 64, 3)
      else if b3 < 0x80 ∨ 0xBF < b3 then (RuneError, 1)
      else
        (p0.toNat % 8 * 262144 + b1.toNat % 64 * 4096 + b2.toNat % 64 * 64 + b3.toNat % 64, 4)

/-- The three bytes that encode a rune from U+0800 to U+FFFF. -/
def encodeRune3 (r : Nat) : List UInt8 :=
  [UInt8.ofNat (0xE0 + r / 4096), UInt8.ofNat (0x80 + r / 64 % 64), UInt8.ofNat (0x80 + r % 64)]

/-- The function `utf8.AppendRune` on an empty buffer: the UTF-8 encoding of
the rune; a surrogate or a rune above `utf8.MaxRune` is encoded as `RuneError`. -/
def AppendRune (r : Nat) : List UInt8 :=
  if r ≤ 0x7F then [UInt8.ofNat r]
  else if r ≤ 0x7FF then [UInt8.ofNat (0xC0 + r / 64), UInt8.ofNat (0x80 + r % 64)]
  else if r > 0x10FFFF ∨ (0xD800 ≤ r ∧ r ≤ 0xDFFF) then encodeRune3 RuneError
  else if r ≤ 0xFFFF then encodeRune3 r
  else
    [UInt8.ofNat (0xF0 + r / 262144), UInt8.ofNat (0x80 + r / 4096 % 64),
      UInt8.ofNat (0x80 + r / 64 % 64), UInt8.ofNat (0x80 + r % 64)]

/-- The runes that the successive calls of `ReadRune` return on the input, each
with its width in bytes: `utf8.DecodeRune` at the bytes not yet decoded.  The
first argument counts the bytes ahead that belong to the rune decoded last. -/
def readRunes : Nat → List UInt8 → List (Nat × Nat)
  | _, [] => []
  | skip + 1, _ :: rest => readRunes skip rest
  | 0, c :: rest => DecodeRune (c :: rest) :: readRunes ((DecodeRune (c :: rest)).2 - 1) rest

/-- The constant `hugeWid` of `fmt`: the scanner reads at most this many runes. -/
def hugeWid : Nat := 1073741824

/-- The table `space` of `fmt`, a copy of the ranges of Unicode white space. -/
def space : List (Nat × Nat) :=
  [(0x0009, 0x000d), (0x0020, 0x0020), (0x0085, 0x0085), (0x00a0, 0x00a0), (0x1680, 0x1680),
    (0x2000, 0x200a), (0x2028, 0x2029), (0x202f, 0x202f), (0x205f, 0x205f), (0x3000, 0x3000)]

/-- The loop of `isSpace` of `fmt` over the ranges of the table. -/
def isSpaceIn : List (Nat × Nat) → Nat → Bool
  | [], _ => false
  | rng :: rest, rx =>
    if rx < rng.1 then false
    else if rx ≤ rng.2 then true
    else isSpaceIn rest rx

/-- The function `isSpace` of `fmt` on a rune. -/
def isSpace (r : Nat) : Bool :=
  if r ≥ 65536 then false else isSpaceIn space r

/-- The total width in bytes of a list of runes with their widths. -/
def widths (runes : List (Nat × Nat)) : Nat :=
  (runes.map Prod.snd).sum

/-- The method `SkipSpace` of the scanner of `fmt.Fscanf`, on the runes not yet
read: it skips spaces (a carriage return among them, whatever follows it), and
a newline is an error.  It returns the error and the runes left. -/
def skipSpace : List (Nat × Nat) → Option String × List (Nat × Nat)
  | [] => (none, [])
  | r :: rest =>
    if r.1 = 10 then (some "unexpected newline", rest)
    else if isSpace r.1 then skipSpace rest
    else (none, r :: rest)

/-- The call `fmt.Fscanf(r, "%s", &cursor)` on the bytes left in `r`: the
value stored in `cursor` with the error, and the width in bytes of the runes
the scanner has read, by which the offset of the file moves.  The scanner
skips spaces, fails with `io.EOF` when no rune is left, and otherwise reads the
runes up to the next space, which it reads too, and encodes them again (an
invalid byte has become `RuneError`).  Bytes that the decoder has read ahead
after an invalid encoding are read again by the runes that follow; only when
the scanner stops at its limit of `hugeWid` runes may the offset of the file be
up to three bytes further than the width returned. -/
def Fscanf (input : List UInt8) : (List UInt8 × Option String) × Nat :=
  let runes := (readRunes 0 input).take hugeWid
  match skipSpace runes with
  | (some err, rest) => (([], some err), widths runes - widths rest)
  | (none, []) => (([], some "EOF"), widths runes)
  | (none, r :: rest) =>
    (((((r :: rest).takeWhile (fun x => !isSpace x.1)).flatMap (fun x => AppendRune x.1)), none),
      widths runes - widths ((r :: rest).dropWhile (fun x => !isSpace x.1)).tail)

/-- The call `fmt.Fprintf(w, "%s", v)`: it writes the bytes of `v`. -/
def Fprintf (f : File) (v : List UInt8) : File :=
  f.Write v

/-- The struct `FilebasedCursor`. -/
structure FilebasedCursor where
  file : File
deriving DecidableEq, Repr

/-- The method `FilebasedCursor.Get`: the cursor and the error, and the store after the call. -/
def FilebasedCursor.Get (c : FilebasedCursor) : (List UInt8 × Option String) × FilebasedCursor :=
  let file := c.file.Seek 0
  let r := Fscanf (file.data.drop file.offset)
  let file := { file with offset := file.offset + r.2 }
  match r.1.2 with
  | some err => (([], some err), { file := file })
  | none => ((r.1.1, none), { file := file })

/-- The method `FilebasedCursor.Set`: the error, and the store after the call. -/
def FilebasedCursor.Set (c : FilebasedCursor) (v : List UInt8) : Option String × FilebasedCursor :=
  let file := c.file.Seek 0
  let file := Fprintf file v
  (none, { file := file })

/-- The store that `NewFilebasedCursor` returns for a file that did not exist. -/
def newEmptyCursor : FilebasedCursor :=
  { file := { data := [], offset := 0 } }

/-! ## The Converter -/

/-- The value `f[key]` of the Go map `Fields`: the empty string for a missing key. -/
def JournalEntry.field (e : JournalEntry) (key : String) : String :=
  (e.Fields.lookup key).getD ""

/-- The map `priorityMap` of `batch/convert.go`. -/
def priorityMap : List (String × String) :=
  [("0", "emerg"), ("1", "alert"), ("2", "crit"), ("3", "err"),
    ("4", "warning"), ("5", "notice"), ("6", "info"), ("7", "debug")]

/-- The library function `strconv.Atoi`: an optional sign and decimal digits,
within the range of a 64-bit `int`; `none` is an error. -/
def Atoi (s : String) : Option Int :=
  let digits : List Char :=
    match s.data with
    | '-' :: ds => ds
    | '+' :: ds => ds
    | ds => ds
  if digits = [] then none
  else if digits.all Char.isDigit then
    let n : Nat := digits.foldl (fun acc c => acc * 10 + (c.toNat - 48)) 0
    let v : Int := if s.data.head? = some '-' then -(n : Int) else (n : Int)
    if -(2 ^ 63 : Int) ≤ v ∧ v < (2 ^ 63 : Int) then some v else none
  else none

/-- The struct `RecordSyslog`. -/
structure RecordSyslog where
  Facility : Int
  Identifier : String
  PID : Int
deriving DecidableEq, Repr

/-- The struct `Record`. -/
structure Record where
  InstanceID : String
  RealtimeTimestamp : Nat
  PID : Int
  UID : Int
  GID : Int
  Command : String
  Executable : String
  SystemdUnit : String
  BootID : String
  MachineID : String
  Hostname : String
  Transport : String
  Priority : String
  Message : String
  MesageID : String
  ErrNo : Int
  Syslog : RecordSyslog
deriving DecidableEq, Repr

/-- The function `recordFromJournalEntryFields`: a number that `Atoi` cannot
parse leaves the zero value of its field. -/
def recordFromJournalEntryFields (e : JournalEntry) : Record :=
  { InstanceID := ""
    RealtimeTimestamp := e.RealtimeTimestamp
    PID := (Atoi (e.field "_PID")).getD 0
    UID := (Atoi (e.field "_UID")).getD 0
    GID := (Atoi (e.field "_GID")).getD 0
    ErrNo := (Atoi (e.field "ERRNO")).getD 0
    Command := e.field "_COMM"
    Executable := e.field "_EXE"
    SystemdUnit := e.field "_SYSTEMD_UNIT"
    BootID := e.field "_BOOT_ID"
    MachineID := e.field "_MACHINE_ID"
    Hostname := e.field "_HOSTNAME"
    Transport := e.field "_TRANSPORT"
    Priority := (priorityMap.lookup (e.field "PRIORITY")).getD ""
    Message := e.field "MESSAGE"
    MesageID := e.field "MESSAGE_ID"
    Syslog :=
      { Facility := (Atoi (e.field "SYSLOG_FACILITY")).getD 0
        PID := (Atoi (e.field "SYSLOG_PID")).getD 0
        Identifier := e.field "SYSLOG_IDENTIFIER" } }

/-- A JSON value that is a number or a string. -/
inductive JSONScalar where
  | number (n : Int)
  | string (s : String)
deriving DecidableEq, Repr

/-- A JSON value of the encoding of a `Record`: a scalar, or the object of the
nested struct with its members in order. -/
inductive JSONValue where
  | scalar (v : JSONScalar)
  | object (members : List (String × JSONScalar))
deriving DecidableEq, Repr

/-- The member that `encoding/json` writes for a string field with the given
key: none when the tag has `omitempty` and the string is empty. -/
def stringMember (key : String) (omitempty : Bool) (v : String) : List (String × JSONScalar) :=
  if omitempty && v = "" then [] else [(key, JSONScalar.string v)]

/-- The member that `encoding/json` writes for an integer field with the given
key: none when the tag has `omitempty` and the number is zero. -/
def intMember (key : String) (omitempty : Bool) (v : Int) : List (String × JSONScalar) :=
  if omitempty && v = 0 then [] else [(key, JSONScalar.number v)]

/-- The members of the JSON object of a `RecordSyslog`, by its struct tags. -/
def RecordSyslog.members (r : RecordSyslog) : List (String × JSONScalar) :=
  intMember "facility" true r.Facility ++
  stringMember "ident" true r.Identifier ++
  intMember "pid" true r.PID

/-- The members of the JSON object of a `Record`, by its struct tags, in the
order of the fields.  In `encoding/json` a struct value is never empty, so the
`omitempty` of the field `Syslog` omits nothing. -/
def Record.members (r : Record) : List (String × JSONValue) :=
  (stringMember "instanceId" true r.InstanceID ++
    intMember "realTimestamp" true (r.RealtimeTimestamp : Int) ++
    intMember "pid" false r.PID ++
    intMember "uid" false r.UID ++
    intMember "gid" false r.GID ++
    stringMember "cmdName" true r.Command ++
    stringMember "exe" true r.Executable ++
    stringMember "systemdUnit" true r.SystemdUnit ++
    stringMember "bootId" true r.BootID ++
    stringMember "machineId" true r.MachineID ++
    stringMember "hostname" true r.Hostname ++
    stringMember "transport" true r.Transport ++
    stringMember "priority" true r.Priority ++
    stringMember "message" true r.Message ++
    stringMember "messageId" true r.MesageID ++
    intMember "errNo" true r.ErrNo).map (fun m => (m.1, JSONValue.scalar m.2)) ++
  [("syslog", JSONValue.object r.Syslog.members)]

/-- The text of a scalar; `encodeString` is the encoding of a string by
`encoding/json`, with its quotes and escapes. -/
def JSONScalar.render (encodeString : String → String) : JSONScalar → String
  | JSONScalar.number n => toString n
  | JSONScalar.string s => encodeString s

/-- The text that `json.MarshalIndent(v, "", "  ")` writes for an object whose
members have the given keys and texts, at the given indentation. -/
def renderObject (indent : String) (members : List (String × String)) : String :=
  if members = [] then "\x7b\x7d"
  else
    "\x7b\n" ++
      ",\n".intercalate (members.map (fun m => indent ++ "  " ++ "\"" ++ m.1 ++ "\": " ++ m.2)) ++
      "\n" ++ indent ++ "\x7d"

/-- The text of a value of the encoding of a `Record`, one level deep. -/
def JSONValue.render (encodeString : String → String) : JSONValue → String
  | JSONValue.scalar v => v.render encodeString
  | JSONValue.object members =>
    renderObject "  " (members.map (fun m => (m.1, m.2.render encodeString)))

/-- The call `json.MarshalIndent(r, "", "  ")` on a `Record`: the bytes and the
error.  Strings and integers always encode, so the error is nil. -/
def MarshalIndent (encodeString : String → String) (r : Record) : List UInt8 × Option String :=
  (utf8 (renderObject "" (r.members.map (fun m => (m.1, m.2.render encodeString)))), none)

/-- The constructor `NewEntryToEventConverter`.  `timestampFn` gives the time
in milliseconds since the epoch, and `encodeString` is the encoding of a string
by `encoding/json`. -/
def NewEntryToEventConverter (encodeString : String → String) (instanceID : String)
    (timestampFn : Unit → Int) : EntryToEventConverter :=
  fun e =>
    let r := { recordFromJournalEntryFields e with InstanceID := instanceID }
    let event : InputLogEvent := { Message := none, Timestamp := some (timestampFn ()) }
    match MarshalIndent encodeString r with
    | (_, some err) => { event with Message := some (utf8 ("cannot marshal record, " ++ err)) }
    | (jsonDataBytes, none) => { event with Message := some jsonDataBytes }

/-- An encoding of strings for examples: quotes around the text, which is what
`encoding/json` writes for a string that needs no escape. -/
def quoteOnly (s : String) : String :=
  "\"" ++ s ++ "\""

/-- An entry for examples, from the journal itself and not from syslog: it has
no `SYSLOG_FACILITY`, `SYSLOG_IDENTIFIER` or `SYSLOG_PID` attribute. -/
def journalTransportEntry : JournalEntry :=
  { Fields := [("_PID", "1"), ("_TRANSPORT", "journal"), ("PRIORITY", "6"), ("MESSAGE", "hello")]
    Cursor := "cursor-0"
    RealtimeTimestamp := 17
    MonotonicTimestamp := 0 }

/-- The stub `cwlStub` of `cwl/writer_test.go` with its two error fields, in a
writer whose `saveCursor` returns the given error, as in `TestPanicOnError`.
The state is the count of the events received. -/
def cwlStub (errOnPutLogEvents errOnCreateLogStream : Option RemoteError)
    (errOnSaveCursor : Option String) : Writer Nat :=
  { cwlClient :=
      { PutLogEvents := fun params eventsCnt =>
          match errOnPutLogEvents with
          | some err => (some err, eventsCnt)
          | none => (none, eventsCnt + params.LogEvents.length)
        CreateLogStream := fun _ eventsCnt => (errOnCreateLogStream, eventsCnt) }
    logGroup := "journal-logs"
    logStream := "i-11111111111111111"
    saveCursor := fun _ eventsCnt => (errOnSaveCursor, eventsCnt) }

/-- Whether a string is a decimal integer, as the design document words it: an
optional sign followed by at least one decimal digit. -/
def isDecimalInteger (s : String) : Bool :=
  match s.data with
  | '-' :: ds => !ds.isEmpty && ds.all Char.isDigit
  | '+' :: ds => !ds.isEmpty && ds.all Char.isDigit
  | ds => !ds.isEmpty && ds.all Char.isDigit

/-- The entry `other` differs from `e` at most in the attribute `key`. -/
def JournalEntry.agreesExcept (e other : JournalEntry) (key : String) : Prop :=
  other.RealtimeTimestamp = e.RealtimeTimestamp ∧
    ∀ k : String, k ≠ key → other.field k = e.field k

/-- The entry of `getExampleEntryAndEvent` in `batch/batch_test.go`, with the
cursor `cursor-0`. -/
def exampleEntry : JournalEntry :=
  { Fields :=
      [("_PID", "1"), ("_UID", "2"), ("_GID", "3"), ("_ERRNO", "1"), ("_COMM", "cowsay"),
        ("_SYSTEMD_UNIT", "sshd"), ("PRIORITY", "6"), ("SYSLOG_FACILITY", "4"),
        ("SYSLOG_IDENTIFIER", "sshd"), ("SYSLOG_PID", "1"),
        ("_BOOT_ID", "f595e6391111111111111111372bf520"),
        ("_MACHINE_ID", "ec22e31111111111111111111111115b"),
        ("_HOSTNAME", "hello-server1.us-west-2.amazon.com"), ("_TRANSPORT", "syslog"),
        ("MESSAGE", "connection lost"), ("OTHER_KEY", "OTHTER_VALUE")]
    Cursor := "cursor-0"
    RealtimeTimestamp := 1722650790111473
    MonotonicTimestamp := 897993707018 }

/-- The example entry with a process id that is not a number. -/
def exampleEntryBadPID : JournalEntry :=
  { exampleEntry with Fields := ("_PID", "n/a") :: exampleEntry.Fields }

/-! ## Facts about the Batcher loop -/

/-- With a positive `MaxWait` and a `maxEvents` that `make` accepts, nothing
panics before the loop, which starts from the fresh batch. -/
theorem start_of_config (b : Batcher) (hwait : 0 < b.MaxWait) (hcap : 0 ≤ b.maxEvents)
    (hmem : sizeofInputLogEvent * b.maxEvents ≤ maxAlloc) : b.start = some startNewBatch := by
  have h1 : ¬ b.MaxWait ≤ 0 := by omega
  have h2 : ¬ (b.maxEvents < 0 ∨ sizeofInputLogEvent * b.maxEvents > maxAlloc) := by
    push_neg
    exact ⟨hcap, hmem⟩
  simp only [Batcher.start, NewTicker, Ticker.Reset, makeEvents, if_neg h1, if_neg h2,
    startNewBatch]

/-- The start panics, or the loop starts from the fresh batch. -/
theorem start_eq_none_or (b : Batcher) : b.start = none ∨ b.start = some startNewBatch := by
  by_cases h1 : b.MaxWait ≤ 0
  · left
    simp [Batcher.start, NewTicker, h1]
  · by_cases h2 : b.maxEvents < 0 ∨ sizeofInputLogEvent * b.maxEvents > maxAlloc
    · left
      simp only [Batcher.start, NewTicker, Ticker.Reset, makeEvents, if_neg h1, if_pos h2]
    · right
      simp only [Batcher.start, NewTicker, Ticker.Reset, makeEvents, if_neg h1, if_neg h2,
        startNewBatch]

/-- A start that panics is a `MaxWait` that is not positive or a `maxEvents`
that `make` refuses. -/
theorem start_eq_none_iff (b : Batcher) :
    b.start = none ↔
      (b.MaxWait ≤ 0 ∨ b.maxEvents < 0 ∨ sizeofInputLogEvent * b.maxEvents > maxAlloc) := by
  constructor
  · intro h
    by_contra hc
    push_neg at hc
    rw [start_of_config b hc.1 hc.2.1 hc.2.2] at h
    exact absurd h (by simp)
  · intro h
    by_cases h1 : b.MaxWait ≤ 0
    · simp [Batcher.start, NewTicker, h1]
    · have h2 : b.maxEvents < 0 ∨ sizeofInputLogEvent * b.maxEvents > maxAlloc := by
        rcases h with h | h
        · exact absurd h h1
        · exact h
      simp only [Batcher.start, NewTicker, Ticker.Reset, makeEvents, if_neg h1, if_pos h2]

/-- When nothing panics before the loop, `Batcher.Batch` sends what the loop
sends from the fresh batch. -/
theorem Batch_of_config (b : Batcher) (cases : List BatchSelect) (hwait : 0 < b.MaxWait)
    (hcap : 0 ≤ b.maxEvents) (hmem : sizeofInputLogEvent * b.maxEvents ≤ maxAlloc) :
    b.Batch cases = b.loop startNewBatch cases := by
  simp only [Batcher.Batch, start_of_config b hwait hcap hmem]

/-- `Batcher.Batch` sends nothing, or what the loop sends from the fresh batch. -/
theorem Batch_eq_nil_or (b : Batcher) (cases : List BatchSelect) :
    b.Batch cases = [] ∨ b.Batch cases = b.loop startNewBatch cases := by
  rcases start_eq_none_or b with h | h
  · left; simp only [Batcher.Batch, h]
  · right; simp only [Batcher.Batch, h]

/-- When the start panics, `Batcher.Batch` sends no batch, whatever the cases. -/
theorem Batch_of_start_panic (b : Batcher) (cases : List BatchSelect)
    (h : b.MaxWait ≤ 0 ∨ b.maxEvents < 0 ∨ sizeofInputLogEvent * b.maxEvents > maxAlloc) :
    b.Batch cases = [] := by
  simp only [Batcher.Batch, (start_eq_none_iff b).2 h]

/-- With `WithMaxEvents(-1)`, and with `WithMaxWait(0)`, the start panics and
an entry followed by the cancellation is not sent. -/
theorem Batch_of_start_panic_examples :
    (NewBatcher sizedConverter [WithMaxEvents (-1)]).Batch
        [BatchSelect.Entry (sizedEntry "c0" 1), BatchSelect.Done] = [] ∧
    (NewBatcher sizedConverter [WithMaxWait 0]).Batch
        [BatchSelect.Entry (sizedEntry "c0" 1), BatchSelect.Done] = [] :=
  ⟨Batch_of_start_panic _ _ (Or.inr (Or.inl (by decide))),
    Batch_of_start_panic _ _ (Or.inl (by decide))⟩

theorem mem_Batch (b : Batcher) (cases : List BatchSelect) {x : Batch}
    (h : x ∈ b.Batch cases) : x ∈ b.loop startNewBatch cases := by
  rcases Batch_eq_nil_or b cases with h0 | h0
  · rw [h0] at h; simp at h
  · rw [h0] at h; exact h

theorem mem_saveOldBatch {batch x : Batch} (h : x ∈ saveOldBatch batch) :
    x = batch ∧ batch.Events ≠ [] := by
  unfold saveOldBatch at h
  split at h
  · simp at h
  · rename_i hne
    simp only [List.mem_singleton] at h
    exact ⟨h, fun he => hne (by simp [he])⟩

/-- The entry case when the converter returns a nil message: the entry is skipped. -/
theorem onEntry_nil (b : Batcher) (st : BatchLoop) (entry : JournalEntry)
    (h : (b.converter entry).Message = none) : b.onEntry st entry = ([], st) := by
  simp only [Batcher.onEntry, h]

/-- The entry case when a limit is reached: the old batch is sent and the event
starts a fresh batch. -/
theorem onEntry_flush (b : Batcher) (st : BatchLoop) (entry : JournalEntry)
    (message : List UInt8) (h : (b.converter entry).Message = some message)
    (hf : ((truncateMessage message).length : Int) + st.bytesCount > b.maxPayload ∨
      (st.batch.Events.length : Int) = b.maxEvents) :
    b.onEntry st entry =
      (saveOldBatch st.batch,
        { batch := { Events := [truncateEvent (b.converter entry)], Cursor := entry.Cursor }
          bytesCount := ((truncateMessage message).length : Int) }) := by
  have hf' : (decide (((truncateMessage message).length : Int) + st.bytesCount > b.maxPayload) ||
      decide ((st.batch.Events.length : Int) = b.maxEvents)) = true := by
    simpa using hf
  simp only [Batcher.onEntry, h, truncateEvent, hf', if_true, startNewBatch, List.nil_append,
    Int.zero_add]

/-- The entry case when no limit is reached: the event joins the current batch. -/
theorem onEntry_keep (b : Batcher) (st : BatchLoop) (entry : JournalEntry)
    (message : List UInt8) (h : (b.converter entry).Message = some message)
    (hf : ¬ (((truncateMessage message).length : Int) + st.bytesCount > b.maxPayload ∨
      (st.batch.Events.length : Int) = b.maxEvents)) :
    b.onEntry st entry =
      ([],
        { batch := { Events := st.batch.Events ++ [truncateEvent (b.converter entry)],
                     Cursor := entry.Cursor }
          bytesCount := st.bytesCount + ((truncateMessage message).length : Int) }) := by
  have hf' : (decide (((truncateMessage message).length : Int) + st.bytesCount > b.maxPayload) ||
      decide ((st.batch.Events.length : Int) = b.maxEvents)) = false := by
    simpa using hf
  simp [Batcher.onEntry, h, truncateEvent, hf']

theorem onEntry_sent_subset (b : Batcher) (st : BatchLoop) (entry : JournalEntry) {x : Batch}
    (h : x ∈ (b.onEntry st entry).1) : x ∈ saveOldBatch st.batch := by
  cases hm : (b.converter entry).Message with
  | none => rw [onEntry_nil b st entry hm] at h; simp at h
  | some message =>
    by_cases hf : ((truncateMessage message).length : Int) + st.bytesCount > b.maxPayload ∨
      (st.batch.Events.length : Int) = b.maxEvents
    · rw [onEntry_flush b st entry message hm hf] at h; exact h
    · rw [onEntry_keep b st entry message hm hf] at h; simp at h

/-- Every batch sent by the loop is the current batch of a state that satisfies
an invariant of the loop. -/
theorem loop_invariant (b : Batcher) (I : BatchLoop → Prop) (h0 : I startNewBatch)
    (hstep : ∀ st entry, I st → I (b.onEntry st entry).2) :
    ∀ (cases : List BatchSelect) (st : BatchLoop), I st →
      ∀ x ∈ b.loop st cases, ∃ st', I st' ∧ x = st'.batch ∧ x.Events ≠ [] := by
  intro cases
  induction cases with
  | nil => intro st _ x hx; simp [Batcher.loop] at hx
  | cons c rest ih =>
    intro st hst x hx
    cases c with
    | Done =>
      simp only [Batcher.loop] at hx
      obtain ⟨rfl, hne⟩ := mem_saveOldBatch hx
      exact ⟨st, hst, rfl, hne⟩
    | Tick =>
      simp only [Batcher.loop, List.mem_append] at hx
      rcases hx with hx | hx
      · obtain ⟨rfl, hne⟩ := mem_saveOldBatch hx
        exact ⟨st, hst, rfl, hne⟩
      · exact ih startNewBatch h0 x hx
    | Entry entry =>
      simp only [Batcher.loop, List.mem_append] at hx
      rcases hx with hx | hx
      · obtain ⟨rfl, hne⟩ := mem_saveOldBatch (onEntry_sent_subset b st entry hx)
        exact ⟨st, hst, rfl, hne⟩
      · exact ih _ (hstep st entry hst) x hx

theorem payloadBytes_append (xs ys : List InputLogEvent) :
    payloadBytes (xs ++ ys) = payloadBytes xs + payloadBytes ys := by
  induction xs with
  | nil => simp [payloadBytes]
  | cons x xs ih => simp [payloadBytes, ih, Nat.add_assoc]

theorem truncateMessage_length_le (message : List UInt8) :
    (truncateMessage message).length ≤ maxCWLBatchSize := by
  unfold truncateMessage
  split
  · simp only [List.length_take]
    have : bytesToKeepForLogEvent ≤ maxCWLBatchSize := by decide
    omega
  · omega

theorem payloadBytes_truncateEvent (event : InputLogEvent) (message : List UInt8)
    (h : event.Message = some message) :
    payloadBytes [truncateEvent event] = (truncateMessage message).length := by
  simp [payloadBytes, truncateEvent, h]

/-- The event-count invariant of the loop. -/
theorem onEntry_count (b : Batcher) (hmax : 1 ≤ b.maxEvents) (st : BatchLoop)
    (entry : JournalEntry) (h : (st.batch.Events.length : Int) ≤ b.maxEvents) :
    (((b.onEntry st entry).2).batch.Events.length : Int) ≤ b.maxEvents := by
  cases hm : (b.converter entry).Message with
  | none => rw [onEntry_nil b st entry hm]; exact h
  | some message =>
    by_cases hf : ((truncateMessage message).length : Int) + st.bytesCount > b.maxPayload ∨
      (st.batch.Events.length : Int) = b.maxEvents
    · rw [onEntry_flush b st entry message hm hf]; simpa using hmax
    · rw [onEntry_keep b st entry message hm hf]
      simp only [List.length_append, List.length_singleton, Nat.cast_add, Nat.cast_one]
      omega

/-- The payload invariant of the loop, for a payload limit of at least `maxCWLBatchSize`. -/
theorem onEntry_payload (b : Batcher) (hmax : (maxCWLBatchSize : Int) ≤ b.maxPayload)
    (st : BatchLoop) (entry : JournalEntry)
    (h : st.bytesCount = payloadBytes st.batch.Events ∧ st.bytesCount ≤ b.maxPayload) :
    ((b.onEntry st entry).2).bytesCount = payloadBytes ((b.onEntry st entry).2).batch.Events ∧
      ((b.onEntry st entry).2).bytesCount ≤ b.maxPayload := by
  cases hm : (b.converter entry).Message with
  | none => rw [onEntry_nil b st entry hm]; exact h
  | some message =>
    have hlen := truncateMessage_length_le message
    by_cases hf : ((truncateMessage message).length : Int) + st.bytesCount > b.maxPayload ∨
      (st.batch.Events.length : Int) = b.maxEvents
    · rw [onEntry_flush b st entry message hm hf]
      simp only [payloadBytes_truncateEvent _ _ hm]
      exact ⟨trivial, by omega⟩
    · rw [onEntry_keep b st entry message hm hf]
      simp only [payloadBytes_append, payloadBytes_truncateEvent _ _ hm]
      obtain ⟨h1, h2⟩ := h
      constructor
      · rw [h1]; push_cast; rfl
      · omega

theorem batchOf_append_singleton (b : Batcher) (g : List JournalEntry) (entry : JournalEntry) :
    batchOf b (g ++ [entry]) =
      { Events := (batchOf b g).Events ++ [truncateEvent (b.converter entry)],
        Cursor := entry.Cursor } := by
  simp [batchOf]

theorem saveOldBatch_of_group (b : Batcher) (st : BatchLoop) (g : List JournalEntry)
    (h1 : st.batch.Events = (batchOf b g).Events) (h2 : g ≠ [] → st.batch = batchOf b g) :
    saveOldBatch st.batch = (if g = [] then [] else [g]).map (batchOf b) := by
  by_cases hg : g = []
  · subst hg
    simp [saveOldBatch, h1, batchOf]
  · have hne : (batchOf b g).Events.length ≠ 0 := by
      simp [batchOf, hg]
    simp [saveOldBatch, hg, h2 hg, hne]

/-- The batches sent by the loop are the batches of consecutive non-empty runs
of the appended entries; what is left over is the run of the current batch. -/
theorem loop_groups (b : Batcher) :
    ∀ (cases : List BatchSelect) (st : BatchLoop) (g : List JournalEntry),
      st.batch.Events = (batchOf b g).Events → (g ≠ [] → st.batch = batchOf b g) →
      ∃ (groups : List (List JournalEntry)) (current : List JournalEntry),
        (∀ x ∈ groups, x ≠ []) ∧ b.loop st cases = groups.map (batchOf b) ∧
        g ++ entriesAppended b cases = groups.flatten ++ current ∧
        (BatchSelect.Done ∈ cases → current = []) := by
  intro cases
  induction cases with
  | nil =>
    intro st g _ _
    exact ⟨[], g, by simp, by simp [Batcher.loop], by simp [entriesAppended], by simp⟩
  | cons c rest ih =>
    intro st g h1 h2
    have hsave := saveOldBatch_of_group b st g h1 h2
    have hgroup : ∀ x ∈ (if g = [] then [] else [g]), x ≠ [] := by
      intro x hx
      by_cases hg : g = []
      · simp [hg] at hx
      · simp only [hg, if_false, List.mem_singleton] at hx
        exact hx ▸ hg
    have hflat : (if g = [] then [] else [g]).flatten = g := by
      by_cases hg : g = [] <;> simp [hg]
    cases c with
    | Done =>
      refine ⟨if g = [] then [] else [g], [], hgroup, ?_, ?_, fun _ => rfl⟩
      · simp only [Batcher.loop, hsave]
      · simp [entriesAppended, hflat]
    | Tick =>
      obtain ⟨groups, tail, hne, hloop, hcat, hdone⟩ :=
        ih startNewBatch [] (by simp [startNewBatch, batchOf]) (by simp)
      refine ⟨(if g = [] then [] else [g]) ++ groups, tail, ?_, ?_, ?_, ?_⟩
      · intro x hx
        rcases List.mem_append.1 hx with hx | hx
        · exact hgroup x hx
        · exact hne x hx
      · simp only [Batcher.loop, hsave, hloop, List.map_append]
      · simp only [entriesAppended, List.flatten_append, hflat, List.append_assoc]
        simpa using congrArg (fun l => g ++ l) hcat
      · intro hd
        exact hdone (by simpa using hd)
    | Entry entry =>
      cases hm : (b.converter entry).Message with
      | none =>
        obtain ⟨groups, tail, hne, hloop, hcat, hdone⟩ := ih st g h1 h2
        refine ⟨groups, tail, hne, ?_, ?_, ?_⟩
        · simp only [Batcher.loop, onEntry_nil b st entry hm, List.nil_append, hloop]
        · simpa [entriesAppended, hm] using hcat
        · intro hd
          exact hdone (by simpa using hd)
      | some message =>
        have happ : entriesAppended b (BatchSelect.Entry entry :: rest) =
            entry :: entriesAppended b rest := by
          simp [entriesAppended, hm]
        by_cases hf : ((truncateMessage message).length : Int) + st.bytesCount > b.maxPayload ∨
          (st.batch.Events.length : Int) = b.maxEvents
        · obtain ⟨groups, tail, hne, hloop, hcat, hdone⟩ :=
            ih { batch := { Events := [truncateEvent (b.converter entry)], Cursor := entry.Cursor }
                 bytesCount := ((truncateMessage message).length : Int) } [entry]
              (by simp [batchOf]) (by simp [batchOf])
          refine ⟨(if g = [] then [] else [g]) ++ groups, tail, ?_, ?_, ?_, ?_⟩
          · intro x hx
            rcases List.mem_append.1 hx with hx | hx
            · exact hgroup x hx
            · exact hne x hx
          · simp only [Batcher.loop, onEntry_flush b st entry message hm hf, hsave, hloop,
              List.map_append]
          · rw [happ, List.flatten_append, hflat, List.append_assoc, ← hcat]
            simp
          · intro hd
            exact hdone (by simpa using hd)
        · obtain ⟨groups, tail, hne, hloop, hcat, hdone⟩ :=
            ih { batch := { Events := st.batch.Events ++ [truncateEvent (b.converter entry)],
                            Cursor := entry.Cursor }
                 bytesCount := st.bytesCount + ((truncateMessage message).length : Int) }
              (g ++ [entry])
              (by rw [batchOf_append_singleton, h1])
              (by intro _; rw [batchOf_append_singleton, h1])
          refine ⟨groups, tail, hne, ?_, ?_, ?_⟩
          · simp only [Batcher.loop, onEntry_keep b st entry message hm hf, List.nil_append,
              hloop]
          · rw [happ, ← hcat]
            simp
          · intro hd
            exact hdone (by simpa using hd)

theorem entriesAppended_eq_entriesTaken (b : Batcher)
    (hconv : ∀ entry, (b.converter entry).Message ≠ none) (cases : List BatchSelect) :
    entriesAppended b cases = entriesTaken cases := by
  induction cases with
  | nil => rfl
  | cons c rest ih =>
    cases c with
    | Done => rfl
    | Tick => simpa [entriesAppended, entriesTaken] using ih
    | Entry entry => simp [entriesAppended, entriesTaken, hconv entry, ih]

theorem flatten_map_batchOf (b : Batcher) (groups : List (List JournalEntry)) :
    ((groups.map (batchOf b)).map Batch.Events).flatten =
      groups.flatten.map (fun entry => truncateEvent (b.converter entry)) := by
  induction groups with
  | nil => rfl
  | cons g rest ih =>
    simp only [List.map_cons, List.flatten_cons, List.map_append, ih]
    rfl


/-! ## The Batcher: payload, count, order and cursor of the batches -/

/-- With a payload limit of at least `maxCWLBatchSize` (the default), every batch
sent by `Batcher.Batch` has a payload of at most `maxPayload` bytes. -/
theorem Batch_payload_le_of_maxCWLBatchSize_le (b : Batcher) (cases : List BatchSelect)
    (hmax : (maxCWLBatchSize : Int) ≤ b.maxPayload) :
    ∀ x ∈ b.Batch cases, (payloadBytes x.Events : Int) ≤ b.maxPayload := by
  intro x hx
  have h0 : (0 : Int) ≤ b.maxPayload := le_trans (Int.ofNat_nonneg _) hmax
  obtain ⟨st, ⟨h1, h2⟩, rfl, _⟩ :=
    loop_invariant b
      (fun st => st.bytesCount = payloadBytes st.batch.Events ∧ st.bytesCount ≤ b.maxPayload)
      ⟨by simp [startNewBatch, payloadBytes], by simpa [startNewBatch] using h0⟩
      (fun st entry h => onEntry_payload b hmax st entry h) cases startNewBatch
      ⟨by simp [startNewBatch, payloadBytes], by simpa [startNewBatch] using h0⟩ x
      (mem_Batch b cases hx)
  rw [← h1]; exact h2

/-- C1, as stated, fails: with `maxPayload` configured to 500 (and the
default `maxEvents`), one entry whose message has 501 bytes, then cancellation,
makes `Batcher.Batch` send one batch whose payload is 501 bytes, more than
`maxPayload`. -/
theorem Batch_payload_exceeds_configured_maxPayload :
    (NewBatcher sizedConverter [WithMaxPayload 500]).maxPayload = 500 ∧
    (NewBatcher sizedConverter [WithMaxPayload 500]).maxEvents = 1000 ∧
    ((NewBatcher sizedConverter [WithMaxPayload 500]).Batch
        [BatchSelect.Entry (sizedEntry "c0" 501), BatchSelect.Done]).map
      (fun x => payloadBytes x.Events) = [501] := by
  refine ⟨rfl, rfl, ?_⟩
  have hm : ((NewBatcher sizedConverter [WithMaxPayload 500]).converter
      (sizedEntry "c0" 501)).Message = some (List.replicate 501 0) := rfl
  have ht : truncateMessage (List.replicate 501 (0 : UInt8)) = List.replicate 501 0 := by
    unfold truncateMessage
    rw [if_neg]
    rw [List.length_replicate]
    decide
  have hf : ((truncateMessage (List.replicate 501 (0 : UInt8))).length : Int) +
        startNewBatch.bytesCount > (NewBatcher sizedConverter [WithMaxPayload 500]).maxPayload ∨
      (startNewBatch.batch.Events.length : Int) =
        (NewBatcher sizedConverter [WithMaxPayload 500]).maxEvents := by
    left
    rw [ht, List.length_replicate]
    show ((501 : Nat) : Int) + 0 > 500
    decide
  have h1 : saveOldBatch startNewBatch.batch = [] := rfl
  have h2 : ∀ (event : InputLogEvent) (cursor : String),
      saveOldBatch { Events := [event], Cursor := cursor } =
        [{ Events := [event], Cursor := cursor }] := fun _ _ => rfl
  rw [Batch_of_config _ _ (by decide) (by decide) (by decide)]
  simp only [Batcher.loop, onEntry_flush _ _ _ _ hm hf, h1, h2, List.nil_append,
    List.map_cons, List.map_nil, payloadBytes_truncateEvent _ _ hm, ht, List.length_replicate]

/-- C1, amended: for every batcher whose `maxPayload` is at least
`maxCWLBatchSize` (943718 bytes, the default), whatever its other settings, and
for every sequence of entries, ticks and cancellation, every batch sent by
`Batcher.Batch` has a sum of message byte lengths, measured after truncation,
of at most `maxPayload`. -/
theorem Batch_payload_le_maxPayload (b : Batcher) (cases : List BatchSelect)
    (hmax : (maxCWLBatchSize : Int) ≤ b.maxPayload) (x : Batch) (hx : x ∈ b.Batch cases) :
    (payloadBytes x.Events : Int) ≤ b.maxPayload :=
  Batch_payload_le_of_maxCWLBatchSize_le b cases hmax x hx

theorem Batch_payload_le_maxPayload_witness :
    (maxCWLBatchSize : Int) ≤ (NewBatcher sizedConverter [WithMaxPayload 943720]).maxPayload ∧
    ({ Events := [truncateEvent (sizedConverter (sizedEntry "c0" 3)),
                  truncateEvent (sizedConverter (sizedEntry "c1" 4))], Cursor := "c1" } : Batch) ∈
      (NewBatcher sizedConverter [WithMaxPayload 943720]).Batch
        [BatchSelect.Entry (sizedEntry "c0" 3), BatchSelect.Entry (sizedEntry "c1" 4),
          BatchSelect.Done] ∧
    (payloadBytes ({ Events := [truncateEvent (sizedConverter (sizedEntry "c0" 3)),
        truncateEvent (sizedConverter (sizedEntry "c1" 4))], Cursor := "c1" } : Batch).Events :
          Int) ≤ (NewBatcher sizedConverter [WithMaxPayload 943720]).maxPayload :=
  ⟨by decide, by decide,
    Batch_payload_le_maxPayload (NewBatcher sizedConverter [WithMaxPayload 943720])
      [BatchSelect.Entry (sizedEntry "c0" 3), BatchSelect.Entry (sizedEntry "c1" 4),
        BatchSelect.Done] (by decide) _ (by decide)⟩

/-- C6: when `maxEvents` is at least 1, every batch sent by `Batcher.Batch`, for
every sequence of entries, ticks and cancellation, holds at most `maxEvents` events. -/
theorem Batch_events_le_maxEvents (b : Batcher) (cases : List BatchSelect)
    (hmax : 1 ≤ b.maxEvents) :
    ∀ x ∈ b.Batch cases, (x.Events.length : Int) ≤ b.maxEvents := by
  intro x hx
  have h0 : ((startNewBatch.batch.Events.length : Nat) : Int) ≤ b.maxEvents := by
    simp only [startNewBatch, List.length_nil, Nat.cast_zero]
    omega
  obtain ⟨st, h, rfl, _⟩ :=
    loop_invariant b (fun st => (st.batch.Events.length : Int) ≤ b.maxEvents) h0
      (fun st entry h => onEntry_count b hmax st entry h) cases startNewBatch h0 x
      (mem_Batch b cases hx)
  exact h

theorem Batch_events_le_maxEvents_witness :
    1 ≤ (NewBatcher sizedConverter [WithMaxEvents 2]).maxEvents ∧
    ∀ x ∈ (NewBatcher sizedConverter [WithMaxEvents 2]).Batch
        [BatchSelect.Entry (sizedEntry "c0" 3), BatchSelect.Entry (sizedEntry "c1" 3),
          BatchSelect.Entry (sizedEntry "c2" 3), BatchSelect.Tick, BatchSelect.Done],
      (x.Events.length : Int) ≤ (NewBatcher sizedConverter [WithMaxEvents 2]).maxEvents :=
  ⟨by decide, Batch_events_le_maxEvents _ _ (by decide)⟩

/-- C4: for a batcher that starts without a panic (a positive `MaxWait`, and a
`maxEvents` that is not negative and that `make` accepts), when the converter
never returns a nil message and the loop takes the cancellation, the events of
the batches sent by `Batcher.Batch`, concatenated in the order of sending, are
the converted and truncated events of the entries taken before the
cancellation, in the order of arrival, whatever ticks came in between. -/
theorem Batch_events_concat (b : Batcher) (cases : List BatchSelect)
    (hwait : 0 < b.MaxWait) (hcap : 0 ≤ b.maxEvents)
    (hmem : sizeofInputLogEvent * b.maxEvents ≤ maxAlloc)
    (hconv : ∀ entry, (b.converter entry).Message ≠ none)
    (hdone : BatchSelect.Done ∈ cases) :
    ((b.Batch cases).map Batch.Events).flatten =
      (entriesTaken cases).map (fun entry => truncateEvent (b.converter entry)) := by
  obtain ⟨groups, tail, _, hloop, hcat, htail⟩ :=
    loop_groups b cases startNewBatch [] (by simp [startNewBatch, batchOf]) (by simp)
  rw [htail hdone, List.nil_append, List.append_nil,
    entriesAppended_eq_entriesTaken b hconv] at hcat
  rw [Batch_of_config b cases hwait hcap hmem, hloop, flatten_map_batchOf, ← hcat]

theorem Batch_events_concat_witness :
    0 < (NewBatcher sizedConverter [WithMaxEvents 2]).MaxWait ∧
    0 ≤ (NewBatcher sizedConverter [WithMaxEvents 2]).maxEvents ∧
    sizeofInputLogEvent * (NewBatcher sizedConverter [WithMaxEvents 2]).maxEvents ≤ maxAlloc ∧
    (∀ entry, ((NewBatcher sizedConverter [WithMaxEvents 2]).converter entry).Message ≠ none) ∧
    BatchSelect.Done ∈
      [BatchSelect.Entry (sizedEntry "c0" 3), BatchSelect.Tick,
        BatchSelect.Entry (sizedEntry "c1" 3), BatchSelect.Entry (sizedEntry "c2" 3),
        BatchSelect.Entry (sizedEntry "c3" 3), BatchSelect.Done] ∧
    (((NewBatcher sizedConverter [WithMaxEvents 2]).Batch
        [BatchSelect.Entry (sizedEntry "c0" 3), BatchSelect.Tick,
          BatchSelect.Entry (sizedEntry "c1" 3), BatchSelect.Entry (sizedEntry "c2" 3),
          BatchSelect.Entry (sizedEntry "c3" 3), BatchSelect.Done]).map Batch.Events).flatten =
      (entriesTaken
        [BatchSelect.Entry (sizedEntry "c0" 3), BatchSelect.Tick,
          BatchSelect.Entry (sizedEntry "c1" 3), BatchSelect.Entry (sizedEntry "c2" 3),
          BatchSelect.Entry (sizedEntry "c3" 3), BatchSelect.Done]).map
        (fun entry =>
          truncateEvent ((NewBatcher sizedConverter [WithMaxEvents 2]).converter entry)) :=
  ⟨by decide, by decide, by decide,
    fun _ => by simp [NewBatcher, WithMaxEvents, sizedConverter], by simp,
    Batch_events_concat _ _ (by decide) (by decide) (by decide)
      (fun _ => by simp [NewBatcher, WithMaxEvents, sizedConverter]) (by simp)⟩

/-- C5: the batches sent by `Batcher.Batch` are the batches of consecutive
non-empty runs of the entries it appended, in order: the events of a batch are
the converted events of its run, and its `Cursor` is the `Cursor` of the last
entry of the run, the entry its last event was converted from. -/
theorem Batch_cursor_is_last_entry_cursor (b : Batcher) (cases : List BatchSelect) :
    ∃ groups : List (List JournalEntry),
      (∀ g ∈ groups, g ≠ []) ∧
      groups.flatten <+: entriesAppended b cases ∧
      b.Batch cases = groups.map (fun g =>
        { Events := g.map (fun entry => truncateEvent (b.converter entry))
          Cursor := (g.getLast?.map JournalEntry.Cursor).getD "" }) := by
  obtain ⟨groups, tail, hne, hloop, hcat, _⟩ :=
    loop_groups b cases startNewBatch [] (by simp [startNewBatch, batchOf]) (by simp)
  rcases Batch_eq_nil_or b cases with h0 | h0
  · exact ⟨[], by simp, List.nil_prefix, by rw [h0]; rfl⟩
  · refine ⟨groups, hne, ⟨tail, ?_⟩, ?_⟩
    · rw [← hcat, List.nil_append]
    · rw [h0, hloop]; rfl


/-! ## The Batcher: truncation of an oversized message -/

/-- C7, as stated, fails: with `maxPayload` configured to 600, an entry whose
converted message has 601 bytes, more than `maxPayload`, is appended with all
its 601 bytes, and the byte counter grows by 601. -/
theorem onEntry_keeps_message_over_configured_maxPayload :
    ((NewBatcher sizedConverter [WithMaxPayload 600]).converter (sizedEntry "c0" 601)).Message =
      some (List.replicate 601 0) ∧
    ((List.replicate 601 (0 : UInt8)).length : Int) >
      (NewBatcher sizedConverter [WithMaxPayload 600]).maxPayload ∧
    ((NewBatcher sizedConverter [WithMaxPayload 600]).onEntry startNewBatch
        (sizedEntry "c0" 601)).2 =
      { batch := { Events := [{ Message := some (List.replicate 601 0), Timestamp := some 0 }],
                   Cursor := "c0" }
        bytesCount := 601 } := by
  have hm : ((NewBatcher sizedConverter [WithMaxPayload 600]).converter
      (sizedEntry "c0" 601)).Message = some (List.replicate 601 0) := rfl
  have ht : truncateMessage (List.replicate 601 (0 : UInt8)) = List.replicate 601 0 := by
    unfold truncateMessage
    rw [if_neg]
    rw [List.length_replicate]
    decide
  have hf : ((truncateMessage (List.replicate 601 (0 : UInt8))).length : Int) +
        startNewBatch.bytesCount > (NewBatcher sizedConverter [WithMaxPayload 600]).maxPayload ∨
      (startNewBatch.batch.Events.length : Int) =
        (NewBatcher sizedConverter [WithMaxPayload 600]).maxEvents := by
    left
    rw [ht, List.length_replicate]
    show ((601 : Nat) : Int) + 0 > 600
    decide
  refine ⟨hm, ?_, ?_⟩
  · rw [List.length_replicate]
    show ((601 : Nat) : Int) > 600
    decide
  · rw [onEntry_flush _ _ _ _ hm hf, ht, List.length_replicate]
    simp only [truncateEvent, hm, ht]
    rfl

/-- C7, amended: for every Batcher configuration and every entry whose converted
message is longer than `maxCWLBatchSize` (943718 bytes, whatever `maxPayload`
is configured), the event appended to the batch carries exactly the first 500
bytes (`bytesToKeepForLogEvent`) of that message, and the running byte counter
is increased by 500 rather than by the raw length. -/
theorem onEntry_truncates_over_maxCWLBatchSize (b : Batcher) (st : BatchLoop)
    (entry : JournalEntry) (message : List UInt8)
    (hm : (b.converter entry).Message = some message)
    (hlen : message.length > maxCWLBatchSize) :
    (message.take bytesToKeepForLogEvent).length = 500 ∧
    ∃ base : BatchLoop,
      base = (if (500 : Int) + st.bytesCount > b.maxPayload ∨
          (st.batch.Events.length : Int) = b.maxEvents then startNewBatch else st) ∧
      (b.onEntry st entry).2 =
        { batch :=
            { Events := base.batch.Events ++
                [{ Message := some (message.take bytesToKeepForLogEvent),
                   Timestamp := (b.converter entry).Timestamp }]
              Cursor := entry.Cursor }
          bytesCount := base.bytesCount + 500 } := by
  have h500 : (message.take bytesToKeepForLogEvent).length = 500 := by
    have : maxCWLBatchSize = 943718 := by decide
    simp only [List.length_take, bytesToKeepForLogEvent]
    omega
  have ht : truncateMessage message = message.take bytesToKeepForLogEvent := by
    simp [truncateMessage, hlen]
  have hlen' : ((truncateMessage message).length : Int) = 500 := by
    rw [ht, h500]; rfl
  refine ⟨h500, _, rfl, ?_⟩
  by_cases hf : (500 : Int) + st.bytesCount > b.maxPayload ∨
      (st.batch.Events.length : Int) = b.maxEvents
  · rw [onEntry_flush b st entry message hm (by rw [hlen']; exact hf), if_pos hf, hlen']
    simp [truncateEvent, hm, ht, startNewBatch]
  · rw [onEntry_keep b st entry message hm (by rw [hlen']; exact hf), if_neg hf, hlen']
    simp [truncateEvent, hm, ht]

theorem onEntry_truncates_over_maxCWLBatchSize_witness :
    ((NewBatcher sizedConverter []).converter (sizedEntry "c0" 943719)).Message =
      some (List.replicate 943719 0) ∧
    (List.replicate 943719 (0 : UInt8)).length > maxCWLBatchSize ∧
    ((List.replicate 943719 (0 : UInt8)).take bytesToKeepForLogEvent).length = 500 ∧
    ∃ base : BatchLoop,
      base = (if (500 : Int) + startNewBatch.bytesCount > (NewBatcher sizedConverter []).maxPayload ∨
          (startNewBatch.batch.Events.length : Int) = (NewBatcher sizedConverter []).maxEvents
        then startNewBatch else startNewBatch) ∧
      ((NewBatcher sizedConverter []).onEntry startNewBatch (sizedEntry "c0" 943719)).2 =
        { batch :=
            { Events := base.batch.Events ++
                [{ Message := some ((List.replicate 943719 (0 : UInt8)).take bytesToKeepForLogEvent),
                   Timestamp :=
                     ((NewBatcher sizedConverter []).converter (sizedEntry "c0" 943719)).Timestamp }]
              Cursor := (sizedEntry "c0" 943719).Cursor }
          bytesCount := base.bytesCount + 500 } :=
  ⟨rfl, by rw [List.length_replicate]; decide,
    onEntry_truncates_over_maxCWLBatchSize (NewBatcher sizedConverter []) startNewBatch
      (sizedEntry "c0" 943719) (List.replicate 943719 0) rfl
      (by rw [List.length_replicate]; decide)⟩


/-! ## Facts about the Sink Writer -/

theorem putEvents_eq {σ : Type} (w : Writer σ) (events : List InputLogEvent) (s : World σ)
    (r : Option RemoteError) (t : σ)
    (h : w.cwlClient.PutLogEvents (w.putRequest events) s.state = (r, t)) :
    w.putEvents events s =
      (r, { state := t, calls := s.calls ++ [Call.PutLogEvents (w.putRequest events) r] }) := by
  simp [Writer.putEvents, h]

theorem createStream_eq {σ : Type} (w : Writer σ) (s : World σ)
    (r : Option RemoteError) (t : σ)
    (h : w.cwlClient.CreateLogStream w.createRequest s.state = (r, t)) :
    w.createStream s =
      (r, { state := t, calls := s.calls ++ [Call.CreateLogStream w.createRequest r] }) := by
  simp [Writer.createStream, h]

theorem callSaveCursor_eq {σ : Type} (w : Writer σ) (cursor : String) (s : World σ)
    (r : Option String) (t : σ) (h : w.saveCursor cursor s.state = (r, t)) :
    w.callSaveCursor cursor s =
      (r, { state := t, calls := s.calls ++ [Call.saveCursor cursor r] }) := by
  simp [Writer.callSaveCursor, h]

theorem isThrottling_false_of_isResourceNotFound {err : RemoteError}
    (h : err.isResourceNotFound = true) : err.isThrottling = false := by
  cases err with
  | other _ => rfl
  | api code _ =>
    simp only [RemoteError.isResourceNotFound, decide_eq_true_eq] at h
    subst h
    simp only [RemoteError.isThrottling, decide_eq_false_iff_not]
    decide

/-- `writeBatch` when the first `PutLogEvents` succeeds. -/
theorem writeBatch_ok {σ : Type} (w : Writer σ) (events : List InputLogEvent) (s : World σ)
    (t : σ) (h : w.cwlClient.PutLogEvents (w.putRequest events) s.state = (none, t)) :
    w.writeBatch events s =
      (none, { state := t, calls := s.calls ++ [Call.PutLogEvents (w.putRequest events) none] }) := by
  simp [Writer.writeBatch, putEvents_eq w events s none t h]

/-- `writeBatch` when the first `PutLogEvents` is throttled. -/
theorem writeBatch_throttled {σ : Type} (w : Writer σ) (events : List InputLogEvent)
    (s : World σ) (err : RemoteError) (t : σ)
    (h : w.cwlClient.PutLogEvents (w.putRequest events) s.state = (some err, t))
    (hthr : err.isThrottling = true) :
    w.writeBatch events s =
      (some WriteError.errThrottled,
        { state := t, calls := s.calls ++ [Call.PutLogEvents (w.putRequest events) (some err)] }) := by
  cases err with
  | other _ => simp [RemoteError.isThrottling] at hthr
  | api code _ =>
    simp only [RemoteError.isThrottling, decide_eq_true_eq] at hthr
    simp [Writer.writeBatch, putEvents_eq w events s _ t h, hthr]

/-- `writeBatch` when the first `PutLogEvents` fails with an error that is
neither throttling nor a missing resource. -/
theorem writeBatch_unclassified {σ : Type} (w : Writer σ) (events : List InputLogEvent)
    (s : World σ) (err : RemoteError) (t : σ)
    (h : w.cwlClient.PutLogEvents (w.putRequest events) s.state = (some err, t))
    (hthr : err.isThrottling = false) (hrnf : err.isResourceNotFound = false) :
    w.writeBatch events s =
      (some (WriteError.remote err),
        { state := t, calls := s.calls ++ [Call.PutLogEvents (w.putRequest events) (some err)] }) := by
  cases err with
  | other _ => simp [Writer.writeBatch, putEvents_eq w events s _ t h]
  | api code _ =>
    simp only [RemoteError.isThrottling, RemoteError.isResourceNotFound,
      decide_eq_false_iff_not] at hthr hrnf
    simp [Writer.writeBatch, putEvents_eq w events s _ t h, hthr, hrnf]

/-- `writeBatch` when the resource is missing and `CreateLogStream` fails. -/
theorem writeBatch_create_failed {σ : Type} (w : Writer σ) (events : List InputLogEvent)
    (s : World σ) (err err' : RemoteError) (t t' : σ)
    (h : w.cwlClient.PutLogEvents (w.putRequest events) s.state = (some err, t))
    (hrnf : err.isResourceNotFound = true)
    (hc : w.cwlClient.CreateLogStream w.createRequest t = (some err', t')) :
    w.writeBatch events s =
      (some (WriteError.remote err'),
        { state := t'
          calls := s.calls ++ [Call.PutLogEvents (w.putRequest events) (some err),
            Call.CreateLogStream w.createRequest (some err')] }) := by
  have hthr := isThrottling_false_of_isResourceNotFound hrnf
  cases err with
  | other _ => simp [RemoteError.isResourceNotFound] at hrnf
  | api code _ =>
    simp only [RemoteError.isThrottling, RemoteError.isResourceNotFound,
      decide_eq_false_iff_not, decide_eq_true_eq] at hthr hrnf
    subst hrnf
    simp [Writer.writeBatch, Writer.putEvents, Writer.createStream, h, hthr, hc]

/-- `writeBatch` when the resource is missing and `CreateLogStream` succeeds:
the result is that of the second `PutLogEvents`. -/
theorem writeBatch_created {σ : Type} (w : Writer σ) (events : List InputLogEvent)
    (s : World σ) (err : RemoteError) (r : Option RemoteError) (t t2 t3 : σ)
    (h : w.cwlClient.PutLogEvents (w.putRequest events) s.state = (some err, t))
    (hrnf : err.isResourceNotFound = true)
    (hc : w.cwlClient.CreateLogStream w.createRequest t = (none, t2))
    (h2 : w.cwlClient.PutLogEvents (w.putRequest events) t2 = (r, t3)) :
    w.writeBatch events s =
      (r.map WriteError.remote,
        { state := t3
          calls := s.calls ++ [Call.PutLogEvents (w.putRequest events) (some err),
            Call.CreateLogStream w.createRequest none,
            Call.PutLogEvents (w.putRequest events) r] }) := by
  have hthr := isThrottling_false_of_isResourceNotFound hrnf
  cases err with
  | other _ => simp [RemoteError.isResourceNotFound] at hrnf
  | api code _ =>
    simp only [RemoteError.isThrottling, RemoteError.isResourceNotFound,
      decide_eq_false_iff_not, decide_eq_true_eq] at hthr hrnf
    subst hrnf
    cases r with
    | none => simp [Writer.writeBatch, Writer.putEvents, Writer.createStream, h, hthr, hc, h2]
    | some err' =>
      simp [Writer.writeBatch, Writer.putEvents, Writer.createStream, h, hthr, hc, h2]


/-- The calls of `writeBatch`: it starts with a `PutLogEvents`, it never calls
`saveCursor`, and when it returns nil its last call is a `PutLogEvents` that succeeded. -/
theorem writeBatch_calls {σ : Type} (w : Writer σ) (events : List InputLogEvent) (s : World σ) :
    ∃ tail : List Call,
      (w.writeBatch events s).2.calls =
        s.calls ++ Call.PutLogEvents (w.putRequest events)
          (w.cwlClient.PutLogEvents (w.putRequest events) s.state).1 :: tail ∧
      (∀ c ∈ tail, c.isSaveCursor = false) ∧
      ((w.writeBatch events s).1 = none →
        ∃ body : List Call, (∀ c ∈ body, c.isSaveCursor = false) ∧
          (w.writeBatch events s).2.calls =
            s.calls ++ body ++ [Call.PutLogEvents (w.putRequest events) none]) := by
  rcases hp : w.cwlClient.PutLogEvents (w.putRequest events) s.state with ⟨r1, t1⟩
  cases r1 with
  | none =>
    rw [writeBatch_ok w events s t1 hp]
    exact ⟨[], rfl, by simp, fun _ => ⟨[], by simp, by simp⟩⟩
  | some err =>
    by_cases hthr : err.isThrottling = true
    · rw [writeBatch_throttled w events s err t1 hp hthr]
      exact ⟨[], rfl, by simp, fun h => by simp at h⟩
    · have hthr' : err.isThrottling = false := by simpa using hthr
      by_cases hrnf : err.isResourceNotFound = true
      · rcases hc : w.cwlClient.CreateLogStream w.createRequest t1 with ⟨rc, t2⟩
        cases rc with
        | some err' =>
          rw [writeBatch_create_failed w events s err err' t1 t2 hp hrnf hc]
          exact ⟨[Call.CreateLogStream w.createRequest (some err')], rfl,
            by simp [Call.isSaveCursor], fun h => by simp at h⟩
        | none =>
          rcases hp2 : w.cwlClient.PutLogEvents (w.putRequest events) t2 with ⟨r2, t3⟩
          rw [writeBatch_created w events s err r2 t1 t2 t3 hp hrnf hc hp2]
          refine ⟨[Call.CreateLogStream w.createRequest none,
            Call.PutLogEvents (w.putRequest events) r2], rfl, by simp [Call.isSaveCursor], ?_⟩
          intro h
          cases r2 with
          | some _ => simp at h
          | none =>
            exact ⟨[Call.PutLogEvents (w.putRequest events) (some err),
              Call.CreateLogStream w.createRequest none], by simp [Call.isSaveCursor], by simp⟩
      · have hrnf' : err.isResourceNotFound = false := by simpa using hrnf
        rw [writeBatch_unclassified w events s err t1 hp hthr' hrnf']
        exact ⟨[], rfl, by simp, fun h => by simp at h⟩

/-- The batch case when the first `writeBatch` returns nil. -/
theorem onBatch_of_ok {σ : Type} (w : Writer σ) (batch : Batch) (s s1 : World σ)
    (h : w.writeBatch batch.Events s = (none, s1)) :
    w.onBatch batch s =
      (if (w.saveCursor batch.Cursor s1.state).1 = none then Flow.Continue else Flow.Panic,
        { state := (w.saveCursor batch.Cursor s1.state).2
          calls := s1.calls ++
            [Call.saveCursor batch.Cursor (w.saveCursor batch.Cursor s1.state).1] }) := by
  simp only [Writer.onBatch, h, Writer.callSaveCursor]
  cases (w.saveCursor batch.Cursor s1.state).1 <;> simp

/-- The batch case when the first `writeBatch` returns an error: a sleep when
the error is `errThrottled`, then a second `writeBatch`, whatever the error. -/
theorem onBatch_of_err {σ : Type} (w : Writer σ) (batch : Batch) (s s1 : World σ)
    (err : WriteError) (h : w.writeBatch batch.Events s = (some err, s1)) :
    w.onBatch batch s =
      (if (w.writeBatch batch.Events
            (if err = WriteError.errThrottled then s1.sleep timeToWaitOnThrottle else s1)).1 = none
        then Flow.Continue else Flow.Panic,
       (w.writeBatch batch.Events
          (if err = WriteError.errThrottled then s1.sleep timeToWaitOnThrottle else s1)).2) := by
  simp only [Writer.onBatch, h]
  generalize w.writeBatch batch.Events
    (if err = WriteError.errThrottled then s1.sleep timeToWaitOnThrottle else s1) = res
  rcases res with ⟨r, s2⟩
  cases r <;> simp

theorem Write_of_continue {σ : Type} (w : Writer σ) (batch : Batch) (rest : List WriteSelect)
    (s s1 : World σ) (h : w.onBatch batch s = (Flow.Continue, s1)) :
    w.Write (WriteSelect.Batch batch :: rest) s = w.Write rest s1 := by
  simp [Writer.Write, h]

theorem Write_of_panic {σ : Type} (w : Writer σ) (batch : Batch) (rest : List WriteSelect)
    (s s1 : World σ) (h : w.onBatch batch s = (Flow.Panic, s1)) :
    w.Write (WriteSelect.Batch batch :: rest) s = (Exit.Panicked, s1) := by
  simp [Writer.Write, h]

/-- The calls of the batch case: none is a `saveCursor`, or the last two are a
`PutLogEvents` of the events of the batch that succeeded and the `saveCursor` of
the cursor of the batch, and no other is a `saveCursor`. -/
theorem onBatch_calls {σ : Type} (w : Writer σ) (batch : Batch) (s : World σ) :
    ∃ seg : List Call, (w.onBatch batch s).2.calls = s.calls ++ seg ∧
      ((∀ c ∈ seg, c.isSaveCursor = false) ∨
        ∃ (body : List Call) (r : Option String),
          (∀ c ∈ body, c.isSaveCursor = false) ∧
          seg = body ++ [Call.PutLogEvents (w.putRequest batch.Events) none,
            Call.saveCursor batch.Cursor r]) := by
  rcases h : w.writeBatch batch.Events s with ⟨r1, s1⟩
  obtain ⟨tail, hcalls, htail, hok⟩ := writeBatch_calls w batch.Events s
  rw [h] at hcalls hok
  simp only at hcalls hok
  generalize (w.cwlClient.PutLogEvents (w.putRequest batch.Events) s.state).1 = p1 at hcalls
  cases r1 with
  | none =>
    obtain ⟨body, hbody, hb⟩ := hok rfl
    rw [onBatch_of_ok w batch s s1 h]
    refine ⟨body ++ [Call.PutLogEvents (w.putRequest batch.Events) none,
      Call.saveCursor batch.Cursor (w.saveCursor batch.Cursor s1.state).1], ?_,
      Or.inr ⟨body, _, hbody, rfl⟩⟩
    simp [hb]
  | some err =>
    rw [onBatch_of_err w batch s s1 err h]
    by_cases he : err = WriteError.errThrottled
    · obtain ⟨tail2, hcalls2, htail2, _⟩ :=
        writeBatch_calls w batch.Events (s1.sleep timeToWaitOnThrottle)
      generalize (w.cwlClient.PutLogEvents (w.putRequest batch.Events)
        (s1.sleep timeToWaitOnThrottle).state).1 = p2 at hcalls2
      simp only [he, if_true]
      refine ⟨(Call.PutLogEvents (w.putRequest batch.Events) p1 :: tail) ++
        Call.Sleep timeToWaitOnThrottle ::
        Call.PutLogEvents (w.putRequest batch.Events) p2 :: tail2, ?_, Or.inl ?_⟩
      · rw [hcalls2]
        simp only [World.sleep]
        rw [hcalls]
        simp
      · intro c hc
        simp only [List.mem_append, List.mem_cons] at hc
        rcases hc with (rfl | hc) | rfl | rfl | hc
        · rfl
        · exact htail c hc
        · rfl
        · rfl
        · exact htail2 c hc
    · obtain ⟨tail2, hcalls2, htail2, _⟩ := writeBatch_calls w batch.Events s1
      generalize (w.cwlClient.PutLogEvents (w.putRequest batch.Events) s1.state).1 = p2
        at hcalls2
      simp only [he, if_false]
      refine ⟨(Call.PutLogEvents (w.putRequest batch.Events) p1 :: tail) ++
        Call.PutLogEvents (w.putRequest batch.Events) p2 :: tail2, ?_, Or.inl ?_⟩
      · rw [hcalls2, hcalls]
        simp
      · intro c hc
        simp only [List.mem_append, List.mem_cons] at hc
        rcases hc with (rfl | hc) | rfl | hc
        · rfl
        · exact htail c hc
        · rfl
        · exact htail2 c hc

/-- The calls of `Write` extend the calls made before it. -/
theorem Write_calls_extend {σ : Type} (w : Writer σ) :
    ∀ (cases : List WriteSelect) (s : World σ),
      ∃ seg : List Call, (w.Write cases s).2.calls = s.calls ++ seg := by
  intro cases
  induction cases with
  | nil => intro s; exact ⟨[], by simp [Writer.Write]⟩
  | cons c rest ih =>
    intro s
    cases c with
    | Done => exact ⟨[], by simp [Writer.Write]⟩
    | Batch batch =>
      obtain ⟨seg, hseg, _⟩ := onBatch_calls w batch s
      rcases h : w.onBatch batch s with ⟨flow, s1⟩
      rw [h] at hseg
      cases flow with
      | Panic =>
        rw [Write_of_panic w batch rest s s1 h]
        exact ⟨seg, hseg⟩
      | Continue =>
        rw [Write_of_continue w batch rest s s1 h]
        obtain ⟨seg2, hseg2⟩ := ih s1
        exact ⟨seg ++ seg2, by rw [hseg2, hseg, List.append_assoc]⟩


theorem not_mem_of_isSaveCursor {seg pre post : List Call} {z : Call}
    (hseg : ∀ c ∈ seg, c.isSaveCursor = false) (hz : z.isSaveCursor = true)
    (h : seg = pre ++ z :: post) : False := by
  have hmem : z ∈ seg := by rw [h]; simp
  rw [hseg z hmem] at hz
  exact Bool.false_ne_true hz

/-- Where a `saveCursor` can stand in calls that end with a call that is not a
`saveCursor` followed by one more call, and hold no `saveCursor` before. -/
theorem saveCursor_position (x y z : Call) (hx : x.isSaveCursor = false)
    (hz : z.isSaveCursor = true) :
    ∀ (body pre post : List Call), (∀ c ∈ body, c.isSaveCursor = false) →
      body ++ [x, y] = pre ++ z :: post → pre = body ++ [x] ∧ z = y ∧ post = [] := by
  intro body
  induction body with
  | nil =>
    intro pre post _ h
    cases pre with
    | nil =>
      simp only [List.nil_append, List.cons.injEq] at h
      rw [← h.1, hx] at hz
      exact absurd hz Bool.false_ne_true
    | cons p pre' =>
      cases pre' with
      | nil =>
        simp only [List.nil_append, List.cons_append, List.cons.injEq] at h
        obtain ⟨rfl, rfl, hpost⟩ := h
        exact ⟨rfl, rfl, hpost.symm⟩
      | cons q _ =>
        simp at h
  | cons b body ih =>
    intro pre post hbody h
    cases pre with
    | nil =>
      simp only [List.nil_append, List.cons_append, List.cons.injEq] at h
      have := hbody b (by simp)
      rw [h.1, hz] at this
      exact absurd this.symm Bool.false_ne_true
    | cons p pre' =>
      simp only [List.cons_append, List.cons.injEq] at h
      obtain ⟨rfl, h⟩ := h
      obtain ⟨h1, h2, h3⟩ := ih pre' post (fun c hc => hbody c (by simp [hc])) h
      exact ⟨by simp [h1], h2, h3⟩

/-- In the calls of `Write`, every `saveCursor` comes right after a `PutLogEvents`
that succeeded, for a batch taken by the loop whose events were put and whose
cursor is saved. -/
theorem Write_calls {σ : Type} (w : Writer σ) :
    ∀ (cases : List WriteSelect) (s : World σ),
      ∃ seg : List Call, (w.Write cases s).2.calls = s.calls ++ seg ∧
        ∀ (pre post : List Call) (cursor : String) (err : Option String),
          seg = pre ++ Call.saveCursor cursor err :: post →
          ∃ (pre' : List Call) (events : List InputLogEvent),
            pre = pre' ++ [Call.PutLogEvents (w.putRequest events) none] ∧
            WriteSelect.Batch { Events := events, Cursor := cursor } ∈ cases := by
  intro cases
  induction cases with
  | nil =>
    intro s
    refine ⟨[], by simp [Writer.Write], ?_⟩
    intro pre post cursor err h
    simp at h
  | cons c rest ih =>
    intro s
    cases c with
    | Done =>
      refine ⟨[], by simp [Writer.Write], ?_⟩
      intro pre post cursor err h
      simp at h
    | Batch batch =>
      obtain ⟨seg, hseg, hshape⟩ := onBatch_calls w batch s
      rcases h : w.onBatch batch s with ⟨flow, s1⟩
      rw [h] at hseg
      simp only at hseg
      have hfirst : ∀ (pre post : List Call) (cursor : String) (err : Option String),
          seg = pre ++ Call.saveCursor cursor err :: post →
          post = [] ∧ ∃ pre' : List Call,
            pre = pre' ++ [Call.PutLogEvents (w.putRequest batch.Events) none] ∧
            cursor = batch.Cursor := by
        intro pre post cursor err hsplit
        rcases hshape with hno | ⟨body, r, hbody, hbr⟩
        · exact (not_mem_of_isSaveCursor (z := Call.saveCursor cursor err) hno rfl hsplit).elim
        · rw [hbr] at hsplit
          obtain ⟨h1, h2, h3⟩ :=
            saveCursor_position (Call.PutLogEvents (w.putRequest batch.Events) none)
              (Call.saveCursor batch.Cursor r) (Call.saveCursor cursor err) rfl rfl
              body pre post hbody hsplit
          simp only [Call.saveCursor.injEq] at h2
          exact ⟨h3, body, h1, h2.1⟩
      cases flow with
      | Panic =>
        rw [Write_of_panic w batch rest s s1 h]
        refine ⟨seg, hseg, ?_⟩
        intro pre post cursor err hsplit
        obtain ⟨_, pre', hpre, hcur⟩ := hfirst pre post cursor err hsplit
        exact ⟨pre', batch.Events, hpre, by simp [hcur]⟩
      | Continue =>
        rw [Write_of_continue w batch rest s s1 h]
        obtain ⟨seg2, hseg2, hrest⟩ := ih s1
        refine ⟨seg ++ seg2, by rw [hseg2, hseg, List.append_assoc], ?_⟩
        intro pre post cursor err hsplit
        rcases List.append_eq_append_iff.1 hsplit with ⟨a, hpre, hs2⟩ | ⟨c, hs1, hc⟩
        · obtain ⟨pre', events, hpre', hmem⟩ := hrest a post cursor err hs2
          exact ⟨seg ++ pre', events, by rw [hpre, hpre', List.append_assoc],
            List.mem_cons_of_mem _ hmem⟩
        · cases c with
          | nil =>
            simp only [List.nil_append] at hc
            simp only [List.append_nil] at hs1
            obtain ⟨pre', events, hpre', hmem⟩ := hrest [] post cursor err (by simp [← hc])
            simp at hpre'
          | cons z c' =>
            simp only [List.cons_append, List.cons.injEq] at hc
            obtain ⟨hz, _⟩ := hc
            subst hz
            obtain ⟨_, pre', hpre, hcur⟩ := hfirst pre c' cursor err hs1
            exact ⟨pre', batch.Events, hpre, by simp [hcur]⟩

/-! ## The Sink Writer: checkpoints and recovery -/

/-- C2: in every execution of `Writer.Write`, whatever the remote calls and
`saveCursor` return, a call `saveCursor(c)` comes immediately after a
`PutLogEvents` that succeeded, with no call in between, and that `PutLogEvents`
carried the events of a batch received by the writer whose `Cursor` is `c`. -/
theorem Write_saveCursor_follows_successful_put {σ : Type} (w : Writer σ)
    (cases : List WriteSelect) (s0 : σ) (pre post : List Call) (cursor : String)
    (err : Option String)
    (h : (w.Write cases { state := s0, calls := [] }).2.calls =
      pre ++ Call.saveCursor cursor err :: post) :
    ∃ (pre' : List Call) (events : List InputLogEvent),
      pre = pre' ++ [Call.PutLogEvents (w.putRequest events) none] ∧
      WriteSelect.Batch { Events := events, Cursor := cursor } ∈ cases := by
  obtain ⟨seg, hseg, hall⟩ := Write_calls w cases { state := s0, calls := [] }
  rw [hseg, List.nil_append] at h
  exact hall pre post cursor err h

theorem Write_saveCursor_follows_successful_put_witness :
    (scriptedWriter.Write [WriteSelect.Batch testBatch, WriteSelect.Done]
        { state := { puts := [], creates := [], saves := [] }, calls := [] }).2.calls =
      [Call.PutLogEvents (scriptedWriter.putRequest testBatch.Events) none] ++
        Call.saveCursor "cursor-0" none :: [] ∧
    ∃ (pre' : List Call) (events : List InputLogEvent),
      [Call.PutLogEvents (scriptedWriter.putRequest testBatch.Events) none] =
        pre' ++ [Call.PutLogEvents (scriptedWriter.putRequest events) none] ∧
      WriteSelect.Batch { Events := events, Cursor := "cursor-0" } ∈
        [WriteSelect.Batch testBatch, WriteSelect.Done] :=
  ⟨by decide, Write_saveCursor_follows_successful_put scriptedWriter
    [WriteSelect.Batch testBatch, WriteSelect.Done]
    { puts := [], creates := [], saves := [] }
    [Call.PutLogEvents (scriptedWriter.putRequest testBatch.Events) none] [] "cursor-0" none
    (by decide)⟩


/-- The calls of `Write` on a batch extend the calls of the batch case. -/
theorem Write_cons_calls {σ : Type} (w : Writer σ) (batch : Batch) (rest : List WriteSelect)
    (s : World σ) :
    ∃ seg : List Call,
      (w.Write (WriteSelect.Batch batch :: rest) s).2.calls = (w.onBatch batch s).2.calls ++ seg := by
  rcases h : w.onBatch batch s with ⟨flow, s1⟩
  cases flow with
  | Panic => exact ⟨[], by rw [Write_of_panic w batch rest s s1 h]; simp⟩
  | Continue =>
    rw [Write_of_continue w batch rest s s1 h]
    exact Write_calls_extend w rest s1

/-- After a first `writeBatch` that returned an error of the remote client, the
batch case goes on, without a sleep, to a second `writeBatch`; when its
`PutLogEvents` fails with an error other than a missing resource, `Write` panics there. -/
theorem Write_second_attempt {σ : Type} (w : Writer σ) (batch : Batch) (rest : List WriteSelect)
    (s s1 : World σ) (err : RemoteError)
    (h : w.writeBatch batch.Events s = (some (WriteError.remote err), s1))
    (r : Option RemoteError) (t : σ)
    (hp : w.cwlClient.PutLogEvents (w.putRequest batch.Events) s1.state = (r, t)) :
    (∃ tail : List Call, (w.Write (WriteSelect.Batch batch :: rest) s).2.calls =
        s1.calls ++ Call.PutLogEvents (w.putRequest batch.Events) r :: tail) ∧
    (∀ err' : RemoteError, r = some err' → err'.isResourceNotFound = false →
      w.Write (WriteSelect.Batch batch :: rest) s =
        (Exit.Panicked,
          { state := t
            calls := s1.calls ++ [Call.PutLogEvents (w.putRequest batch.Events) r] })) := by
  have hon := onBatch_of_err w batch s s1 _ h
  simp only [reduceCtorEq, if_false] at hon
  constructor
  · obtain ⟨seg, hseg⟩ := Write_cons_calls w batch rest s
    obtain ⟨tail, hcalls, _⟩ := writeBatch_calls w batch.Events s1
    rw [hp] at hcalls
    rw [hseg, hon]
    simp only
    rw [hcalls]
    exact ⟨tail ++ seg, by simp⟩
  · intro err' hr hrnf
    subst hr
    have hw : ∃ e, w.writeBatch batch.Events s1 =
        (some e, { state := t
                   calls := s1.calls ++ [Call.PutLogEvents (w.putRequest batch.Events)
                     (some err')] }) := by
      by_cases hthr : err'.isThrottling = true
      · exact ⟨_, writeBatch_throttled w batch.Events s1 err' t hp hthr⟩
      · exact ⟨_, writeBatch_unclassified w batch.Events s1 err' t hp (by simpa using hthr) hrnf⟩
    obtain ⟨e, hw⟩ := hw
    rw [hw] at hon
    simp only [reduceCtorEq, if_false] at hon
    exact Write_of_panic w batch rest s _ hon

/-- The code on a throttled batch whose retry succeeds: one sleep, two
`PutLogEvents`, no `saveCursor`, and the loop goes on. -/
theorem Write_after_throttle_retry_ok {σ : Type} (w : Writer σ) (batch : Batch)
    (rest : List WriteSelect) (s : World σ) (err : RemoteError) (t t' : σ)
    (h1 : w.cwlClient.PutLogEvents (w.putRequest batch.Events) s.state = (some err, t))
    (hthr : err.isThrottling = true)
    (h2 : w.cwlClient.PutLogEvents (w.putRequest batch.Events) t = (none, t')) :
    w.Write (WriteSelect.Batch batch :: rest) s =
      w.Write rest
        { state := t'
          calls := s.calls ++ [Call.PutLogEvents (w.putRequest batch.Events) (some err),
            Call.Sleep timeToWaitOnThrottle,
            Call.PutLogEvents (w.putRequest batch.Events) none] } := by
  have hon := onBatch_of_err w batch s _ _ (writeBatch_throttled w batch.Events s err t h1 hthr)
  simp only [if_true] at hon
  have hw := writeBatch_ok w batch.Events
    (World.sleep { state := t, calls := s.calls ++
      [Call.PutLogEvents (w.putRequest batch.Events) (some err)] } timeToWaitOnThrottle) t' h2
  rw [hw] at hon
  simp only [if_true, World.sleep, List.append_assoc, List.singleton_append] at hon
  exact Write_of_continue w batch rest s _ hon

/-- C3, at the failing input: one batch, a first `PutLogEvents` that returns a
`ThrottlingException` and a second that succeeds.  `Writer.Write` sleeps once
for `timeToWaitOnThrottle` and calls `PutLogEvents` twice, then returns on
cancellation without ever having called `saveCursor`. -/
theorem Write_throttled_then_ok_saves_no_cursor :
    scriptedWriter.Write [WriteSelect.Batch testBatch, WriteSelect.Done]
        (scripted [some (RemoteError.api throttlingExceptionCode "Rate exceeded"), none] [] []) =
      (Exit.Returned,
        { state := { puts := [], creates := [], saves := [] }
          calls := [Call.PutLogEvents (scriptedWriter.putRequest testBatch.Events)
              (some (RemoteError.api throttlingExceptionCode "Rate exceeded")),
            Call.Sleep timeToWaitOnThrottle,
            Call.PutLogEvents (scriptedWriter.putRequest testBatch.Events) none] }) := by
  decide

/-- C8, as stated, fails: after a first `PutLogEvents` that fails with an
unclassified error, `Writer.Write` calls `PutLogEvents` a second time, and when
that call succeeds it does not panic. -/
theorem Write_unclassified_error_is_retried :
    scriptedWriter.Write [WriteSelect.Batch testBatch, WriteSelect.Done]
        (scripted [some (RemoteError.other "cannot put log events"), none] [] []) =
      (Exit.Returned,
        { state := { puts := [], creates := [], saves := [] }
          calls := [Call.PutLogEvents (scriptedWriter.putRequest testBatch.Events)
              (some (RemoteError.other "cannot put log events")),
            Call.PutLogEvents (scriptedWriter.putRequest testBatch.Events) none] }) := by
  decide

/-- C8, amended: when the first `PutLogEvents` for a batch fails with an error
that is neither a `ThrottlingException` nor a `ResourceNotFoundException`,
`Writer.Write` calls `PutLogEvents` a second time for the batch, with no sleep
in between; and when that second call fails with an error other than a
`ResourceNotFoundException`, `Writer.Write` panics, having called `PutLogEvents`
exactly twice for the batch and `saveCursor` not at all. -/
theorem Write_unclassified_error_retried_once {σ : Type} (w : Writer σ) (batch : Batch)
    (rest : List WriteSelect) (s : World σ) (err : RemoteError) (t : σ)
    (r : Option RemoteError) (t' : σ)
    (h1 : w.cwlClient.PutLogEvents (w.putRequest batch.Events) s.state = (some err, t))
    (hthr : err.isThrottling = false) (hrnf : err.isResourceNotFound = false)
    (h2 : w.cwlClient.PutLogEvents (w.putRequest batch.Events) t = (r, t')) :
    (∃ tail : List Call, (w.Write (WriteSelect.Batch batch :: rest) s).2.calls =
        s.calls ++ [Call.PutLogEvents (w.putRequest batch.Events) (some err),
          Call.PutLogEvents (w.putRequest batch.Events) r] ++ tail) ∧
    (∀ err' : RemoteError, r = some err' → err'.isResourceNotFound = false →
      w.Write (WriteSelect.Batch batch :: rest) s =
        (Exit.Panicked,
          { state := t'
            calls := s.calls ++ [Call.PutLogEvents (w.putRequest batch.Events) (some err),
              Call.PutLogEvents (w.putRequest batch.Events) r] })) := by
  obtain ⟨⟨tail, ht⟩, hpanic⟩ := Write_second_attempt w batch rest s _ err
    (writeBatch_unclassified w batch.Events s err t h1 hthr hrnf) r t' h2
  refine ⟨⟨tail, by rw [ht]; simp⟩, ?_⟩
  intro err' hr hrnf'
  rw [hpanic err' hr hrnf']
  simp

theorem Write_unclassified_error_retried_once_witness :
    scriptedWriter.cwlClient.PutLogEvents (scriptedWriter.putRequest testBatch.Events)
        (scripted [some (RemoteError.other "e1"), some (RemoteError.other "e2")] [] []).state =
      (some (RemoteError.other "e1"),
        { puts := [some (RemoteError.other "e2")], creates := [], saves := [] }) ∧
    (RemoteError.other "e1").isThrottling = false ∧
    (RemoteError.other "e1").isResourceNotFound = false ∧
    scriptedWriter.cwlClient.PutLogEvents (scriptedWriter.putRequest testBatch.Events)
        { puts := [some (RemoteError.other "e2")], creates := [], saves := [] } =
      (some (RemoteError.other "e2"), { puts := [], creates := [], saves := [] }) ∧
    ((∃ tail : List Call,
        (scriptedWriter.Write [WriteSelect.Batch testBatch, WriteSelect.Done]
          (scripted [some (RemoteError.other "e1"), some (RemoteError.other "e2")] [] [])).2.calls =
        (scripted [some (RemoteError.other "e1"), some (RemoteError.other "e2")] [] []).calls ++
          [Call.PutLogEvents (scriptedWriter.putRequest testBatch.Events)
              (some (RemoteError.other "e1")),
            Call.PutLogEvents (scriptedWriter.putRequest testBatch.Events)
              (some (RemoteError.other "e2"))] ++ tail) ∧
      (∀ err' : RemoteError, some (RemoteError.other "e2") = some err' →
        err'.isResourceNotFound = false →
        scriptedWriter.Write [WriteSelect.Batch testBatch, WriteSelect.Done]
            (scripted [some (RemoteError.other "e1"), some (RemoteError.other "e2")] [] []) =
          (Exit.Panicked,
            { state := { puts := [], creates := [], saves := [] }
              calls :=
                (scripted [some (RemoteError.other "e1"), some (RemoteError.other "e2")]
                  [] []).calls ++
                [Call.PutLogEvents (scriptedWriter.putRequest testBatch.Events)
                    (some (RemoteError.other "e1")),
                  Call.PutLogEvents (scriptedWriter.putRequest testBatch.Events)
                    (some (RemoteError.other "e2"))] }))) :=
  ⟨rfl, rfl, rfl, rfl,
    Write_unclassified_error_retried_once scriptedWriter testBatch [WriteSelect.Done]
      (scripted [some (RemoteError.other "e1"), some (RemoteError.other "e2")] [] [])
      (RemoteError.other "e1") { puts := [some (RemoteError.other "e2")], creates := [], saves := [] }
      (some (RemoteError.other "e2")) { puts := [], creates := [], saves := [] }
      rfl rfl rfl rfl⟩


/-- C9, as stated, fails: the first `PutLogEvents` returns a
`ResourceNotFoundException`, `CreateLogStream` succeeds and the second
`PutLogEvents` succeeds, but `saveCursor` returns an error, and `Writer.Write` panics. -/
theorem Write_missing_destination_saveCursor_error_panics :
    scriptedWriter.Write [WriteSelect.Batch testBatch, WriteSelect.Done]
        (scripted [some (RemoteError.api resourceNotFoundExceptionCode "stream does not exist"),
          none] [none] [some "cannot save cursor"]) =
      (Exit.Panicked,
        { state := { puts := [], creates := [], saves := [] }
          calls := [Call.PutLogEvents (scriptedWriter.putRequest testBatch.Events)
              (some (RemoteError.api resourceNotFoundExceptionCode "stream does not exist")),
            Call.CreateLogStream scriptedWriter.createRequest none,
            Call.PutLogEvents (scriptedWriter.putRequest testBatch.Events) none,
            Call.saveCursor "cursor-0" (some "cannot save cursor")] }) := by
  decide

/-- C9, amended: when the first `PutLogEvents` for a batch returns a
`ResourceNotFoundException`, `CreateLogStream` succeeds, the second
`PutLogEvents` succeeds and `saveCursor` succeeds, `Writer.Write` calls
`PutLogEvents` exactly twice and `CreateLogStream` exactly once, calls
`saveCursor` exactly once with the `Cursor` of the batch, does not sleep, and
goes on with the next batch without panicking. -/
theorem Write_missing_destination_recovery {σ : Type} (w : Writer σ) (batch : Batch)
    (rest : List WriteSelect) (s : World σ) (err : RemoteError) (t t2 t3 t4 : σ)
    (h1 : w.cwlClient.PutLogEvents (w.putRequest batch.Events) s.state = (some err, t))
    (hrnf : err.isResourceNotFound = true)
    (hc : w.cwlClient.CreateLogStream w.createRequest t = (none, t2))
    (h2 : w.cwlClient.PutLogEvents (w.putRequest batch.Events) t2 = (none, t3))
    (hs : w.saveCursor batch.Cursor t3 = (none, t4)) :
    w.Write (WriteSelect.Batch batch :: rest) s =
      w.Write rest
        { state := t4
          calls := s.calls ++ [Call.PutLogEvents (w.putRequest batch.Events) (some err),
            Call.CreateLogStream w.createRequest none,
            Call.PutLogEvents (w.putRequest batch.Events) none,
            Call.saveCursor batch.Cursor none] } := by
  have hw := writeBatch_created w batch.Events s err none t t2 t3 h1 hrnf hc h2
  have hon := onBatch_of_ok w batch s _ hw
  simp only [hs, if_true, List.append_assoc, List.cons_append, List.nil_append] at hon
  exact Write_of_continue w batch rest s _ hon

theorem Write_missing_destination_recovery_witness :
    scriptedWriter.cwlClient.PutLogEvents (scriptedWriter.putRequest testBatch.Events)
        (scripted [some (RemoteError.api resourceNotFoundExceptionCode "no stream"), none]
          [none] [none]).state =
      (some (RemoteError.api resourceNotFoundExceptionCode "no stream"),
        { puts := [none], creates := [none], saves := [none] }) ∧
    (RemoteError.api resourceNotFoundExceptionCode "no stream").isResourceNotFound = true ∧
    scriptedWriter.cwlClient.CreateLogStream scriptedWriter.createRequest
        { puts := [none], creates := [none], saves := [none] } =
      (none, { puts := [none], creates := [], saves := [none] }) ∧
    scriptedWriter.cwlClient.PutLogEvents (scriptedWriter.putRequest testBatch.Events)
        { puts := [none], creates := [], saves := [none] } =
      (none, { puts := [], creates := [], saves := [none] }) ∧
    scriptedWriter.saveCursor testBatch.Cursor { puts := [], creates := [], saves := [none] } =
      (none, { puts := [], creates := [], saves := [] }) ∧
    scriptedWriter.Write [WriteSelect.Batch testBatch, WriteSelect.Done]
        (scripted [some (RemoteError.api resourceNotFoundExceptionCode "no stream"), none]
          [none] [none]) =
      scriptedWriter.Write [WriteSelect.Done]
        { state := { puts := [], creates := [], saves := [] }
          calls :=
            (scripted [some (RemoteError.api resourceNotFoundExceptionCode "no stream"), none]
              [none] [none]).calls ++
            [Call.PutLogEvents (scriptedWriter.putRequest testBatch.Events)
                (some (RemoteError.api resourceNotFoundExceptionCode "no stream")),
              Call.CreateLogStream scriptedWriter.createRequest none,
              Call.PutLogEvents (scriptedWriter.putRequest testBatch.Events) none,
              Call.saveCursor testBatch.Cursor none] } :=
  ⟨rfl, by decide, rfl, rfl, rfl,
    Write_missing_destination_recovery scriptedWriter testBatch [WriteSelect.Done]
      (scripted [some (RemoteError.api resourceNotFoundExceptionCode "no stream"), none]
        [none] [none])
      (RemoteError.api resourceNotFoundExceptionCode "no stream")
      { puts := [none], creates := [none], saves := [none] }
      { puts := [none], creates := [], saves := [none] }
      { puts := [], creates := [], saves := [none] }
      { puts := [], creates := [], saves := [] }
      rfl (by decide) rfl rfl rfl⟩

/-- C10, as stated, fails: the first `PutLogEvents` returns a
`ResourceNotFoundException`, `CreateLogStream` succeeds and the retried
`PutLogEvents` fails, but `Writer.Write` makes a third `PutLogEvents` call, and
when that call succeeds it does not panic and goes on. -/
theorem Write_missing_destination_retry_failure_is_retried :
    scriptedWriter.Write [WriteSelect.Batch testBatch, WriteSelect.Done]
        (scripted [some (RemoteError.api resourceNotFoundExceptionCode "stream does not exist"),
          some (RemoteError.other "cannot put log events"), none] [none] []) =
      (Exit.Returned,
        { state := { puts := [], creates := [], saves := [] }
          calls := [Call.PutLogEvents (scriptedWriter.putRequest testBatch.Events)
              (some (RemoteError.api resourceNotFoundExceptionCode "stream does not exist")),
            Call.CreateLogStream scriptedWriter.createRequest none,
            Call.PutLogEvents (scriptedWriter.putRequest testBatch.Events)
              (some (RemoteError.other "cannot put log events")),
            Call.PutLogEvents (scriptedWriter.putRequest testBatch.Events) none] }) := by
  decide

/-- C10, amended: when the first `PutLogEvents` for a batch returns a
`ResourceNotFoundException`, `CreateLogStream` succeeds and the retried
`PutLogEvents` fails, `Writer.Write` makes a third `PutLogEvents` call for the
batch, with no sleep and no `saveCursor` in between; and when that third call
fails with an error other than a `ResourceNotFoundException`, `Writer.Write`
panics, having called `PutLogEvents` exactly three times for the batch, and
does not proceed to the next batch. -/
theorem Write_missing_destination_retry_failure {σ : Type} (w : Writer σ) (batch : Batch)
    (rest : List WriteSelect) (s : World σ) (err err2 : RemoteError) (t t2 t3 : σ)
    (r : Option RemoteError) (t4 : σ)
    (h1 : w.cwlClient.PutLogEvents (w.putRequest batch.Events) s.state = (some err, t))
    (hrnf : err.isResourceNotFound = true)
    (hc : w.cwlClient.CreateLogStream w.createRequest t = (none, t2))
    (h2 : w.cwlClient.PutLogEvents (w.putRequest batch.Events) t2 = (some err2, t3))
    (h3 : w.cwlClient.PutLogEvents (w.putRequest batch.Events) t3 = (r, t4)) :
    (∃ tail : List Call, (w.Write (WriteSelect.Batch batch :: rest) s).2.calls =
        s.calls ++ [Call.PutLogEvents (w.putRequest batch.Events) (some err),
          Call.CreateLogStream w.createRequest none,
          Call.PutLogEvents (w.putRequest batch.Events) (some err2),
          Call.PutLogEvents (w.putRequest batch.Events) r] ++ tail) ∧
    (∀ err3 : RemoteError, r = some err3 → err3.isResourceNotFound = false →
      w.Write (WriteSelect.Batch batch :: rest) s =
        (Exit.Panicked,
          { state := t4
            calls := s.calls ++ [Call.PutLogEvents (w.putRequest batch.Events) (some err),
              Call.CreateLogStream w.createRequest none,
              Call.PutLogEvents (w.putRequest batch.Events) (some err2),
              Call.PutLogEvents (w.putRequest batch.Events) r] })) := by
  obtain ⟨⟨tail, ht⟩, hpanic⟩ := Write_second_attempt w batch rest s _ err2
    (writeBatch_created w batch.Events s err (some err2) t t2 t3 h1 hrnf hc h2) r t4 h3
  refine ⟨⟨tail, by rw [ht]; simp⟩, ?_⟩
  intro err3 hr hrnf3
  rw [hpanic err3 hr hrnf3]
  simp

theorem Write_missing_destination_retry_failure_witness :
    scriptedWriter.cwlClient.PutLogEvents (scriptedWriter.putRequest testBatch.Events)
        (scripted [some (RemoteError.api resourceNotFoundExceptionCode "no stream"),
          some (RemoteError.other "e2"), some (RemoteError.other "e3")] [none] []).state =
      (some (RemoteError.api resourceNotFoundExceptionCode "no stream"),
        { puts := [some (RemoteError.other "e2"), some (RemoteError.other "e3")],
          creates := [none], saves := [] }) ∧
    (RemoteError.api resourceNotFoundExceptionCode "no stream").isResourceNotFound = true ∧
    scriptedWriter.cwlClient.CreateLogStream scriptedWriter.createRequest
        { puts := [some (RemoteError.other "e2"), some (RemoteError.other "e3")],
          creates := [none], saves := [] } =
      (none, { puts := [some (RemoteError.other "e2"), some (RemoteError.other "e3")],
               creates := [], saves := [] }) ∧
    scriptedWriter.cwlClient.PutLogEvents (scriptedWriter.putRequest testBatch.Events)
        { puts := [some (RemoteError.other "e2"), some (RemoteError.other "e3")],
          creates := [], saves := [] } =
      (some (RemoteError.other "e2"),
        { puts := [some (RemoteError.other "e3")], creates := [], saves := [] }) ∧
    scriptedWriter.cwlClient.PutLogEvents (scriptedWriter.putRequest testBatch.Events)
        { puts := [some (RemoteError.other "e3")], creates := [], saves := [] } =
      (some (RemoteError.other "e3"), { puts := [], creates := [], saves := [] }) ∧
    ((∃ tail : List Call,
        (scriptedWriter.Write [WriteSelect.Batch testBatch, WriteSelect.Done]
          (scripted [some (RemoteError.api resourceNotFoundExceptionCode "no stream"),
            some (RemoteError.other "e2"), some (RemoteError.other "e3")] [none] [])).2.calls =
        (scripted [some (RemoteError.api resourceNotFoundExceptionCode "no stream"),
          some (RemoteError.other "e2"), some (RemoteError.other "e3")] [none] []).calls ++
          [Call.PutLogEvents (scriptedWriter.putRequest testBatch.Events)
              (some (RemoteError.api resourceNotFoundExceptionCode "no stream")),
            Call.CreateLogStream scriptedWriter.createRequest none,
            Call.PutLogEvents (scriptedWriter.putRequest testBatch.Events)
              (some (RemoteError.other "e2")),
            Call.PutLogEvents (scriptedWriter.putRequest testBatch.Events)
              (some (RemoteError.other "e3"))] ++ tail) ∧
      (∀ err3 : RemoteError, some (RemoteError.other "e3") = some err3 →
        err3.isResourceNotFound = false →
        scriptedWriter.Write [WriteSelect.Batch testBatch, WriteSelect.Done]
            (scripted [some (RemoteError.api resourceNotFoundExceptionCode "no stream"),
              some (RemoteError.other "e2"), some (RemoteError.other "e3")] [none] []) =
          (Exit.Panicked,
            { state := { puts := [], creates := [], saves := [] }
              calls :=
                (scripted [some (RemoteError.api resourceNotFoundExceptionCode "no stream"),
                  some (RemoteError.other "e2"), some (RemoteError.other "e3")] [none] []).calls ++
                [Call.PutLogEvents (scriptedWriter.putRequest testBatch.Events)
                    (some (RemoteError.api resourceNotFoundExceptionCode "no stream")),
                  Call.CreateLogStream scriptedWriter.createRequest none,
                  Call.PutLogEvents (scriptedWriter.putRequest testBatch.Events)
                    (some (RemoteError.other "e2")),
                  Call.PutLogEvents (scriptedWriter.putRequest testBatch.Events)
                    (some (RemoteError.other "e3"))] }))) :=
  ⟨rfl, by decide, rfl, rfl, rfl,
    Write_missing_destination_retry_failure scriptedWriter testBatch [WriteSelect.Done]
      (scripted [some (RemoteError.api resourceNotFoundExceptionCode "no stream"),
        some (RemoteError.other "e2"), some (RemoteError.other "e3")] [none] [])
      (RemoteError.api resourceNotFoundExceptionCode "no stream") (RemoteError.other "e2")
      { puts := [some (RemoteError.other "e2"), some (RemoteError.other "e3")],
        creates := [none], saves := [] }
      { puts := [some (RemoteError.other "e2"), some (RemoteError.other "e3")],
        creates := [], saves := [] }
      { puts := [some (RemoteError.other "e3")], creates := [], saves := [] }
      (some (RemoteError.other "e3")) { puts := [], creates := [], saves := [] }
      rfl (by decide) rfl rfl rfl⟩

/-! ## The Sink Writer: failures of the retry and of the checkpoint -/

/-- C11, as stated, fails: the first `PutLogEvents` is throttled and the retried
one fails because the destination is missing; `Writer.Write` then calls
`CreateLogStream` and `PutLogEvents` again, and when they succeed it does not panic. -/
theorem Write_throttle_retry_missing_destination_recovers :
    scriptedWriter.Write [WriteSelect.Batch testBatch, WriteSelect.Done]
        (scripted [some (RemoteError.api throttlingExceptionCode "Rate exceeded"),
          some (RemoteError.api resourceNotFoundExceptionCode "stream does not exist"), none]
          [none] []) =
      (Exit.Returned,
        { state := { puts := [], creates := [], saves := [] }
          calls := [Call.PutLogEvents (scriptedWriter.putRequest testBatch.Events)
              (some (RemoteError.api throttlingExceptionCode "Rate exceeded")),
            Call.Sleep timeToWaitOnThrottle,
            Call.PutLogEvents (scriptedWriter.putRequest testBatch.Events)
              (some (RemoteError.api resourceNotFoundExceptionCode "stream does not exist")),
            Call.CreateLogStream scriptedWriter.createRequest none,
            Call.PutLogEvents (scriptedWriter.putRequest testBatch.Events) none] }) := by
  decide

/-- C11, amended: when the first `PutLogEvents` for a batch returns a
`ThrottlingException` and the `PutLogEvents` retried after the backoff fails
with an error other than a `ResourceNotFoundException` (throttled again, or any
other error), `Writer.Write` panics without any further remote call for that
batch and without calling `saveCursor`. -/
theorem Write_throttle_retry_failure {σ : Type} (w : Writer σ) (batch : Batch)
    (rest : List WriteSelect) (s : World σ) (err err2 : RemoteError) (t t2 : σ)
    (h1 : w.cwlClient.PutLogEvents (w.putRequest batch.Events) s.state = (some err, t))
    (hthr : err.isThrottling = true)
    (h2 : w.cwlClient.PutLogEvents (w.putRequest batch.Events) t = (some err2, t2))
    (hrnf : err2.isResourceNotFound = false) :
    w.Write (WriteSelect.Batch batch :: rest) s =
      (Exit.Panicked,
        { state := t2
          calls := s.calls ++ [Call.PutLogEvents (w.putRequest batch.Events) (some err),
            Call.Sleep timeToWaitOnThrottle,
            Call.PutLogEvents (w.putRequest batch.Events) (some err2)] }) := by
  have hon := onBatch_of_err w batch s _ _ (writeBatch_throttled w batch.Events s err t h1 hthr)
  simp only [if_true] at hon
  have hw : ∃ e, w.writeBatch batch.Events
      (World.sleep { state := t, calls := s.calls ++
        [Call.PutLogEvents (w.putRequest batch.Events) (some err)] } timeToWaitOnThrottle) =
      (some e, { state := t2
                 calls := (s.calls ++ [Call.PutLogEvents (w.putRequest batch.Events) (some err)] ++
                   [Call.Sleep timeToWaitOnThrottle]) ++
                   [Call.PutLogEvents (w.putRequest batch.Events) (some err2)] }) := by
    by_cases hthr2 : err2.isThrottling = true
    · exact ⟨_, writeBatch_throttled w batch.Events _ err2 t2 h2 hthr2⟩
    · exact ⟨_, writeBatch_unclassified w batch.Events _ err2 t2 h2 (by simpa using hthr2) hrnf⟩
  obtain ⟨e, hw⟩ := hw
  rw [hw] at hon
  simp only [reduceCtorEq, if_false, List.append_assoc, List.singleton_append] at hon
  exact Write_of_panic w batch rest s _ hon

theorem Write_throttle_retry_failure_witness :
    scriptedWriter.cwlClient.PutLogEvents (scriptedWriter.putRequest testBatch.Events)
        (scripted [some (RemoteError.api throttlingExceptionCode "slow down"),
          some (RemoteError.api throttlingExceptionCode "slow down")] [] []).state =
      (some (RemoteError.api throttlingExceptionCode "slow down"),
        { puts := [some (RemoteError.api throttlingExceptionCode "slow down")],
          creates := [], saves := [] }) ∧
    (RemoteError.api throttlingExceptionCode "slow down").isThrottling = true ∧
    scriptedWriter.cwlClient.PutLogEvents (scriptedWriter.putRequest testBatch.Events)
        { puts := [some (RemoteError.api throttlingExceptionCode "slow down")],
          creates := [], saves := [] } =
      (some (RemoteError.api throttlingExceptionCode "slow down"),
        { puts := [], creates := [], saves := [] }) ∧
    (RemoteError.api throttlingExceptionCode "slow down").isResourceNotFound = false ∧
    scriptedWriter.Write [WriteSelect.Batch testBatch, WriteSelect.Done]
        (scripted [some (RemoteError.api throttlingExceptionCode "slow down"),
          some (RemoteError.api throttlingExceptionCode "slow down")] [] []) =
      (Exit.Panicked,
        { state := { puts := [], creates := [], saves := [] }
          calls :=
            (scripted [some (RemoteError.api throttlingExceptionCode "slow down"),
              some (RemoteError.api throttlingExceptionCode "slow down")] [] []).calls ++
            [Call.PutLogEvents (scriptedWriter.putRequest testBatch.Events)
                (some (RemoteError.api throttlingExceptionCode "slow down")),
              Call.Sleep timeToWaitOnThrottle,
              Call.PutLogEvents (scriptedWriter.putRequest testBatch.Events)
                (some (RemoteError.api throttlingExceptionCode "slow down"))] }) :=
  ⟨rfl, by decide, rfl, by decide,
    Write_throttle_retry_failure scriptedWriter testBatch [WriteSelect.Done]
      (scripted [some (RemoteError.api throttlingExceptionCode "slow down"),
        some (RemoteError.api throttlingExceptionCode "slow down")] [] [])
      (RemoteError.api throttlingExceptionCode "slow down")
      (RemoteError.api throttlingExceptionCode "slow down")
      { puts := [some (RemoteError.api throttlingExceptionCode "slow down")],
        creates := [], saves := [] }
      { puts := [], creates := [], saves := [] }
      rfl (by decide) rfl (by decide)⟩

/-- The calls of the batch case with the way it ends: when the last call is a
`saveCursor`, the iteration goes on exactly when that call returned nil. -/
theorem onBatch_calls_flow {σ : Type} (w : Writer σ) (batch : Batch) (s : World σ) :
    ∃ seg : List Call, (w.onBatch batch s).2.calls = s.calls ++ seg ∧
      ((∀ c ∈ seg, c.isSaveCursor = false) ∨
        ∃ (body : List Call) (r : Option String),
          (∀ c ∈ body, c.isSaveCursor = false) ∧
          seg = body ++ [Call.PutLogEvents (w.putRequest batch.Events) none,
            Call.saveCursor batch.Cursor r] ∧
          (w.onBatch batch s).1 = (if r = none then Flow.Continue else Flow.Panic)) := by
  rcases h : w.writeBatch batch.Events s with ⟨r1, s1⟩
  cases r1 with
  | none =>
    obtain ⟨tail, _, _, hok⟩ := writeBatch_calls w batch.Events s
    rw [h] at hok
    obtain ⟨body, hbody, hb⟩ := hok rfl
    simp only at hb
    rw [onBatch_of_ok w batch s s1 h]
    exact ⟨body ++ [Call.PutLogEvents (w.putRequest batch.Events) none,
      Call.saveCursor batch.Cursor (w.saveCursor batch.Cursor s1.state).1], by simp [hb],
      Or.inr ⟨body, _, hbody, rfl, rfl⟩⟩
  | some err =>
    obtain ⟨tail, hcalls, htail, _⟩ := writeBatch_calls w batch.Events s
    rw [h] at hcalls
    simp only at hcalls
    generalize (w.cwlClient.PutLogEvents (w.putRequest batch.Events) s.state).1 = p1 at hcalls
    rw [onBatch_of_err w batch s s1 err h]
    by_cases he : err = WriteError.errThrottled
    · obtain ⟨tail2, hcalls2, htail2, _⟩ :=
        writeBatch_calls w batch.Events (s1.sleep timeToWaitOnThrottle)
      generalize (w.cwlClient.PutLogEvents (w.putRequest batch.Events)
        (s1.sleep timeToWaitOnThrottle).state).1 = p2 at hcalls2
      simp only [he, if_true]
      refine ⟨(Call.PutLogEvents (w.putRequest batch.Events) p1 :: tail) ++
        Call.Sleep timeToWaitOnThrottle ::
        Call.PutLogEvents (w.putRequest batch.Events) p2 :: tail2, ?_, Or.inl ?_⟩
      · rw [hcalls2]
        simp only [World.sleep]
        rw [hcalls]
        simp
      · intro c hc
        simp only [List.mem_append, List.mem_cons] at hc
        rcases hc with (rfl | hc) | rfl | rfl | hc
        · rfl
        · exact htail c hc
        · rfl
        · rfl
        · exact htail2 c hc
    · obtain ⟨tail2, hcalls2, htail2, _⟩ := writeBatch_calls w batch.Events s1
      generalize (w.cwlClient.PutLogEvents (w.putRequest batch.Events) s1.state).1 = p2
        at hcalls2
      simp only [he, if_false]
      refine ⟨(Call.PutLogEvents (w.putRequest batch.Events) p1 :: tail) ++
        Call.PutLogEvents (w.putRequest batch.Events) p2 :: tail2, ?_, Or.inl ?_⟩
      · rw [hcalls2, hcalls]
        simp
      · intro c hc
        simp only [List.mem_append, List.mem_cons] at hc
        rcases hc with (rfl | hc) | rfl | hc
        · rfl
        · exact htail c hc
        · rfl
        · exact htail2 c hc

/-- In the calls of `Write`, a `saveCursor` that returned an error is the last
call, and `Write` has panicked. -/
theorem Write_calls_saveCursor_error {σ : Type} (w : Writer σ) :
    ∀ (cases : List WriteSelect) (s : World σ),
      ∃ seg : List Call, (w.Write cases s).2.calls = s.calls ++ seg ∧
        ∀ (pre post : List Call) (cursor msg : String),
          seg = pre ++ Call.saveCursor cursor (some msg) :: post →
          (w.Write cases s).1 = Exit.Panicked ∧ post = [] := by
  intro cases
  induction cases with
  | nil =>
    intro s
    refine ⟨[], by simp [Writer.Write], ?_⟩
    intro pre post cursor msg h
    simp at h
  | cons c rest ih =>
    intro s
    cases c with
    | Done =>
      refine ⟨[], by simp [Writer.Write], ?_⟩
      intro pre post cursor msg h
      simp at h
    | Batch batch =>
      obtain ⟨seg, hseg, hshape⟩ := onBatch_calls_flow w batch s
      rcases h : w.onBatch batch s with ⟨flow, s1⟩
      rw [h] at hseg hshape
      simp only at hseg hshape
      have hfirst : ∀ (pre post : List Call) (cursor msg : String),
          seg = pre ++ Call.saveCursor cursor (some msg) :: post →
          post = [] ∧ flow = Flow.Panic := by
        intro pre post cursor msg hsplit
        rcases hshape with hno | ⟨body, r, hbody, hbr, hflow⟩
        · exact (not_mem_of_isSaveCursor (z := Call.saveCursor cursor (some msg)) hno rfl
            hsplit).elim
        · rw [hbr] at hsplit
          obtain ⟨_, h2, h3⟩ :=
            saveCursor_position (Call.PutLogEvents (w.putRequest batch.Events) none)
              (Call.saveCursor batch.Cursor r) (Call.saveCursor cursor (some msg)) rfl rfl
              body pre post hbody hsplit
          simp only [Call.saveCursor.injEq] at h2
          rw [← h2.2] at hflow
          exact ⟨h3, by simpa using hflow⟩
      cases flow with
      | Panic =>
        rw [Write_of_panic w batch rest s s1 h]
        refine ⟨seg, hseg, ?_⟩
        intro pre post cursor msg hsplit
        exact ⟨rfl, (hfirst pre post cursor msg hsplit).1⟩
      | Continue =>
        rw [Write_of_continue w batch rest s s1 h]
        obtain ⟨seg2, hseg2, hrest⟩ := ih s1
        refine ⟨seg ++ seg2, by rw [hseg2, hseg, List.append_assoc], ?_⟩
        intro pre post cursor msg hsplit
        rcases List.append_eq_append_iff.1 hsplit with ⟨a, _, hs2⟩ | ⟨c, hs1, hc⟩
        · exact hrest a post cursor msg hs2
        · cases c with
          | nil =>
            simp only [List.nil_append] at hc
            exact hrest [] post cursor msg (by simp [← hc])
          | cons z c' =>
            simp only [List.cons_append, List.cons.injEq] at hc
            obtain ⟨hz, _⟩ := hc
            subst hz
            exact absurd (hfirst pre c' cursor msg hs1).2 (by simp)

/-- C12: in every execution of `Writer.Write`, when a `saveCursor` call (made
after a delivery that succeeded) returns an error, `Writer.Write` panics: that
call is its last call, so it consumes no further batch and makes no further
remote call. -/
theorem Write_saveCursor_error_is_fatal {σ : Type} (w : Writer σ) (cases : List WriteSelect)
    (s0 : σ) (pre post : List Call) (cursor msg : String)
    (h : (w.Write cases { state := s0, calls := [] }).2.calls =
      pre ++ Call.saveCursor cursor (some msg) :: post) :
    (w.Write cases { state := s0, calls := [] }).1 = Exit.Panicked ∧ post = [] := by
  obtain ⟨seg, hseg, hall⟩ := Write_calls_saveCursor_error w cases { state := s0, calls := [] }
  rw [hseg, List.nil_append] at h
  exact hall pre post cursor msg h

theorem Write_saveCursor_error_is_fatal_witness :
    (scriptedWriter.Write
        [WriteSelect.Batch testBatch, WriteSelect.Batch testBatch, WriteSelect.Done]
        { state := { puts := [], creates := [], saves := [some "cannot save cursor"] },
          calls := [] }).2.calls =
      [Call.PutLogEvents (scriptedWriter.putRequest testBatch.Events) none] ++
        Call.saveCursor "cursor-0" (some "cannot save cursor") :: [] ∧
    (scriptedWriter.Write
        [WriteSelect.Batch testBatch, WriteSelect.Batch testBatch, WriteSelect.Done]
        { state := { puts := [], creates := [], saves := [some "cannot save cursor"] },
          calls := [] }).1 = Exit.Panicked ∧
    ([] : List Call) = [] :=
  ⟨by decide,
    Write_saveCursor_error_is_fatal scriptedWriter
      [WriteSelect.Batch testBatch, WriteSelect.Batch testBatch, WriteSelect.Done]
      { puts := [], creates := [], saves := [some "cannot save cursor"] }
      [Call.PutLogEvents (scriptedWriter.putRequest testBatch.Events) none] []
      "cursor-0" "cannot save cursor" (by decide)⟩

/-- C14: every batch sent by `Batcher.Batch` holds at least one event, for every
sequence of entries, ticks and cancellation and every configuration (a tick, a
cancellation or a size or count flush on an empty batch sends nothing). -/
theorem Batch_never_sends_empty_batch (b : Batcher) (cases : List BatchSelect) (x : Batch)
    (hx : x ∈ b.Batch cases) : 1 ≤ x.Events.length := by
  obtain ⟨_, _, _, hne⟩ :=
    loop_invariant b (fun _ => True) trivial (fun _ _ _ => trivial) cases startNewBatch trivial
      x (mem_Batch b cases hx)
  exact List.length_pos.2 hne

theorem Batch_never_sends_empty_batch_witness :
    ({ Events := [truncateEvent (sizedConverter (sizedEntry "c0" 3))], Cursor := "c0" } : Batch) ∈
      (NewBatcher sizedConverter [WithMaxEvents 0]).Batch
        [BatchSelect.Tick, BatchSelect.Entry (sizedEntry "c0" 3), BatchSelect.Tick,
          BatchSelect.Tick, BatchSelect.Done] ∧
    1 ≤ ({ Events := [truncateEvent (sizedConverter (sizedEntry "c0" 3))],
           Cursor := "c0" } : Batch).Events.length :=
  ⟨by decide,
    Batch_never_sends_empty_batch (NewBatcher sizedConverter [WithMaxEvents 0])
      [BatchSelect.Tick, BatchSelect.Entry (sizedEntry "c0" 3), BatchSelect.Tick,
        BatchSelect.Tick, BatchSelect.Done] _ (by decide)⟩

theorem chunksOf_nil {α : Type} (k : Nat) (hk : 1 ≤ k) : chunksOf k ([] : List α) = [] := by
  have h : (k - 1) / k = 0 := Nat.div_eq_of_lt (by omega)
  simp [chunksOf, h]

theorem chunksOf_short {α : Type} (k : Nat) (g : List α) (h1 : 1 ≤ g.length)
    (h2 : g.length ≤ k) : chunksOf k g = [g] := by
  have h : (g.length + k - 1) / k = 1 := by
    have : g.length + k - 1 = (g.length - 1) + k := by omega
    rw [this, Nat.add_div_right _ (by omega), Nat.div_eq_of_lt (by omega)]
  simp [chunksOf, h, List.range_succ, List.take_of_length_le h2]

theorem chunksOf_append_full {α : Type} (k : Nat) (g l : List α) (hk : 1 ≤ k)
    (hg : g.length = k) : chunksOf k (g ++ l) = g :: chunksOf k l := by
  have h : ((g ++ l).length + k - 1) / k = (l.length + k - 1) / k + 1 := by
    have : (g ++ l).length + k - 1 = (l.length + k - 1) + k := by
      rw [List.length_append]; omega
    rw [this, Nat.add_div_right _ (by omega)]
  unfold chunksOf
  rw [h, List.range_succ_eq_map, List.map_cons, List.map_map]
  congr 1
  · simp [List.take_left' hg]
  · apply List.map_congr_left
    intro i _
    have : (i + 1) * k = g.length + i * k := by rw [hg, Nat.add_mul]; omega
    simp only [Function.comp, Nat.succ_eq_add_one, this, List.drop_append]

/-- Without ticks and without reaching `maxPayload`, the loop sends the chunks
of `maxEvents` entries of the run of the current batch followed by the entries taken. -/
theorem loop_chunks (b : Batcher) (k : Nat) (hk : 1 ≤ k) (hmax : b.maxEvents = k) :
    ∀ (entries : List JournalEntry) (st : BatchLoop) (g : List JournalEntry),
      st.batch.Events = (batchOf b g).Events → (g ≠ [] → st.batch = batchOf b g) →
      g.length ≤ k → 0 ≤ st.bytesCount →
      (∀ entry ∈ entries, (b.converter entry).Message ≠ none) →
      st.bytesCount +
        (payloadBytes (entries.map (fun entry => truncateEvent (b.converter entry))) : Int) ≤
          b.maxPayload →
      b.loop st (entries.map BatchSelect.Entry ++ [BatchSelect.Done]) =
        (chunksOf k (g ++ entries)).map (batchOf b) := by
  intro entries
  induction entries with
  | nil =>
    intro st g h1 h2 hlen _ _ _
    simp only [List.map_nil, List.nil_append, Batcher.loop, List.append_nil,
      saveOldBatch_of_group b st g h1 h2]
    by_cases hg : g = []
    · simp [hg, chunksOf_nil k hk]
    · have : 1 ≤ g.length := List.length_pos.2 hg
      simp [hg, chunksOf_short k g this hlen]
  | cons entry rest ih =>
    intro st g h1 h2 hlen hpos hconv hpay
    have hev : st.batch.Events.length = g.length := by simp [h1, batchOf]
    cases hm : (b.converter entry).Message with
    | none => exact absurd hm (hconv entry (by simp))
    | some message =>
      have hpe : payloadBytes ((entry :: rest).map
          (fun entry => truncateEvent (b.converter entry))) =
          (truncateMessage message).length +
            payloadBytes (rest.map (fun entry => truncateEvent (b.converter entry))) := by
        simp [payloadBytes, truncateEvent, hm]
      rw [hpe] at hpay
      push_cast at hpay
      have hconv' : ∀ e ∈ rest, (b.converter e).Message ≠ none :=
        fun e he => hconv e (by simp [he])
      simp only [List.map_cons, List.cons_append, Batcher.loop, List.append_eq]
      by_cases hfull : g.length = k
      · have hf : ((truncateMessage message).length : Int) + st.bytesCount > b.maxPayload ∨
            (st.batch.Events.length : Int) = b.maxEvents := by
          right; rw [hev, hfull, hmax]
        have hg : g ≠ [] := by
          intro h0; rw [h0] at hfull; simp at hfull; omega
        rw [onEntry_flush b st entry message hm hf, saveOldBatch_of_group b st g h1 h2]
        simp only [hg, if_false]
        rw [ih _ [entry] (by simp [batchOf]) (by simp [batchOf]) (by simpa using hk)
          (by simp) hconv' (by simp only; omega)]
        rw [chunksOf_append_full k g (entry :: rest) hk hfull]
        simp
      · have hf : ¬ (((truncateMessage message).length : Int) + st.bytesCount > b.maxPayload ∨
            (st.batch.Events.length : Int) = b.maxEvents) := by
          rw [hev, hmax]
          push_neg
          constructor
          · have : (0 : Int) ≤ (payloadBytes
                (rest.map (fun entry => truncateEvent (b.converter entry))) : Int) :=
              Int.ofNat_nonneg _
            omega
          · exact_mod_cast hfull
        rw [onEntry_keep b st entry message hm hf]
        rw [List.nil_append, ih _ (g ++ [entry])
          (by rw [batchOf_append_singleton, h1])
          (by intro _; rw [batchOf_append_singleton, h1])
          (by rw [List.length_append, List.length_singleton]; omega)
          (by simp only; omega) hconv' (by simp only; omega)]
        simp

theorem getLast?_chunk {α : Type} (l : List α) (k i : Nat) (hk : 1 ≤ k) (hi : i * k < l.length) :
    ((l.drop (i * k)).take k).getLast? = l[min ((i + 1) * k) l.length - 1]? := by
  rw [List.getLast?_eq_getElem?, List.length_take, List.length_drop, List.getElem?_take,
    if_pos (by omega), List.getElem?_drop]
  congr 1
  rw [Nat.add_mul]
  omega

/-- C15: for a batcher that starts without a panic (a positive `MaxWait`, and
a `maxEvents` that `make` accepts), with `maxEvents = k >= 1`, no tick, and `n`
entries, each with a message, whose cumulative message bytes do not exceed
`maxPayload`, followed by cancellation, `Batcher.Batch` sends exactly
`ceil(n/k)` batches; the `i`-th holds the events of the entries
`i*k .. min((i+1)*k, n)-1`, and its `Cursor` is that of the entry
`min((i+1)*k, n)-1`. -/
theorem Batch_chunks_by_maxEvents (b : Batcher) (k : Nat) (entries : List JournalEntry)
    (hwait : 0 < b.MaxWait) (hmem : sizeofInputLogEvent * (k : Int) ≤ maxAlloc)
    (hk : 1 ≤ k) (hmax : b.maxEvents = k)
    (hconv : ∀ entry ∈ entries, (b.converter entry).Message ≠ none)
    (hpay : (payloadBytes (entries.map (fun entry => truncateEvent (b.converter entry))) : Int) ≤
      b.maxPayload) :
    b.Batch (entries.map BatchSelect.Entry ++ [BatchSelect.Done]) =
      (List.range ((entries.length + k - 1) / k)).map (fun i =>
        { Events := ((entries.drop (i * k)).take k).map
            (fun entry => truncateEvent (b.converter entry))
          Cursor := (entries[min ((i + 1) * k) entries.length - 1]?.map
            JournalEntry.Cursor).getD "" }) := by
  have hcap : 0 ≤ b.maxEvents := by rw [hmax]; exact Int.ofNat_nonneg k
  have hmem2 : sizeofInputLogEvent * b.maxEvents ≤ maxAlloc := by rw [hmax]; exact hmem
  rw [Batch_of_config b _ hwait hcap hmem2,
    loop_chunks b k hk hmax entries startNewBatch [] (by simp [startNewBatch, batchOf])
      (by simp) (by simp) (by simp [startNewBatch]) hconv (by simpa [startNewBatch] using hpay)]
  simp only [List.nil_append, chunksOf, List.map_map]
  apply List.map_congr_left
  intro i hi
  have hlt : i * k < entries.length := by
    have h1 : i + 1 ≤ (entries.length + k - 1) / k := Nat.succ_le_of_lt (List.mem_range.1 hi)
    have h3 := (Nat.le_div_iff_mul_le (by omega : 0 < k)).1 h1
    rw [Nat.add_mul] at h3
    omega
  simp only [Function.comp, batchOf, getLast?_chunk entries k i hk hlt]

theorem Batch_chunks_by_maxEvents_witness :
    0 < (NewBatcher sizedConverter [WithMaxEvents 2]).MaxWait ∧
    sizeofInputLogEvent * ((2 : Nat) : Int) ≤ maxAlloc ∧
    1 ≤ 2 ∧
    (NewBatcher sizedConverter [WithMaxEvents 2]).maxEvents = ((2 : Nat) : Int) ∧
    (∀ entry ∈ tenEntries,
      ((NewBatcher sizedConverter [WithMaxEvents 2]).converter entry).Message ≠ none) ∧
    (payloadBytes (tenEntries.map (fun entry =>
        truncateEvent ((NewBatcher sizedConverter [WithMaxEvents 2]).converter entry))) : Int) ≤
      (NewBatcher sizedConverter [WithMaxEvents 2]).maxPayload ∧
    (NewBatcher sizedConverter [WithMaxEvents 2]).Batch
        (tenEntries.map BatchSelect.Entry ++ [BatchSelect.Done]) =
      (List.range ((tenEntries.length + 2 - 1) / 2)).map (fun i =>
        { Events := ((tenEntries.drop (i * 2)).take 2).map
            (fun entry =>
              truncateEvent ((NewBatcher sizedConverter [WithMaxEvents 2]).converter entry))
          Cursor := (tenEntries[min ((i + 1) * 2) tenEntries.length - 1]?.map
            JournalEntry.Cursor).getD "" }) ∧
    ((NewBatcher sizedConverter [WithMaxEvents 2]).Batch
        (tenEntries.map BatchSelect.Entry ++ [BatchSelect.Done])).map Batch.Cursor =
      ["c1", "c3", "c5", "c7", "c9"] :=
  ⟨by decide, by decide, by decide, rfl,
    fun _ _ => by simp [NewBatcher, WithMaxEvents, sizedConverter], by decide,
    Batch_chunks_by_maxEvents (NewBatcher sizedConverter [WithMaxEvents 2]) 2 tenEntries
      (by decide) (by decide) (by decide) rfl
      (fun _ _ => by simp [NewBatcher, WithMaxEvents, sizedConverter]) (by decide),
    by decide⟩

/-! ## The Source Reader: order of the entries -/

theorem sentEntries_append (xs ys : List ReadCall) :
    sentEntries (xs ++ ys) = sentEntries xs ++ sentEntries ys := by
  induction xs with
  | nil => rfl
  | cons x xs ih => cases x <;> simp [sentEntries, ih]

theorem sentEntries_steps (timeout : Int) (steps : List SourceStep) :
    sentEntries (steps.flatMap (SourceStep.calls timeout)) =
      steps.filterMap SourceStep.entry? := by
  induction steps with
  | nil => rfl
  | cons step rest ih =>
    rw [List.flatMap_cons, sentEntries_append, ih]
    cases step <;> simp [SourceStep.calls, sentEntries, SourceStep.entry?]

/-- C17: when the log source yields a finite list of steps, each an entry or
'no new data', `Reader.Read` run for as many iterations and then cancelled
returns having sent exactly the entries of the steps, each once and in source
order; on a step with an entry it calls `Next` and `GetEntry` and sends the
entry, and on a step without new data it calls `Next` and then `Wait` once,
with `waitForDataTimeout`, and sends nothing. -/
theorem Read_sends_source_entries {σ : Type} (r : Reader σ) (steps : List SourceStep)
    (s : ReadWorld σ) (t : σ)
    (h : Yields r.reader r.waitForDataTimeout s.state steps t) :
    r.Read steps.length s =
      (Exit.Returned,
        { state := t
          calls := s.calls ++ steps.flatMap (SourceStep.calls r.waitForDataTimeout) }) ∧
    sentEntries (steps.flatMap (SourceStep.calls r.waitForDataTimeout)) =
      steps.filterMap SourceStep.entry? := by
  refine ⟨?_, sentEntries_steps _ _⟩
  induction steps generalizing s with
  | nil =>
    cases h
    simp [Reader.Read]
  | cons step rest ih =>
    cases h with
    | noData _ s1 s2 _ waited _ hn hw hrest =>
      have hnext : r.next s = (Except.error NextError.errNoNewData,
          { state := s1, calls := s.calls ++ [ReadCall.Next 0 none] }) := by
        simp [Reader.next, hn]
      simp only [List.length_cons, Reader.Read, hnext, hw]
      rw [ih _ hrest]
      simp [List.flatMap_cons, SourceStep.calls]
    | entry _ s1 s2 _ advanced entry _ hadv hn hg hrest =>
      have hnext : r.next s = (Except.ok entry,
          { state := s2, calls := s.calls ++ [ReadCall.Next advanced none] ++
            [ReadCall.GetEntry (GetEntryResult.entry entry)] }) := by
        simp [Reader.next, hn, hadv, hg]
      simp only [List.length_cons, Reader.Read, hnext]
      rw [ih _ hrest]
      simp [List.flatMap_cons, SourceStep.calls]

theorem Read_sends_source_entries_witness :
    Yields (NewReader journalStubAPI [WithWaitForDataTimeout 1000000]).reader
      (NewReader journalStubAPI [WithWaitForDataTimeout 1000000]).waitForDataTimeout
      ({ state := newJournalStub [sizedEntry "cursor-0" 1, sizedEntry "cursor-1" 1],
         calls := [] } : ReadWorld journalStub).state
      [SourceStep.entry 1 (sizedEntry "cursor-0" 1), SourceStep.entry 1 (sizedEntry "cursor-1" 1),
        SourceStep.noData 0]
      { entries := [sizedEntry "cursor-0" 1, sizedEntry "cursor-1" 1], index := 2,
        shouldNextError := false, shouldGetEntryError := false } ∧
    (NewReader journalStubAPI [WithWaitForDataTimeout 1000000]).Read
        [SourceStep.entry 1 (sizedEntry "cursor-0" 1),
          SourceStep.entry 1 (sizedEntry "cursor-1" 1), SourceStep.noData 0].length
        { state := newJournalStub [sizedEntry "cursor-0" 1, sizedEntry "cursor-1" 1],
          calls := [] } =
      (Exit.Returned,
        { state := { entries := [sizedEntry "cursor-0" 1, sizedEntry "cursor-1" 1], index := 2,
                     shouldNextError := false, shouldGetEntryError := false }
          calls := ({ state := newJournalStub [sizedEntry "cursor-0" 1, sizedEntry "cursor-1" 1],
                      calls := [] } : ReadWorld journalStub).calls ++
            [SourceStep.entry 1 (sizedEntry "cursor-0" 1),
              SourceStep.entry 1 (sizedEntry "cursor-1" 1), SourceStep.noData 0].flatMap
              (SourceStep.calls
                (NewReader journalStubAPI [WithWaitForDataTimeout 1000000]).waitForDataTimeout) }) ∧
    sentEntries
        ([SourceStep.entry 1 (sizedEntry "cursor-0" 1),
          SourceStep.entry 1 (sizedEntry "cursor-1" 1), SourceStep.noData 0].flatMap
          (SourceStep.calls
            (NewReader journalStubAPI [WithWaitForDataTimeout 1000000]).waitForDataTimeout)) =
      [SourceStep.entry 1 (sizedEntry "cursor-0" 1),
        SourceStep.entry 1 (sizedEntry "cursor-1" 1), SourceStep.noData 0].filterMap
        SourceStep.entry? :=
  have hy : Yields (NewReader journalStubAPI [WithWaitForDataTimeout 1000000]).reader
      (NewReader journalStubAPI [WithWaitForDataTimeout 1000000]).waitForDataTimeout
      ({ state := newJournalStub [sizedEntry "cursor-0" 1, sizedEntry "cursor-1" 1],
         calls := [] } : ReadWorld journalStub).state
      [SourceStep.entry 1 (sizedEntry "cursor-0" 1), SourceStep.entry 1 (sizedEntry "cursor-1" 1),
        SourceStep.noData 0]
      { entries := [sizedEntry "cursor-0" 1, sizedEntry "cursor-1" 1], index := 2,
        shouldNextError := false, shouldGetEntryError := false } :=
    Yields.entry _ _ _ _ 1 _ _ (by decide) rfl rfl
      (Yields.entry _ _ _ _ 1 _ _ (by decide) rfl rfl
        (Yields.noData _ _ _ _ 0 _ rfl rfl (Yields.nil _)))
  ⟨hy, Read_sends_source_entries _ _ _ _ hy⟩

/-! ## The cursor store: round trip -/

theorem skipSpace_of_not_isSpace (r : Nat × Nat) (rest : List (Nat × Nat))
    (h : isSpace r.1 = false) : skipSpace (r :: rest) = (none, r :: rest) := by
  have h10 : r.1 ≠ 10 := by
    intro hc; rw [hc] at h; exact absurd h (by decide)
  simp [skipSpace, h10, h]

theorem UInt8_ofNat_toNat (c : UInt8) : UInt8.ofNat c.toNat = c := by
  cases c with
  | mk val =>
    apply UInt8.ext
    simp [UInt8.ofNat, UInt8.toNat, Fin.ofNat]

theorem DecodeRune_ascii (c : UInt8) (rest : List UInt8) (h : c < 0x80) :
    DecodeRune (c :: rest) = (c.toNat, 1) := by
  simp [DecodeRune, h]

theorem AppendRune_ascii (c : UInt8) (h : c < 0x80) : AppendRune c.toNat = [c] := by
  have h1 : c.toNat < 128 := h
  have h2 : c.toNat ≤ 0x7F := by omega
  simp only [AppendRune, if_pos h2, UInt8_ofNat_toNat]

/-- The runes of ASCII bytes are the bytes, each of width 1. -/
theorem readRunes_ascii (v : List UInt8) (h : ∀ x ∈ v, x < 0x80) :
    readRunes 0 v = v.map (fun x => (x.toNat, 1)) := by
  induction v with
  | nil => rfl
  | cons c rest ih =>
    have hc : c < 0x80 := h c (by simp)
    simp only [readRunes, DecodeRune_ascii c rest hc, List.map_cons, Nat.sub_self]
    rw [ih (fun x hx => h x (by simp [hx]))]

/-- A `Get` after a `Set(v)` returns `v` with no error when `v` is not empty,
is ASCII and holds no space, is at least as long as what the file held, and is
no longer than the limit of the scanner. -/
theorem Get_after_Set_of_length_le (c : FilebasedCursor) (v : List UInt8)
    (hne : v ≠ []) (hsp : ∀ x ∈ v, x < 0x80 ∧ isSpace x.toNat = false)
    (hlen : c.file.data.length ≤ v.length) (hwid : v.length ≤ hugeWid) :
    ((c.Set v).2.Get).1 = (v, none) := by
  cases v with
  | nil => exact absurd rfl hne
  | cons x rest =>
    have hlen2 : c.file.data.length ≤ rest.length + 1 := by simpa using hlen
    have hdata : (c.Set (x :: rest)).2.file.data = x :: rest := by
      simp [FilebasedCursor.Set, Fprintf, File.Write, File.Seek, hlen2]
    have hrunes : (readRunes 0 (x :: rest)).take hugeWid =
        (x.toNat, 1) :: rest.map (fun y => (y.toNat, 1)) := by
      rw [readRunes_ascii (x :: rest) (fun y hy => (hsp y hy).1), List.take_of_length_le]
      · rfl
      · simpa using hwid
    have htake : ((x.toNat, 1) :: rest.map (fun y => (y.toNat, 1))).takeWhile
        (fun y => !isSpace y.1) = (x.toNat, 1) :: rest.map (fun y => (y.toNat, 1)) := by
      rw [List.takeWhile_eq_self_iff]
      intro y hy
      have hy2 : y ∈ (x :: rest).map (fun z => (z.toNat, 1)) := by simpa using hy
      obtain ⟨z, hz, rfl⟩ := List.mem_map.1 hy2
      simp [(hsp z hz).2]
    have hflat : ∀ l : List UInt8, (∀ y ∈ l, y < 0x80) →
        (l.map (fun y => (y.toNat, 1))).flatMap (fun y => AppendRune y.1) = l := by
      intro l
      induction l with
      | nil => intro _; rfl
      | cons a l ih =>
        intro hl
        rw [List.map_cons, List.flatMap_cons, AppendRune_ascii a (hl a (by simp)),
          ih (fun y hy => hl y (by simp [hy]))]
        rfl
    have hflat2 := hflat (x :: rest) (fun y hy => (hsp y hy).1)
    rw [List.map_cons] at hflat2
    simp only [FilebasedCursor.Get, File.Seek, hdata, List.drop_zero, Fscanf, hrunes,
      skipSpace_of_not_isSpace (x.toNat, 1) _ (hsp x (by simp)).2, htake, hflat2]

theorem Get_after_Set_of_length_le_witness :
    ((newEmptyCursor.Set (utf8 "cursor-10")).2.Get).1 = (utf8 "cursor-10", none) :=
  Get_after_Set_of_length_le newEmptyCursor (utf8 "cursor-10") (by decide) (by decide)
    (by decide) (by decide)

/-- A `Get` on a store whose file is empty returns the error `io.EOF`. -/
theorem Get_of_empty_file : newEmptyCursor.Get.1 = ([], some "EOF") := by
  decide

/-- The scanner reads runes: a value that holds the space U+0085 (two bytes) is
cut at it, and an invalid byte comes back as `RuneError`. -/
theorem Get_reads_runes :
    ((newEmptyCursor.Set (utf8 "ab\u0085cd")).2.Get).1 = (utf8 "ab", none) ∧
    ((newEmptyCursor.Set [0x61, 0xE2, 0x41, 0x20, 0x62]).2.Get).1 =
      ([0x61, 0xEF, 0xBF, 0xBD, 0x41], none) := by
  decide

/-- C13, at the failing input: on a new store, `Set("cursor-10")` then
`Set("cursor-9")`, both without error, and then `Get` returns `"cursor-90"`
with no error, not the value set last: `Set` overwrites the start of the file
and leaves the rest of the longer value in place. -/
theorem Get_after_shorter_Set_returns_mixed_value :
    (newEmptyCursor.Set (utf8 "cursor-10")).1 = none ∧
    ((newEmptyCursor.Set (utf8 "cursor-10")).2.Set (utf8 "cursor-9")).1 = none ∧
    (((newEmptyCursor.Set (utf8 "cursor-10")).2.Set (utf8 "cursor-9")).2.Get).1 =
      (utf8 "cursor-90", none) ∧
    utf8 "cursor-90" ≠ utf8 "cursor-9" := by
  decide

/-! ## The Converter: keys, message and priority -/

/-- The member `syslog` is written for every record, whatever the nested struct holds. -/
theorem syslog_mem_members (r : Record) :
    ("syslog", JSONValue.object r.Syslog.members) ∈ r.members := by
  simp [Record.members]

set_option maxRecDepth 100000 in
/-- C18, at the failing input: for an entry without any syslog attribute (so
that facility, ident and pid of the nested struct are all zero or empty), the
message of the converter still holds the key `syslog`, with an empty object. -/
theorem converter_writes_empty_syslog_object :
    (recordFromJournalEntryFields journalTransportEntry).Syslog =
      { Facility := 0, Identifier := "", PID := 0 } ∧
    (NewEntryToEventConverter quoteOnly "i-1" (fun _ => 1722650790111)
        journalTransportEntry).Message =
      some (utf8 ("\x7b\n  \"instanceId\": \"i-1\",\n  \"realTimestamp\": 17,\n" ++
        "  \"pid\": 1,\n  \"uid\": 0,\n  \"gid\": 0,\n  \"transport\": \"journal\",\n" ++
        "  \"priority\": \"info\",\n  \"message\": \"hello\",\n  \"syslog\": \x7b\x7d\n\x7d")) := by
  decide

theorem utf8_append (a b : String) : utf8 (a ++ b) = utf8 a ++ utf8 b := by
  simp [utf8, String.data_append]

theorem utf8_renderObject_ne_nil (indent : String) (members : List (String × String)) :
    utf8 (renderObject indent members) ≠ [] := by
  unfold renderObject
  split
  · decide
  · rw [String.append_assoc, String.append_assoc, String.append_assoc, utf8_append]
    have h : utf8 "\x7b\n" = [123, 10] := by decide
    rw [h]
    simp

theorem MarshalIndent_bytes_ne_nil (encodeString : String → String) (r : Record) :
    (MarshalIndent encodeString r).1 ≠ [] := by
  simp only [MarshalIndent]
  have h := utf8_renderObject_ne_nil "" (r.members.map (fun m => (m.1, m.2.render encodeString)))
  exact h

theorem NewEntryToEventConverter_message (encodeString : String → String) (instanceID : String)
    (timestampFn : Unit → Int) (entry : JournalEntry) :
    (NewEntryToEventConverter encodeString instanceID timestampFn entry).Message =
      some (MarshalIndent encodeString
        { recordFromJournalEntryFields entry with InstanceID := instanceID }).1 := by
  simp only [NewEntryToEventConverter, MarshalIndent]

/-- The entries the loop appends are all the entries it takes, when the
converter is the converter of the repository. -/
theorem entriesAppended_NewEntryToEventConverter (encodeString : String → String)
    (instanceID : String) (timestampFn : Unit → Int) (maxPayload maxEvents MaxWait : Int)
    (cases : List BatchSelect) :
    entriesAppended
        { converter := NewEntryToEventConverter encodeString instanceID timestampFn
          maxPayload := maxPayload, maxEvents := maxEvents, MaxWait := MaxWait } cases =
      entriesTaken cases :=
  entriesAppended_eq_entriesTaken _
    (fun entry => by
      show (NewEntryToEventConverter encodeString instanceID timestampFn entry).Message ≠ none
      rw [NewEntryToEventConverter_message]
      exact Option.some_ne_none _)
    cases

/-- C19: for every journal entry (any attribute map, also an empty one) and
every instance id, the event returned by the converter has a `Message` that is
not nil and not empty; so the Batcher, whatever its limits, never takes the
branch that drops an entry with a nil message: every entry taken is appended. -/
theorem converter_message_nonempty (encodeString : String → String) (instanceID : String)
    (timestampFn : Unit → Int) :
    (∀ entry : JournalEntry, ∃ message : List UInt8,
      (NewEntryToEventConverter encodeString instanceID timestampFn entry).Message =
        some message ∧ message ≠ []) ∧
    (∀ (maxPayload maxEvents MaxWait : Int) (cases : List BatchSelect),
      entriesAppended
          { converter := NewEntryToEventConverter encodeString instanceID timestampFn
            maxPayload := maxPayload, maxEvents := maxEvents, MaxWait := MaxWait } cases =
        entriesTaken cases) := by
  refine ⟨fun entry =>
    ⟨(MarshalIndent encodeString
        { recordFromJournalEntryFields entry with InstanceID := instanceID }).1,
      NewEntryToEventConverter_message encodeString instanceID timestampFn entry,
      MarshalIndent_bytes_ne_nil encodeString _⟩,
    fun _ _ _ cases =>
      entriesAppended_NewEntryToEventConverter encodeString instanceID timestampFn _ _ _ cases⟩

/-- C20: for every journal entry, when the attribute `PRIORITY` is the decimal
digit `d` with `d` from 0 to 7 the priority of the record is the `d`-th name of
emerg, alert, crit, err, warning, notice, info, debug; for every other value of
`PRIORITY` (missing, out of range, not a number) the priority of the record is
empty; and in all cases the conversion succeeds: the encoding returns no error
and the message of the event is the encoding of the record. -/
theorem priority_mapping (entry : JournalEntry) :
    (∀ d : Nat, d < 8 → entry.field "PRIORITY" = toString d →
      some (recordFromJournalEntryFields entry).Priority =
        ["emerg", "alert", "crit", "err", "warning", "notice", "info", "debug"][d]?) ∧
    ((∀ d : Nat, d < 8 → entry.field "PRIORITY" ≠ toString d) →
      (recordFromJournalEntryFields entry).Priority = "") ∧
    (∀ (encodeString : String → String) (instanceID : String) (timestampFn : Unit → Int),
      (MarshalIndent encodeString
        { recordFromJournalEntryFields entry with InstanceID := instanceID }).2 = none ∧
      (NewEntryToEventConverter encodeString instanceID timestampFn entry).Message =
        some (MarshalIndent encodeString
          { recordFromJournalEntryFields entry with InstanceID := instanceID }).1) := by
  refine ⟨?_, ?_, fun _ _ _ => ⟨rfl, NewEntryToEventConverter_message _ _ _ _⟩⟩
  · intro d hd hp
    simp only [recordFromJournalEntryFields, hp]
    interval_cases d <;> decide
  · intro h
    have h0 := h 0 (by decide)
    have h1 := h 1 (by decide)
    have h2 := h 2 (by decide)
    have h3 := h 3 (by decide)
    have h4 := h 4 (by decide)
    have h5 := h 5 (by decide)
    have h6 := h 6 (by decide)
    have h7 := h 7 (by decide)
    have e0 : toString (0 : Nat) = "0" := by decide
    have e1 : toString (1 : Nat) = "1" := by decide
    have e2 : toString (2 : Nat) = "2" := by decide
    have e3 : toString (3 : Nat) = "3" := by decide
    have e4 : toString (4 : Nat) = "4" := by decide
    have e5 : toString (5 : Nat) = "5" := by decide
    have e6 : toString (6 : Nat) = "6" := by decide
    have e7 : toString (7 : Nat) = "7" := by decide
    rw [e0] at h0; rw [e1] at h1; rw [e2] at h2; rw [e3] at h3
    rw [e4] at h4; rw [e5] at h5; rw [e6] at h6; rw [e7] at h7
    simp only [recordFromJournalEntryFields, priorityMap]
    generalize entry.field "PRIORITY" = p at h0 h1 h2 h3 h4 h5 h6 h7
    simp [List.lookup, beq_eq_false_iff_ne.2 h0, beq_eq_false_iff_ne.2 h1,
      beq_eq_false_iff_ne.2 h2, beq_eq_false_iff_ne.2 h3, beq_eq_false_iff_ne.2 h4,
      beq_eq_false_iff_ne.2 h5, beq_eq_false_iff_ne.2 h6, beq_eq_false_iff_ne.2 h7]

theorem priority_mapping_witness :
    6 < 8 ∧ journalTransportEntry.field "PRIORITY" = toString 6 ∧
    some (recordFromJournalEntryFields journalTransportEntry).Priority =
      ["emerg", "alert", "crit", "err", "warning", "notice", "info", "debug"][6]? ∧
    (recordFromJournalEntryFields journalTransportEntry).Priority = "info" ∧
    (∀ d : Nat, d < 8 → (sizedEntry "c0" 1).field "PRIORITY" ≠ toString d) ∧
    (recordFromJournalEntryFields (sizedEntry "c0" 1)).Priority = "" :=
  ⟨by decide, by decide,
    (priority_mapping journalTransportEntry).1 6 (by decide) (by decide), by decide,
    fun d hd => by interval_cases d <;> decide,
    (priority_mapping (sizedEntry "c0" 1)).2.1 (fun d hd => by interval_cases d <;> decide)⟩

/-! ## The Batcher: the quota of the service, the slice of the truncation, the timer -/

/-- C26: with the default configuration (`maxPayload` 943718, `maxEvents`
1000), for every converter and every sequence of entries, ticks and
cancellation, every batch sent by `Batcher.Batch` has a sum of message byte
lengths plus 26 bytes per event of at most 1,048,576. -/
theorem default_limits_respect_quota (converter : EntryToEventConverter)
    (cases : List BatchSelect) (x : Batch)
    (hx : x ∈ (NewBatcher converter []).Batch cases) :
    (NewBatcher converter []).maxPayload = 943718 ∧
    (NewBatcher converter []).maxEvents = 1000 ∧
    payloadBytes x.Events + 26 * x.Events.length ≤ 1048576 := by
  have hp : (NewBatcher converter []).maxPayload = 943718 := by
    show ((maxCWLBatchSize : Nat) : Int) = 943718
    decide
  have he : (NewBatcher converter []).maxEvents = 1000 := rfl
  have hmax : (maxCWLBatchSize : Int) ≤ (NewBatcher converter []).maxPayload := by
    rw [hp]; decide
  have h0 : (startNewBatch.bytesCount = payloadBytes startNewBatch.batch.Events ∧
      startNewBatch.bytesCount ≤ (NewBatcher converter []).maxPayload) ∧
      (startNewBatch.batch.Events.length : Int) ≤ (NewBatcher converter []).maxEvents := by
    rw [hp, he]
    decide
  obtain ⟨st, ⟨⟨h1, h2⟩, h3⟩, rfl, _⟩ :=
    loop_invariant (NewBatcher converter [])
      (fun st => (st.bytesCount = payloadBytes st.batch.Events ∧
          st.bytesCount ≤ (NewBatcher converter []).maxPayload) ∧
        (st.batch.Events.length : Int) ≤ (NewBatcher converter []).maxEvents)
      h0
      (fun st entry h =>
        ⟨onEntry_payload _ hmax st entry h.1,
          onEntry_count _ (by rw [he]; decide) st entry h.2⟩)
      cases startNewBatch h0 x (mem_Batch _ cases hx)
  refine ⟨hp, he, ?_⟩
  rw [hp] at h2
  rw [he] at h3
  rw [h1] at h2
  omega

theorem default_limits_respect_quota_witness :
    ({ Events := [truncateEvent (sizedConverter (sizedEntry "c0" 3))], Cursor := "c0" } : Batch) ∈
      (NewBatcher sizedConverter []).Batch
        [BatchSelect.Entry (sizedEntry "c0" 3), BatchSelect.Tick, BatchSelect.Done] ∧
    (NewBatcher sizedConverter []).maxPayload = 943718 ∧
    (NewBatcher sizedConverter []).maxEvents = 1000 ∧
    payloadBytes ({ Events := [truncateEvent (sizedConverter (sizedEntry "c0" 3))],
                    Cursor := "c0" } : Batch).Events +
      26 * ({ Events := [truncateEvent (sizedConverter (sizedEntry "c0" 3))],
              Cursor := "c0" } : Batch).Events.length ≤ 1048576 :=
  ⟨by decide,
    default_limits_respect_quota sizedConverter
      [BatchSelect.Entry (sizedEntry "c0" 3), BatchSelect.Tick, BatchSelect.Done] _
      (by decide)⟩

/-- C27: `bytesToKeepForLogEvent` is less than `maxCWLBatchSize`, so whenever
`Batcher.Batch` takes the truncation branch (the message is longer than
`maxCWLBatchSize`) the message has more than 500 bytes: the slice `[:500]` is
within bounds, the message appended has exactly 500 bytes, and this holds for
every configuration and every state of the loop. -/
theorem truncation_slice_in_bounds (b : Batcher) (st : BatchLoop) (entry : JournalEntry)
    (message : List UInt8) (hm : (b.converter entry).Message = some message)
    (hlen : message.length > maxCWLBatchSize) :
    bytesToKeepForLogEvent < maxCWLBatchSize ∧
    bytesToKeepForLogEvent < message.length ∧
    truncateMessage message = message.take bytesToKeepForLogEvent ∧
    (truncateMessage message).length = 500 ∧
    (b.onEntry st entry).2.batch.Events.getLast? =
      some { Message := some (truncateMessage message),
             Timestamp := (b.converter entry).Timestamp } := by
  have hc : bytesToKeepForLogEvent < maxCWLBatchSize := by decide
  have ht : truncateMessage message = message.take bytesToKeepForLogEvent := by
    simp [truncateMessage, hlen]
  have h500 : (truncateMessage message).length = 500 := by
    rw [ht, List.length_take]
    have : bytesToKeepForLogEvent = 500 := rfl
    omega
  refine ⟨hc, by omega, ht, h500, ?_⟩
  by_cases hf : ((truncateMessage message).length : Int) + st.bytesCount > b.maxPayload ∨
      (st.batch.Events.length : Int) = b.maxEvents
  · rw [onEntry_flush b st entry message hm hf]
    simp [truncateEvent, hm]
  · rw [onEntry_keep b st entry message hm hf]
    simp [truncateEvent, hm]

theorem truncation_slice_in_bounds_witness :
    ((NewBatcher sizedConverter [WithMaxPayload 10]).converter
        (sizedEntry "c0" 943719)).Message = some (List.replicate 943719 0) ∧
    (List.replicate 943719 (0 : UInt8)).length > maxCWLBatchSize ∧
    bytesToKeepForLogEvent < maxCWLBatchSize ∧
    bytesToKeepForLogEvent < (List.replicate 943719 (0 : UInt8)).length ∧
    truncateMessage (List.replicate 943719 (0 : UInt8)) =
      (List.replicate 943719 (0 : UInt8)).take bytesToKeepForLogEvent ∧
    (truncateMessage (List.replicate 943719 (0 : UInt8))).length = 500 ∧
    ((NewBatcher sizedConverter [WithMaxPayload 10]).onEntry startNewBatch
        (sizedEntry "c0" 943719)).2.batch.Events.getLast? =
      some { Message := some (truncateMessage (List.replicate 943719 (0 : UInt8))),
             Timestamp := ((NewBatcher sizedConverter [WithMaxPayload 10]).converter
               (sizedEntry "c0" 943719)).Timestamp } :=
  ⟨rfl, by rw [List.length_replicate]; decide,
    truncation_slice_in_bounds (NewBatcher sizedConverter [WithMaxPayload 10]) startNewBatch
      (sizedEntry "c0" 943719) (List.replicate 943719 0) rfl
      (by rw [List.length_replicate]; decide)⟩

/-- Entries that reach neither `maxEvents` nor `maxPayload` are all appended to
the current batch, and nothing is sent meanwhile. -/
theorem loop_append_no_flush (b : Batcher) (tail : List BatchSelect) :
    ∀ (entries : List JournalEntry) (st : BatchLoop) (g : List JournalEntry),
      st.batch.Events = (batchOf b g).Events → (g ≠ [] → st.batch = batchOf b g) →
      ((g.length + entries.length : Nat) : Int) ≤ b.maxEvents → 0 ≤ st.bytesCount →
      (∀ entry ∈ entries, (b.converter entry).Message ≠ none) →
      st.bytesCount +
        (payloadBytes (entries.map (fun entry => truncateEvent (b.converter entry))) : Int) ≤
          b.maxPayload →
      ∃ st2 : BatchLoop,
        b.loop st (entries.map BatchSelect.Entry ++ tail) = b.loop st2 tail ∧
        st2.batch.Events = (batchOf b (g ++ entries)).Events ∧
        (g ++ entries ≠ [] → st2.batch = batchOf b (g ++ entries)) := by
  intro entries
  induction entries with
  | nil =>
    intro st g h1 h2 _ _ _ _
    exact ⟨st, by simp, by simpa using h1, by simpa using h2⟩
  | cons entry rest ih =>
    intro st g h1 h2 hlen hpos hconv hpay
    have hev : st.batch.Events.length = g.length := by simp [h1, batchOf]
    cases hm : (b.converter entry).Message with
    | none => exact absurd hm (hconv entry (by simp))
    | some message =>
      have hpe : payloadBytes ((entry :: rest).map
          (fun entry => truncateEvent (b.converter entry))) =
          (truncateMessage message).length +
            payloadBytes (rest.map (fun entry => truncateEvent (b.converter entry))) := by
        simp [payloadBytes, truncateEvent, hm]
      rw [hpe] at hpay
      push_cast at hpay
      simp only [List.length_cons] at hlen
      push_cast at hlen
      have hf : ¬ (((truncateMessage message).length : Int) + st.bytesCount > b.maxPayload ∨
          (st.batch.Events.length : Int) = b.maxEvents) := by
        rw [hev]
        push_neg
        constructor
        · have : (0 : Int) ≤ (payloadBytes
              (rest.map (fun entry => truncateEvent (b.converter entry))) : Int) :=
            Int.ofNat_nonneg _
          omega
        · omega
      obtain ⟨st2, hloop, he, hb⟩ := ih
        { batch := { Events := st.batch.Events ++ [truncateEvent (b.converter entry)],
                     Cursor := entry.Cursor }
          bytesCount := st.bytesCount + ((truncateMessage message).length : Int) }
        (g ++ [entry])
        (by rw [batchOf_append_singleton, h1])
        (by intro _; rw [batchOf_append_singleton, h1])
        (by rw [List.length_append, List.length_singleton]; push_cast; omega)
        (by simp only; omega)
        (fun e he => hconv e (by simp [he])) (by simp only; omega)
      refine ⟨st2, ?_, by simpa using he, by simpa using hb⟩
      simp only [List.map_cons, List.cons_append, Batcher.loop, List.append_eq,
        onEntry_keep b st entry message hm hf, List.nil_append]
      exact hloop

/-- A tick after cases that hold no cancellation sends what a cancellation in
its place would send, and the loop goes on from the fresh batch. -/
theorem loop_tick_split (b : Batcher) (rest : List BatchSelect) :
    ∀ (pre : List BatchSelect) (st : BatchLoop), BatchSelect.Done ∉ pre →
      b.loop st (pre ++ BatchSelect.Tick :: rest) =
        b.loop st (pre ++ [BatchSelect.Done]) ++ b.loop startNewBatch rest := by
  intro pre
  induction pre with
  | nil =>
    intro st _
    simp only [List.nil_append, Batcher.loop]
  | cons c pre ih =>
    intro st hd
    have hd2 : BatchSelect.Done ∉ pre := fun h => hd (List.mem_cons_of_mem _ h)
    cases c with
    | Done => exact absurd (List.mem_cons_self _ _) hd
    | Tick =>
      simp only [List.cons_append, Batcher.loop, List.append_eq, ih startNewBatch hd2,
        List.append_assoc]
    | Entry entry =>
      simp only [List.cons_append, Batcher.loop, List.append_eq, ih _ hd2, List.append_assoc]

/-- C25: for a batcher that starts without a panic (a positive `MaxWait`, and a
`maxEvents` that is not negative and that `make` accepts), on a timer tick
`Batcher.Batch` sends the current batch when it holds an event, and nothing
when it is empty, and goes on from a fresh batch with no events and a byte
counter of 0: a tick after any entries and ticks sends what a cancellation in
its place would send, and what follows is batched as from the start.  Hence
entries, each with a message, that reach neither `maxEvents` nor `maxPayload`,
followed by a tick, yield one batch with the events of all these entries and
the `Cursor` of the last one (and no batch when there is no entry). -/
theorem Batch_tick_flush (b : Batcher) (hwait : 0 < b.MaxWait) (hcap : 0 ≤ b.maxEvents)
    (hmem : sizeofInputLogEvent * b.maxEvents ≤ maxAlloc) :
    (∀ (st : BatchLoop) (rest : List BatchSelect),
      b.loop st (BatchSelect.Tick :: rest) =
        (if st.batch.Events = [] then [] else [st.batch]) ++ b.loop startNewBatch rest) ∧
    startNewBatch.batch.Events = [] ∧ startNewBatch.bytesCount = 0 ∧
    (∀ (pre rest : List BatchSelect), BatchSelect.Done ∉ pre →
      b.Batch (pre ++ BatchSelect.Tick :: rest) =
        b.Batch (pre ++ [BatchSelect.Done]) ++ b.Batch rest) ∧
    (∀ (entries : List JournalEntry) (rest : List BatchSelect),
      (entries.length : Int) ≤ b.maxEvents →
      (∀ entry ∈ entries, (b.converter entry).Message ≠ none) →
      (payloadBytes (entries.map (fun entry => truncateEvent (b.converter entry))) : Int) ≤
        b.maxPayload →
      b.Batch (entries.map BatchSelect.Entry ++ BatchSelect.Tick :: rest) =
        (if entries = [] then []
          else [{ Events := entries.map (fun entry => truncateEvent (b.converter entry))
                  Cursor := (entries.getLast?.map JournalEntry.Cursor).getD "" }]) ++
          b.Batch rest) := by
  have hB : ∀ cases, b.Batch cases = b.loop startNewBatch cases :=
    fun cases => Batch_of_config b cases hwait hcap hmem
  refine ⟨?_, rfl, rfl, ?_, ?_⟩
  · intro st rest
    simp only [Batcher.loop, saveOldBatch, List.length_eq_zero]
  · intro pre rest hd
    rw [hB, hB, hB]
    exact loop_tick_split b rest pre startNewBatch hd
  · intro entries rest hlen hconv hpay
    obtain ⟨st2, hloop, he, hb⟩ :=
      loop_append_no_flush b (BatchSelect.Tick :: rest) entries startNewBatch []
        (by simp [startNewBatch, batchOf]) (by simp) (by simpa using hlen)
        (by simp [startNewBatch]) hconv (by simpa [startNewBatch] using hpay)
    rw [hB, hB, hloop]
    simp only [List.nil_append] at he hb
    simp only [Batcher.loop, saveOldBatch_of_group b st2 entries he hb]
    by_cases hn : entries = []
    · simp [hn]
    · simp [hn, batchOf]

theorem Batch_tick_flush_witness :
    0 < (NewBatcher sizedConverter []).MaxWait ∧
    0 ≤ (NewBatcher sizedConverter []).maxEvents ∧
    sizeofInputLogEvent * (NewBatcher sizedConverter []).maxEvents ≤ maxAlloc ∧
    (tenEntries.length : Int) ≤ (NewBatcher sizedConverter []).maxEvents ∧
    (∀ entry ∈ tenEntries, ((NewBatcher sizedConverter []).converter entry).Message ≠ none) ∧
    (payloadBytes (tenEntries.map (fun entry =>
        truncateEvent ((NewBatcher sizedConverter []).converter entry))) : Int) ≤
      (NewBatcher sizedConverter []).maxPayload ∧
    (NewBatcher sizedConverter []).Batch
        (tenEntries.map BatchSelect.Entry ++ BatchSelect.Tick :: [BatchSelect.Done]) =
      (if tenEntries = [] then []
        else [{ Events := tenEntries.map (fun entry =>
                  truncateEvent ((NewBatcher sizedConverter []).converter entry))
                Cursor := (tenEntries.getLast?.map JournalEntry.Cursor).getD "" }]) ++
        (NewBatcher sizedConverter []).Batch [BatchSelect.Done] ∧
    ((NewBatcher sizedConverter []).Batch
        (tenEntries.map BatchSelect.Entry ++ BatchSelect.Tick :: [BatchSelect.Done])).map
      Batch.Cursor = ["c9"] :=
  ⟨by decide, by decide, by decide, by decide,
    fun _ _ => by simp [NewBatcher, sizedConverter], by decide,
    (Batch_tick_flush (NewBatcher sizedConverter []) (by decide) (by decide)
      (by decide)).2.2.2.2 tenEntries [BatchSelect.Done]
      (by decide) (fun _ _ => by simp [NewBatcher, sizedConverter]) (by decide),
    by decide⟩

/-! ## The Source Reader: errors of the log source -/

/-- C23: in an iteration of `Reader.Read`, when `Next` returns an error, or
`Next` reports an advance and `GetEntry` returns an error, `Reader.Read` panics
with that error: it sends no entry for that step, makes no further call to the
log source, and takes no further iteration. -/
theorem Read_panics_on_source_error {σ : Type} (r : Reader σ) (iterations : Nat)
    (s : ReadWorld σ) :
    (∀ (advanced : Nat) (err : String) (s1 : σ),
      r.reader.Next s.state = ((advanced, some err), s1) →
      r.Read (iterations + 1) s =
        (Exit.Panicked,
          { state := s1
            calls := s.calls ++ [ReadCall.Next advanced (some err), ReadCall.Panic err] })) ∧
    (∀ (advanced : Nat) (err : String) (s1 s2 : σ),
      r.reader.Next s.state = ((advanced, none), s1) → advanced ≠ 0 →
      r.reader.GetEntry s1 = (GetEntryResult.error err, s2) →
      r.Read (iterations + 1) s =
        (Exit.Panicked,
          { state := s2
            calls := s.calls ++ [ReadCall.Next advanced none,
              ReadCall.GetEntry (GetEntryResult.error err), ReadCall.Panic err] })) := by
  constructor
  · intro advanced err s1 hn
    have hnext : r.next s = (Except.error (NextError.source err),
        { state := s1, calls := s.calls ++ [ReadCall.Next advanced (some err)] }) := by
      simp [Reader.next, hn]
    simp [Reader.Read, hnext]
  · intro advanced err s1 s2 hn hadv hg
    have hnext : r.next s = (Except.error (NextError.source err),
        { state := s2, calls := s.calls ++ [ReadCall.Next advanced none] ++
          [ReadCall.GetEntry (GetEntryResult.error err)] }) := by
      simp [Reader.next, hn, hadv, hg]
    simp [Reader.Read, hnext]

theorem Read_panics_on_source_error_witness :
    (journalStubAPI.Next
        { entries := [sizedEntry "cursor-0" 1], index := -1, shouldNextError := true,
          shouldGetEntryError := false } =
      ((0, some "cannot advance cursor"),
        { entries := [sizedEntry "cursor-0" 1], index := -1, shouldNextError := true,
          shouldGetEntryError := false }) ∧
      (NewReader journalStubAPI []).Read (5 + 1)
          { state := { entries := [sizedEntry "cursor-0" 1], index := -1,
                       shouldNextError := true, shouldGetEntryError := false },
            calls := [] } =
        (Exit.Panicked,
          { state := { entries := [sizedEntry "cursor-0" 1], index := -1,
                       shouldNextError := true, shouldGetEntryError := false }
            calls := [] ++ [ReadCall.Next 0 (some "cannot advance cursor"),
              ReadCall.Panic "cannot advance cursor"] })) ∧
    (journalStubAPI.Next
        { entries := [sizedEntry "cursor-0" 1], index := -1, shouldNextError := false,
          shouldGetEntryError := true } =
      ((1, none),
        { entries := [sizedEntry "cursor-0" 1], index := 0, shouldNextError := false,
          shouldGetEntryError := true }) ∧
      1 ≠ 0 ∧
      journalStubAPI.GetEntry
          { entries := [sizedEntry "cursor-0" 1], index := 0, shouldNextError := false,
            shouldGetEntryError := true } =
        (GetEntryResult.error "cannot read entry",
          { entries := [sizedEntry "cursor-0" 1], index := 0, shouldNextError := false,
            shouldGetEntryError := true }) ∧
      (NewReader journalStubAPI []).Read (5 + 1)
          { state := { entries := [sizedEntry "cursor-0" 1], index := -1,
                       shouldNextError := false, shouldGetEntryError := true },
            calls := [] } =
        (Exit.Panicked,
          { state := { entries := [sizedEntry "cursor-0" 1], index := 0,
                       shouldNextError := false, shouldGetEntryError := true }
            calls := [] ++ [ReadCall.Next 1 none,
              ReadCall.GetEntry (GetEntryResult.error "cannot read entry"),
              ReadCall.Panic "cannot read entry"] })) :=
  ⟨⟨rfl,
      (Read_panics_on_source_error (NewReader journalStubAPI []) 5
        { state := { entries := [sizedEntry "cursor-0" 1], index := -1,
                     shouldNextError := true, shouldGetEntryError := false },
          calls := [] }).1 0 "cannot advance cursor" _ rfl⟩,
    ⟨rfl, by decide, rfl,
      (Read_panics_on_source_error (NewReader journalStubAPI []) 5
        { state := { entries := [sizedEntry "cursor-0" 1], index := -1,
                     shouldNextError := false, shouldGetEntryError := true },
          calls := [] }).2 1 "cannot read entry" _ _ rfl (by decide) rfl⟩⟩

/-! ## The Sink Writer: a remote failure that persists -/

/-- C24: when every `PutLogEvents` call fails with the same error, neither a
`ThrottlingException` nor a `ResourceNotFoundException`, or when every
`PutLogEvents` call fails with a `ResourceNotFoundException` and every
`CreateLogStream` call fails, `Writer.Write` panics on the batch, and the calls
it made for the batch hold no `saveCursor`. -/
theorem Write_persistent_failure {σ : Type} (w : Writer σ) (batch : Batch)
    (rest : List WriteSelect) (s : World σ) :
    (∀ err : RemoteError, err.isThrottling = false → err.isResourceNotFound = false →
      (∀ (params : PutLogEventsInput) (t : σ), (w.cwlClient.PutLogEvents params t).1 = some err) →
      ∃ t : σ,
        w.Write (WriteSelect.Batch batch :: rest) s =
          (Exit.Panicked,
            { state := t
              calls := s.calls ++ [Call.PutLogEvents (w.putRequest batch.Events) (some err),
                Call.PutLogEvents (w.putRequest batch.Events) (some err)] })) ∧
    ((∀ (params : PutLogEventsInput) (t : σ), ∃ err : RemoteError,
        (w.cwlClient.PutLogEvents params t).1 = some err ∧ err.isResourceNotFound = true) →
      (∀ (params : CreateLogStreamInput) (t : σ), ∃ err : RemoteError,
        (w.cwlClient.CreateLogStream params t).1 = some err) →
      ∃ (t : σ) (e1 c1 e2 c2 : RemoteError),
        w.Write (WriteSelect.Batch batch :: rest) s =
          (Exit.Panicked,
            { state := t
              calls := s.calls ++ [Call.PutLogEvents (w.putRequest batch.Events) (some e1),
                Call.CreateLogStream w.createRequest (some c1),
                Call.PutLogEvents (w.putRequest batch.Events) (some e2),
                Call.CreateLogStream w.createRequest (some c2)] })) := by
  constructor
  · intro err hthr hrnf hput
    have hp1 : w.cwlClient.PutLogEvents (w.putRequest batch.Events) s.state =
        (some err, (w.cwlClient.PutLogEvents (w.putRequest batch.Events) s.state).2) :=
      Prod.ext (hput _ _) rfl
    have hw1 := writeBatch_unclassified w batch.Events s err _ hp1 hthr hrnf
    have hp2 : w.cwlClient.PutLogEvents (w.putRequest batch.Events)
        (w.cwlClient.PutLogEvents (w.putRequest batch.Events) s.state).2 =
        (some err, (w.cwlClient.PutLogEvents (w.putRequest batch.Events)
          (w.cwlClient.PutLogEvents (w.putRequest batch.Events) s.state).2).2) :=
      Prod.ext (hput _ _) rfl
    have h2 := (Write_second_attempt w batch rest s _ err hw1 (some err) _ hp2).2 err rfl hrnf
    refine ⟨(w.cwlClient.PutLogEvents (w.putRequest batch.Events)
      (w.cwlClient.PutLogEvents (w.putRequest batch.Events) s.state).2).2, ?_⟩
    rw [h2]
    simp
  · intro hput hcreate
    obtain ⟨e1, he1, hr1⟩ := hput (w.putRequest batch.Events) s.state
    have hp1 : w.cwlClient.PutLogEvents (w.putRequest batch.Events) s.state =
        (some e1, (w.cwlClient.PutLogEvents (w.putRequest batch.Events) s.state).2) :=
      Prod.ext he1 rfl
    obtain ⟨c1, hc1⟩ := hcreate w.createRequest
      (w.cwlClient.PutLogEvents (w.putRequest batch.Events) s.state).2
    have hcr1 : w.cwlClient.CreateLogStream w.createRequest
        (w.cwlClient.PutLogEvents (w.putRequest batch.Events) s.state).2 =
        (some c1, (w.cwlClient.CreateLogStream w.createRequest
          (w.cwlClient.PutLogEvents (w.putRequest batch.Events) s.state).2).2) :=
      Prod.ext hc1 rfl
    have hw1 := writeBatch_create_failed w batch.Events s e1 c1 _ _ hp1 hr1 hcr1
    have hon := onBatch_of_err w batch s _ _ hw1
    simp only [reduceCtorEq, if_false] at hon
    generalize hs1 : (w.cwlClient.CreateLogStream w.createRequest
      (w.cwlClient.PutLogEvents (w.putRequest batch.Events) s.state).2).2 = t1 at hon
    obtain ⟨e2, he2, hr2⟩ := hput (w.putRequest batch.Events) t1
    have hp2 : w.cwlClient.PutLogEvents (w.putRequest batch.Events) t1 =
        (some e2, (w.cwlClient.PutLogEvents (w.putRequest batch.Events) t1).2) :=
      Prod.ext he2 rfl
    obtain ⟨c2, hc2⟩ := hcreate w.createRequest
      (w.cwlClient.PutLogEvents (w.putRequest batch.Events) t1).2
    have hcr2 : w.cwlClient.CreateLogStream w.createRequest
        (w.cwlClient.PutLogEvents (w.putRequest batch.Events) t1).2 =
        (some c2, (w.cwlClient.CreateLogStream w.createRequest
          (w.cwlClient.PutLogEvents (w.putRequest batch.Events) t1).2).2) :=
      Prod.ext hc2 rfl
    have hw2 := writeBatch_create_failed w batch.Events
      { state := t1
        calls := s.calls ++ [Call.PutLogEvents (w.putRequest batch.Events) (some e1),
          Call.CreateLogStream w.createRequest (some c1)] } e2 c2 _ _ hp2 hr2 hcr2
    rw [hw2] at hon
    simp only [reduceCtorEq, if_false, List.append_assoc, List.cons_append,
      List.nil_append] at hon
    exact ⟨_, e1, c1, e2, c2, Write_of_panic w batch rest s _ hon⟩

theorem Write_persistent_failure_witness :
    ((RemoteError.other "cannot put log events").isThrottling = false ∧
      (RemoteError.other "cannot put log events").isResourceNotFound = false ∧
      (∀ (params : PutLogEventsInput) (t : Nat),
        ((cwlStub (some (RemoteError.other "cannot put log events")) none none).cwlClient.PutLogEvents
          params t).1 = some (RemoteError.other "cannot put log events")) ∧
      ∃ t : Nat,
        (cwlStub (some (RemoteError.other "cannot put log events")) none none).Write
            (WriteSelect.Batch testBatch :: [WriteSelect.Done]) { state := 0, calls := [] } =
          (Exit.Panicked,
            { state := t
              calls := [] ++
                [Call.PutLogEvents
                    ((cwlStub (some (RemoteError.other "cannot put log events")) none
                      none).putRequest testBatch.Events)
                    (some (RemoteError.other "cannot put log events")),
                  Call.PutLogEvents
                    ((cwlStub (some (RemoteError.other "cannot put log events")) none
                      none).putRequest testBatch.Events)
                    (some (RemoteError.other "cannot put log events"))] })) ∧
    ((∀ (params : PutLogEventsInput) (t : Nat), ∃ err : RemoteError,
        ((cwlStub (some (RemoteError.api resourceNotFoundExceptionCode "stream does not exist"))
          (some (RemoteError.other "cannot create log stream")) none).cwlClient.PutLogEvents
            params t).1 = some err ∧ err.isResourceNotFound = true) ∧
      (∀ (params : CreateLogStreamInput) (t : Nat), ∃ err : RemoteError,
        ((cwlStub (some (RemoteError.api resourceNotFoundExceptionCode "stream does not exist"))
          (some (RemoteError.other "cannot create log stream")) none).cwlClient.CreateLogStream
            params t).1 = some err) ∧
      ∃ (t : Nat) (e1 c1 e2 c2 : RemoteError),
        (cwlStub (some (RemoteError.api resourceNotFoundExceptionCode "stream does not exist"))
          (some (RemoteError.other "cannot create log stream")) none).Write
            (WriteSelect.Batch testBatch :: [WriteSelect.Done]) { state := 0, calls := [] } =
          (Exit.Panicked,
            { state := t
              calls := [] ++
                [Call.PutLogEvents
                    ((cwlStub
                      (some (RemoteError.api resourceNotFoundExceptionCode "stream does not exist"))
                      (some (RemoteError.other "cannot create log stream")) none).putRequest
                      testBatch.Events) (some e1),
                  Call.CreateLogStream
                    (cwlStub
                      (some (RemoteError.api resourceNotFoundExceptionCode "stream does not exist"))
                      (some (RemoteError.other "cannot create log stream")) none).createRequest
                    (some c1),
                  Call.PutLogEvents
                    ((cwlStub
                      (some (RemoteError.api resourceNotFoundExceptionCode "stream does not exist"))
                      (some (RemoteError.other "cannot create log stream")) none).putRequest
                      testBatch.Events) (some e2),
                  Call.CreateLogStream
                    (cwlStub
                      (some (RemoteError.api resourceNotFoundExceptionCode "stream does not exist"))
                      (some (RemoteError.other "cannot create log stream")) none).createRequest
                    (some c2)] })) :=
  ⟨⟨rfl, rfl, fun _ _ => rfl,
      (Write_persistent_failure
        (cwlStub (some (RemoteError.other "cannot put log events")) none none) testBatch
        [WriteSelect.Done] { state := 0, calls := [] }).1
        (RemoteError.other "cannot put log events") rfl rfl (fun _ _ => rfl)⟩,
    ⟨fun _ _ => ⟨_, rfl, by decide⟩, fun _ _ => ⟨_, rfl⟩,
      (Write_persistent_failure
        (cwlStub (some (RemoteError.api resourceNotFoundExceptionCode "stream does not exist"))
          (some (RemoteError.other "cannot create log stream")) none) testBatch
        [WriteSelect.Done] { state := 0, calls := [] }).2
        (fun _ _ => ⟨_, rfl, by decide⟩) (fun _ _ => ⟨_, rfl⟩)⟩⟩

/-! ## The Converter: numbers that do not parse, and the mapping of the fields -/

theorem Atoi_eq_none_of_not_isDecimalInteger (s : String) (h : isDecimalInteger s = false) :
    Atoi s = none := by
  unfold isDecimalInteger at h
  unfold Atoi
  split at h <;> simp_all

/-- C21: for every journal entry and each of the numeric attributes `_PID`,
`_UID`, `_GID`, `ERRNO`, `SYSLOG_FACILITY` and `SYSLOG_PID`, when the
attribute is missing or is not a decimal integer the field of the record for it
is 0; and the attribute decides that field only: an entry that differs at most
in this attribute (where it may be valid) gives a record that differs at most in
this field. -/
theorem unparsable_numbers_default_to_zero (entry : JournalEntry) :
    (isDecimalInteger (entry.field "_PID") = false →
      (recordFromJournalEntryFields entry).PID = 0) ∧
    (isDecimalInteger (entry.field "_UID") = false →
      (recordFromJournalEntryFields entry).UID = 0) ∧
    (isDecimalInteger (entry.field "_GID") = false →
      (recordFromJournalEntryFields entry).GID = 0) ∧
    (isDecimalInteger (entry.field "ERRNO") = false →
      (recordFromJournalEntryFields entry).ErrNo = 0) ∧
    (isDecimalInteger (entry.field "SYSLOG_FACILITY") = false →
      (recordFromJournalEntryFields entry).Syslog.Facility = 0) ∧
    (isDecimalInteger (entry.field "SYSLOG_PID") = false →
      (recordFromJournalEntryFields entry).Syslog.PID = 0) ∧
    (∀ other : JournalEntry, entry.agreesExcept other "_PID" →
      recordFromJournalEntryFields other =
        { recordFromJournalEntryFields entry with
          PID := (recordFromJournalEntryFields other).PID }) ∧
    (∀ other : JournalEntry, entry.agreesExcept other "_UID" →
      recordFromJournalEntryFields other =
        { recordFromJournalEntryFields entry with
          UID := (recordFromJournalEntryFields other).UID }) ∧
    (∀ other : JournalEntry, entry.agreesExcept other "_GID" →
      recordFromJournalEntryFields other =
        { recordFromJournalEntryFields entry with
          GID := (recordFromJournalEntryFields other).GID }) ∧
    (∀ other : JournalEntry, entry.agreesExcept other "ERRNO" →
      recordFromJournalEntryFields other =
        { recordFromJournalEntryFields entry with
          ErrNo := (recordFromJournalEntryFields other).ErrNo }) ∧
    (∀ other : JournalEntry, entry.agreesExcept other "SYSLOG_FACILITY" →
      recordFromJournalEntryFields other =
        { recordFromJournalEntryFields entry with
          Syslog :=
            { (recordFromJournalEntryFields entry).Syslog with
              Facility := (recordFromJournalEntryFields other).Syslog.Facility } }) ∧
    (∀ other : JournalEntry, entry.agreesExcept other "SYSLOG_PID" →
      recordFromJournalEntryFields other =
        { recordFromJournalEntryFields entry with
          Syslog :=
            { (recordFromJournalEntryFields entry).Syslog with
              PID := (recordFromJournalEntryFields other).Syslog.PID } }) := by
  refine ⟨?_, ?_, ?_, ?_, ?_, ?_, ?_, ?_, ?_, ?_, ?_, ?_⟩
  · intro h
    simp [recordFromJournalEntryFields, Atoi_eq_none_of_not_isDecimalInteger _ h]
  · intro h
    simp [recordFromJournalEntryFields, Atoi_eq_none_of_not_isDecimalInteger _ h]
  · intro h
    simp [recordFromJournalEntryFields, Atoi_eq_none_of_not_isDecimalInteger _ h]
  · intro h
    simp [recordFromJournalEntryFields, Atoi_eq_none_of_not_isDecimalInteger _ h]
  · intro h
    simp [recordFromJournalEntryFields, Atoi_eq_none_of_not_isDecimalInteger _ h]
  · intro h
    simp [recordFromJournalEntryFields, Atoi_eq_none_of_not_isDecimalInteger _ h]
  · intro other h
    simp [recordFromJournalEntryFields, h.1, h.2 "_UID" (by decide), h.2 "_GID" (by decide),
      h.2 "ERRNO" (by decide), h.2 "_COMM" (by decide), h.2 "_EXE" (by decide),
      h.2 "_SYSTEMD_UNIT" (by decide), h.2 "_BOOT_ID" (by decide),
      h.2 "_MACHINE_ID" (by decide), h.2 "_HOSTNAME" (by decide), h.2 "_TRANSPORT" (by decide),
      h.2 "PRIORITY" (by decide), h.2 "MESSAGE" (by decide), h.2 "MESSAGE_ID" (by decide),
      h.2 "SYSLOG_FACILITY" (by decide), h.2 "SYSLOG_PID" (by decide),
      h.2 "SYSLOG_IDENTIFIER" (by decide)]
  · intro other h
    simp [recordFromJournalEntryFields, h.1, h.2 "_PID" (by decide), h.2 "_GID" (by decide),
      h.2 "ERRNO" (by decide), h.2 "_COMM" (by decide), h.2 "_EXE" (by decide),
      h.2 "_SYSTEMD_UNIT" (by decide), h.2 "_BOOT_ID" (by decide),
      h.2 "_MACHINE_ID" (by decide), h.2 "_HOSTNAME" (by decide), h.2 "_TRANSPORT" (by decide),
      h.2 "PRIORITY" (by decide), h.2 "MESSAGE" (by decide), h.2 "MESSAGE_ID" (by decide),
      h.2 "SYSLOG_FACILITY" (by decide), h.2 "SYSLOG_PID" (by decide),
      h.2 "SYSLOG_IDENTIFIER" (by decide)]
  · intro other h
    simp [recordFromJournalEntryFields, h.1, h.2 "_PID" (by decide), h.2 "_UID" (by decide),
      h.2 "ERRNO" (by decide), h.2 "_COMM" (by decide), h.2 "_EXE" (by decide),
      h.2 "_SYSTEMD_UNIT" (by decide), h.2 "_BOOT_ID" (by decide),
      h.2 "_MACHINE_ID" (by decide), h.2 "_HOSTNAME" (by decide), h.2 "_TRANSPORT" (by decide),
      h.2 "PRIORITY" (by decide), h.2 "MESSAGE" (by decide), h.2 "MESSAGE_ID" (by decide),
      h.2 "SYSLOG_FACILITY" (by decide), h.2 "SYSLOG_PID" (by decide),
      h.2 "SYSLOG_IDENTIFIER" (by decide)]
  · intro other h
    simp [recordFromJournalEntryFields, h.1, h.2 "_PID" (by decide), h.2 "_UID" (by decide),
      h.2 "_GID" (by decide), h.2 "_COMM" (by decide), h.2 "_EXE" (by decide),
      h.2 "_SYSTEMD_UNIT" (by decide), h.2 "_BOOT_ID" (by decide),
      h.2 "_MACHINE_ID" (by decide), h.2 "_HOSTNAME" (by decide), h.2 "_TRANSPORT" (by decide),
      h.2 "PRIORITY" (by decide), h.2 "MESSAGE" (by decide), h.2 "MESSAGE_ID" (by decide),
      h.2 "SYSLOG_FACILITY" (by decide), h.2 "SYSLOG_PID" (by decide),
      h.2 "SYSLOG_IDENTIFIER" (by decide)]
  · intro other h
    simp [recordFromJournalEntryFields, h.1, h.2 "_PID" (by decide), h.2 "_UID" (by decide),
      h.2 "_GID" (by decide), h.2 "ERRNO" (by decide), h.2 "_COMM" (by decide),
      h.2 "_EXE" (by decide), h.2 "_SYSTEMD_UNIT" (by decide), h.2 "_BOOT_ID" (by decide),
      h.2 "_MACHINE_ID" (by decide), h.2 "_HOSTNAME" (by decide), h.2 "_TRANSPORT" (by decide),
      h.2 "PRIORITY" (by decide), h.2 "MESSAGE" (by decide), h.2 "MESSAGE_ID" (by decide),
      h.2 "SYSLOG_PID" (by decide), h.2 "SYSLOG_IDENTIFIER" (by decide)]
  · intro other h
    simp [recordFromJournalEntryFields, h.1, h.2 "_PID" (by decide), h.2 "_UID" (by decide),
      h.2 "_GID" (by decide), h.2 "ERRNO" (by decide), h.2 "_COMM" (by decide),
      h.2 "_EXE" (by decide), h.2 "_SYSTEMD_UNIT" (by decide), h.2 "_BOOT_ID" (by decide),
      h.2 "_MACHINE_ID" (by decide), h.2 "_HOSTNAME" (by decide), h.2 "_TRANSPORT" (by decide),
      h.2 "PRIORITY" (by decide), h.2 "MESSAGE" (by decide), h.2 "MESSAGE_ID" (by decide),
      h.2 "SYSLOG_FACILITY" (by decide), h.2 "SYSLOG_IDENTIFIER" (by decide)]

theorem exampleEntryBadPID_agreesExcept :
    exampleEntryBadPID.agreesExcept exampleEntry "_PID" :=
  ⟨rfl, fun k hk => by
    have hb : (k == "_PID") = false := beq_eq_false_iff_ne.2 hk
    simp [JournalEntry.field, exampleEntryBadPID, List.lookup, hb]⟩

theorem unparsable_numbers_default_to_zero_witness :
    isDecimalInteger (exampleEntryBadPID.field "_PID") = false ∧
    (recordFromJournalEntryFields exampleEntryBadPID).PID = 0 ∧
    exampleEntryBadPID.agreesExcept exampleEntry "_PID" ∧
    recordFromJournalEntryFields exampleEntry =
      { recordFromJournalEntryFields exampleEntryBadPID with
        PID := (recordFromJournalEntryFields exampleEntry).PID } ∧
    (recordFromJournalEntryFields exampleEntry).PID = 1 ∧
    isDecimalInteger (exampleEntry.field "ERRNO") = false ∧
    (recordFromJournalEntryFields exampleEntry).ErrNo = 0 :=
  ⟨by decide,
    (unparsable_numbers_default_to_zero exampleEntryBadPID).1 (by decide),
    exampleEntryBadPID_agreesExcept,
    (unparsable_numbers_default_to_zero exampleEntryBadPID).2.2.2.2.2.2.1 exampleEntry
      exampleEntryBadPID_agreesExcept,
    by decide, by decide,
    (unparsable_numbers_default_to_zero exampleEntry).2.2.2.1 (by decide)⟩

end JournaldToCwl
